import Mathlib

/-!
# Payslip: attendance ledger and payroll engine

A shallow embedding of the payroll core of the `payslip` service
(`internal/domain/services/attendance.go`, `internal/domain/services/payroll.go`
and the repositories under `internal/infrastructure/repository`), followed by
theorems about it.

Conventions of the embedding.

* `float64` amounts (salary, hours, pay) are held as the rationals they denote.
  The pay figures of a payroll run are computed exactly: every statement about
  them is a statement over exact arithmetic. Division by zero is one place where
  the two differ (`x / 0 = 0` in `ℚ`, `±Inf` or `NaN` in IEEE 754); no theorem
  below reads a quotient whose divisor is zero. The running total of the payroll
  summary is accumulated as the program does, each addition rounded to `float64`
  (`Float64.add`).
* `time.Time` values are calendar days at midnight, held as the number of days
  since 0001-01-01 (a Monday), the zero instant of the Go `time` package.
* `uuid.New()` draws from an identifier supply `ids : Nat → UUID` handed to the
  operation; the timestamps and the free-text `Details` of an audit row are not
  recorded.
* The database is a record of tables (lists in insertion order). Every call of a
  repository method may fail: a fault oracle `Faults` says which calls do.
-/

namespace Payslip

/-! ## Identifiers (`github.com/google/uuid`) -/

/-- A `uuid.UUID`: the 128-bit value, read as a natural number. -/
abbrev UUID := Nat

/-- Value of one hexadecimal digit, either case (`xvalues` of the uuid package). -/
def xvalue (c : Char) : Option Nat :=
  if '0' ≤ c ∧ c ≤ '9' then some (c.toNat - '0'.toNat)
  else if 'a' ≤ c ∧ c ≤ 'f' then some (c.toNat - 'a'.toNat + 10)
  else if 'A' ≤ c ∧ c ≤ 'F' then some (c.toNat - 'A'.toNat + 10)
  else none

/-- Value of a run of hexadecimal digits, most significant first; `acc` is the value so far. -/
def hexValue : List Char → Nat → Option Nat
  | [], acc => some acc
  | c :: cs, acc =>
    match xvalue c with
    | some v => hexValue cs (16 * acc + v)
    | none => none

/-- The form `xxxxxxxx-xxxx-xxxx-xxxx-xxxxxxxxxxxx`, read off the first 36 characters. -/
def parseDashed (cs : List Char) : Option UUID :=
  if cs.get? 8 = some '-' ∧ cs.get? 13 = some '-' ∧ cs.get? 18 = some '-' ∧ cs.get? 23 = some '-' then
    hexValue (cs.take 8 ++ (cs.drop 9).take 4 ++ (cs.drop 14).take 4 ++ (cs.drop 19).take 4
      ++ (cs.drop 24).take 12) 0
  else none

/-- The function `uuid.Parse`: the four accepted forms, told apart by length (36: plain,
45: with the `urn:uuid:` prefix, 38: with one enclosing character on either side, 32: hex
digits only). The library indexes bytes; the model indexes characters, which is the same on
ASCII text. A text with a character outside ASCII is rejected by the library in every form
(its length in bytes is none of the four, or a byte of that character falls where a digit or
a dash is read), and is rejected here at once. -/
def uuidParse (s : String) : Option UUID :=
  let cs := s.toList
  if cs.any (fun c => 128 ≤ c.toNat) then none
  else if cs.length = 36 then parseDashed cs
  else if cs.length = 45 then
    if (cs.take 9).map Char.toLower = "urn:uuid:".toList then parseDashed (cs.drop 9) else none
  else if cs.length = 38 then parseDashed (cs.drop 1)
  else if cs.length = 32 then hexValue cs 0
  else none

/-! ## Calendar days (`time`) -/

/-- The type `time.Weekday`. -/
inductive Weekday
  | Sunday | Monday | Tuesday | Wednesday | Thursday | Friday | Saturday
  deriving DecidableEq, Repr

/-- A `time.Time` at midnight: `day` counts the days since 0001-01-01. -/
structure Time where
  day : Int
  deriving DecidableEq, Repr

namespace Time

/-- The method `t.Before(u)`. -/
def Before (t u : Time) : Bool := decide (t.day < u.day)

/-- The method `t.After(u)`. -/
def After (t u : Time) : Bool := decide (u.day < t.day)

/-- The call `t.AddDate(0, 0, 1)`: the next calendar day. -/
def AddDay (t : Time) : Time := ⟨t.day + 1⟩

/-- The method `t.Weekday()`. Day 0 (0001-01-01) is a Monday. -/
def Weekday (t : Time) : Payslip.Weekday :=
  match ((t.day + 1) % 7).toNat with
  | 0 => .Sunday
  | 1 => .Monday
  | 2 => .Tuesday
  | 3 => .Wednesday
  | 4 => .Thursday
  | 5 => .Friday
  | _ => .Saturday

/-- Leap years of the proleptic Gregorian calendar. -/
def isLeap (year : Nat) : Bool :=
  year % 4 == 0 && (year % 100 != 0 || year % 400 == 0)

/-- Number of days of a month (`daysIn`). -/
def daysIn (month year : Nat) : Nat :=
  if month = 2 then (if isLeap year then 29 else 28)
  else if month = 4 ∨ month = 6 ∨ month = 9 ∨ month = 11 then 30
  else 31

/-- Days of `year` that precede the first of `month`. -/
def daysBefore : Nat → Nat → Nat
  | 0, _ => 0
  | 1, _ => 0
  | m + 1, year => daysBefore m year + daysIn m year

/-- The call `time.Date(year, month, day, 0, 0, 0, 0, time.UTC)` for a valid civil date with
`0 ≤ year`. Years before 0001 come out negative: year 0 is a leap year of 366 days. -/
def Date (year month day : Nat) : Time :=
  ⟨((365 * year + (year + 3) / 4 + (year + 399) / 400 + daysBefore month year + day : Nat) : Int)
    - (((year + 99) / 100 : Nat) : Int) - 367⟩

/-- Value of a run of decimal digits, `none` when a character is not a digit. -/
def atoi : List Char → Nat → Option Nat
  | [], acc => some acc
  | c :: cs, acc => if c.isDigit then atoi cs (10 * acc + (c.toNat - '0'.toNat)) else none

/-- The call `time.Parse("2006-01-02", value)`: exactly four digits, a dash, two digits, a
dash, two digits, nothing after; the month in 1..12 and the day in 1..`daysIn`. `none` stands
for the parse error. -/
def Parse (value : String) : Option Time :=
  match value.toList with
  | [y1, y2, y3, y4, s1, m1, m2, s2, d1, d2] =>
    if s1 = '-' ∧ s2 = '-' then
      match atoi [y1, y2, y3, y4] 0, atoi [m1, m2] 0, atoi [d1, d2] 0 with
      | some year, some month, some day =>
        if month < 1 ∨ 12 < month then none
        else if day < 1 ∨ daysIn month year < day then none
        else some (Date year month day)
      | _, _, _ => none
    else none
  | _ => none

end Time

/-! ## Data model (`internal/domain/models`) -/

/-- The model `models.AttendancePeriod`. -/
structure AttendancePeriod where
  ID : UUID
  StartDate : Time
  EndDate : Time
  CreatedBy : UUID
  UpdatedBy : UUID
  deriving DecidableEq, Repr

/-- The model `models.Attendance`. -/
structure Attendance where
  ID : UUID
  UserID : UUID
  Date : Time
  PeriodID : UUID
  CreatedBy : UUID
  UpdatedBy : UUID
  IPAddress : String
  deriving DecidableEq, Repr

/-- The model `models.Overtime`. -/
structure Overtime where
  ID : UUID
  UserID : UUID
  Date : Time
  Hours : ℚ
  PeriodID : UUID
  CreatedBy : UUID
  UpdatedBy : UUID
  IPAddress : String
  deriving DecidableEq, Repr

/-- The model `models.Reimbursement`. -/
structure Reimbursement where
  ID : UUID
  UserID : UUID
  Amount : ℚ
  Description : String
  PeriodID : UUID
  CreatedBy : UUID
  UpdatedBy : UUID
  IPAddress : String
  deriving DecidableEq, Repr

/-- The model `models.Payroll`. -/
structure Payroll where
  ID : UUID
  PeriodID : UUID
  UserID : UUID
  BaseSalary : ℚ
  OvertimePay : ℚ
  ReimbursementAmount : ℚ
  TotalPay : ℚ
  CreatedBy : UUID
  IPAddress : String
  deriving DecidableEq, Repr

/-- The model `models.AuditLog` (without `Details` and `CreatedAt`). -/
structure AuditLog where
  ID : UUID
  Action : String
  TableName : String
  RecordID : UUID
  UserID : UUID
  IPAddress : String
  RequestID : String
  deriving DecidableEq, Repr

/-- The model `models.User` (the fields the payroll core reads). -/
structure User where
  ID : UUID
  Username : String
  Role : String
  Salary : ℚ
  deriving DecidableEq, Repr

/-- The database: one list per table, rows in insertion order. -/
structure Store where
  users : List User
  periods : List AttendancePeriod
  attendances : List Attendance
  overtimes : List Overtime
  reimbursements : List Reimbursement
  payrolls : List Payroll
  auditLogs : List AuditLog
  deriving DecidableEq, Repr

/-- One call of a repository method, with its arguments. -/
inductive Call
  | CreatePeriod (period : AttendancePeriod)
  | FindPeriodByID (id : UUID)
  | CreateAttendance (attendance : Attendance)
  | FindAttendanceByUserAndDate (userID : UUID) (date : Time) (periodID : UUID)
  | CreateOvertime (overtime : Overtime)
  | CreateReimbursement (reimbursement : Reimbursement)
  | IsPayrollProcessed (periodID : UUID)
  | CreatePayroll (payroll : Payroll)
  | FindPayrollByPeriodAndUser (periodID userID : UUID)
  | FindPayrollsByPeriod (periodID : UUID)
  | FindAttendancesByUserAndPeriod (userID periodID : UUID)
  | FindOvertimesByUserAndPeriod (userID periodID : UUID)
  | FindReimbursementsByUserAndPeriod (userID periodID : UUID)
  | FindEmployees
  | CountAttendance (userID periodID : UUID)
  | SumOvertimeHours (userID periodID : UUID)
  | SumReimbursementAmount (userID periodID : UUID)
  | FindUserByID (userID : UUID)
  | AuditCreate (audit : AuditLog)
  deriving DecidableEq, Repr

/-- The fault oracle: `F c = true` when the database call `c` comes back with an error. -/
abbrev Faults := Call → Bool

/-- The database that answers every call. -/
def noFaults : Faults := fun _ => false

/-- The errors the services return, one per message of the source. -/
inductive Err
  | invalidStartDate
  | invalidEndDate
  | endBeforeStart
  | createPeriodFailed
  | invalidDate
  | invalidPeriodID
  | payrollProcessed
  | weekend
  | duplicateAttendance
  | submitAttendanceFailed
  | overtimeExceeds
  | submitOvertimeFailed
  | amountNotPositive
  | descriptionRequired
  | submitReimbursementFailed
  | auditFailed
  | periodNotFound
  | findEmployeesFailed
  | countAttendanceFailed (user : UUID)
  | sumOvertimeFailed (user : UUID)
  | sumReimbursementFailed (user : UUID)
  | createPayrollFailed (user : UUID)
  | payrollNotFound
  | findAttendancesFailed
  | findOvertimesFailed
  | findReimbursementsFailed
  | findPayrollsFailed
  | findUserFailed (user : UUID)
  deriving DecidableEq, Repr

/-- The text each error starts with (the wrapped cause is left out). -/
def Err.message : Err → String
  | .invalidStartDate => "invalid start date format"
  | .invalidEndDate => "invalid end date format"
  | .endBeforeStart => "end date must be after start date"
  | .createPeriodFailed => "failed to create period"
  | .invalidDate => "invalid date format"
  | .invalidPeriodID => "invalid period ID"
  | .payrollProcessed => "payroll already processed for this period"
  | .weekend => "cannot submit attendance on weekends"
  | .duplicateAttendance => "attendance already submitted for this date"
  | .submitAttendanceFailed => "failed to submit attendance"
  | .overtimeExceeds => "overtime cannot exceed 3 hours per day"
  | .submitOvertimeFailed => "failed to submit overtime"
  | .amountNotPositive => "amount must be positive"
  | .descriptionRequired => "description is required"
  | .submitReimbursementFailed => "failed to submit reimbursement"
  | .auditFailed => "failed to log audit"
  | .periodNotFound => "period not found"
  | .findEmployeesFailed => "failed to find employees"
  | .countAttendanceFailed _ => "failed to count attendance for user"
  | .sumOvertimeFailed _ => "failed to sum overtime for user"
  | .sumReimbursementFailed _ => "failed to sum reimbursement for user"
  | .createPayrollFailed _ => "failed to create payroll for user"
  | .payrollNotFound => "payroll not found"
  | .findAttendancesFailed => "failed to find attendances"
  | .findOvertimesFailed => "failed to find overtimes"
  | .findReimbursementsFailed => "failed to find reimbursements"
  | .findPayrollsFailed => "failed to find payrolls"
  | .findUserFailed _ => "failed to find user"

deriving instance DecidableEq for Except

/-! ## Repositories (`internal/infrastructure/repository`)

A lookup returns `none` for the error result of the source (`First` on no row, or a failed
call); a write returns the new database, or `none` when the call fails and nothing is
written. -/

/-- The row with the least identifier, the earliest inserted among equals: what `First` picks
from the rows a `WHERE` clause selects. -/
def firstByID {α : Type} (key : α → UUID) : List α → Option α
  | [] => none
  | x :: xs =>
    match firstByID key xs with
    | none => some x
    | some y => if key x ≤ key y then some x else some y

namespace AttendanceRepository

/-- Insert a period row. -/
def CreatePeriod (F : Faults) (s : Store) (period : AttendancePeriod) : Option Store :=
  if F (.CreatePeriod period) then none else some { s with periods := s.periods ++ [period] }

/-- The row `WHERE id = ?`, an error when there is none. -/
def FindPeriodByID (F : Faults) (s : Store) (id : UUID) : Option AttendancePeriod :=
  if F (.FindPeriodByID id) then none else s.periods.find? (fun p => p.ID = id)

/-- Insert an attendance row. -/
def CreateAttendance (F : Faults) (s : Store) (attendance : Attendance) : Option Store :=
  if F (.CreateAttendance attendance) then none
  else some { s with attendances := s.attendances ++ [attendance] }

/-- The row `WHERE user_id = ? AND date = ? AND period_id = ?`, an error when there is none. -/
def FindAttendanceByUserAndDate (F : Faults) (s : Store) (userID : UUID) (date : Time)
    (periodID : UUID) : Option Attendance :=
  if F (.FindAttendanceByUserAndDate userID date periodID) then none
  else s.attendances.find? (fun a => a.UserID = userID ∧ a.Date = date ∧ a.PeriodID = periodID)

/-- Insert an overtime row. -/
def CreateOvertime (F : Faults) (s : Store) (overtime : Overtime) : Option Store :=
  if F (.CreateOvertime overtime) then none
  else some { s with overtimes := s.overtimes ++ [overtime] }

/-- Insert a reimbursement row. -/
def CreateReimbursement (F : Faults) (s : Store) (reimbursement : Reimbursement) :
    Option Store :=
  if F (.CreateReimbursement reimbursement) then none
  else some { s with reimbursements := s.reimbursements ++ [reimbursement] }

/-- Whether the payroll table has a row `WHERE period_id = ?`. The source drops the error of
the count query: on a failed call `count` keeps its initial 0 and the answer is `false`. -/
def IsPayrollProcessed (F : Faults) (s : Store) (periodID : UUID) : Bool :=
  let count := if F (.IsPayrollProcessed periodID) then 0
    else (s.payrolls.filter (fun p => p.PeriodID = periodID)).length
  decide (count > 0)

end AttendanceRepository

namespace PayrollRepository

/-- Insert a payroll row. -/
def CreatePayroll (F : Faults) (s : Store) (payroll : Payroll) : Option Store :=
  if F (.CreatePayroll payroll) then none
  else some { s with payrolls := s.payrolls ++ [payroll] }

/-- The row `WHERE period_id = ? AND user_id = ?`, an error when there is none. `First` reads
`ORDER BY id LIMIT 1`: of several matching rows it returns the one with the least identifier. -/
def FindPayrollByPeriodAndUser (F : Faults) (s : Store) (periodID userID : UUID) :
    Option Payroll :=
  if F (.FindPayrollByPeriodAndUser periodID userID) then none
  else firstByID (fun p => p.ID)
    (s.payrolls.filter (fun p => p.PeriodID = periodID ∧ p.UserID = userID))

/-- The rows `WHERE period_id = ?`. -/
def FindPayrollsByPeriod (F : Faults) (s : Store) (periodID : UUID) : Option (List Payroll) :=
  if F (.FindPayrollsByPeriod periodID) then none
  else some (s.payrolls.filter (fun p => p.PeriodID = periodID))

/-- The attendance rows `WHERE user_id = ? AND period_id = ?`. -/
def FindAttendancesByUserAndPeriod (F : Faults) (s : Store) (userID periodID : UUID) :
    Option (List Attendance) :=
  if F (.FindAttendancesByUserAndPeriod userID periodID) then none
  else some (s.attendances.filter (fun a => a.UserID = userID ∧ a.PeriodID = periodID))

/-- The overtime rows `WHERE user_id = ? AND period_id = ?`. -/
def FindOvertimesByUserAndPeriod (F : Faults) (s : Store) (userID periodID : UUID) :
    Option (List Overtime) :=
  if F (.FindOvertimesByUserAndPeriod userID periodID) then none
  else some (s.overtimes.filter (fun o => o.UserID = userID ∧ o.PeriodID = periodID))

/-- The reimbursement rows `WHERE user_id = ? AND period_id = ?`. -/
def FindReimbursementsByUserAndPeriod (F : Faults) (s : Store) (userID periodID : UUID) :
    Option (List Reimbursement) :=
  if F (.FindReimbursementsByUserAndPeriod userID periodID) then none
  else some (s.reimbursements.filter (fun r => r.UserID = userID ∧ r.PeriodID = periodID))

/-- The users `WHERE role = 'employee'`. -/
def FindEmployees (F : Faults) (s : Store) : Option (List User) :=
  if F .FindEmployees then none else some (s.users.filter (fun u => u.Role = "employee"))

/-- The number of attendance rows `WHERE user_id = ? AND period_id = ?`. -/
def CountAttendance (F : Faults) (s : Store) (userID periodID : UUID) : Option Nat :=
  if F (.CountAttendance userID periodID) then none
  else some (s.attendances.filter (fun a => a.UserID = userID ∧ a.PeriodID = periodID)).length

/-- The value `SUM(hours)` over the overtime rows `WHERE user_id = ? AND period_id = ?`,
scanned into a `float64`. Over no row `SUM` is `NULL`, which does not scan into a `float64`:
the call then returns an error. -/
def SumOvertimeHours (F : Faults) (s : Store) (userID periodID : UUID) : Option ℚ :=
  if F (.SumOvertimeHours userID periodID) then none
  else
    match s.overtimes.filter (fun o => o.UserID = userID ∧ o.PeriodID = periodID) with
    | [] => none
    | o :: rows => some ((o :: rows).map (fun o => o.Hours)).sum

/-- The value `SUM(amount)` over the reimbursement rows `WHERE user_id = ? AND period_id = ?`,
scanned into a `float64`. Over no row `SUM` is `NULL`, which does not scan into a `float64`:
the call then returns an error. -/
def SumReimbursementAmount (F : Faults) (s : Store) (userID periodID : UUID) : Option ℚ :=
  if F (.SumReimbursementAmount userID periodID) then none
  else
    match s.reimbursements.filter (fun r => r.UserID = userID ∧ r.PeriodID = periodID) with
    | [] => none
    | r :: rows => some ((r :: rows).map (fun r => r.Amount)).sum

/-- The user `WHERE id = ?`, an error when there is none. -/
def FindUserByID (F : Faults) (s : Store) (userID : UUID) : Option User :=
  if F (.FindUserByID userID) then none else s.users.find? (fun u => u.ID = userID)

end PayrollRepository

namespace AuditRepository

/-- Insert an audit row. -/
def Create (F : Faults) (s : Store) (audit : AuditLog) : Option Store :=
  if F (.AuditCreate audit) then none else some { s with auditLogs := s.auditLogs ++ [audit] }

end AuditRepository

/-! ## Floating point (`float64`) -/

/-- The loop of `bitLength`. -/
def bitLength.go : Nat → Nat → Nat
  | 0, _ => 0
  | fuel + 1, n => if n = 0 then 0 else bitLength.go fuel (n / 2) + 1

/-- The number of binary digits of `n`: 0 for 0, and otherwise the `k` with
`2 ^ (k - 1) ≤ n < 2 ^ k`. -/
def bitLength (n : Nat) : Nat := bitLength.go n n

/-- The natural number nearest to `n / d` (for `d > 0`), a tie going to the even one. -/
def roundHalfEven (n d : Nat) : Nat :=
  if 2 * (n % d) < d then n / d
  else if d < 2 * (n % d) then n / d + 1
  else if (n / d) % 2 = 0 then n / d
  else n / d + 1

/-- A `float64`: a finite value, held as the rational it denotes, an infinity or a NaN. -/
inductive Float64
  | finite (q : ℚ)
  | posInf
  | negInf
  | nan
  deriving DecidableEq

namespace Float64

/-- The exponent `k` with `2 ^ k ≤ n / d < 2 ^ (k + 1)`, for `n > 0` and `d > 0`. -/
def log2 (n d : Nat) : Int :=
  let k : Int := (bitLength n : Int) - (bitLength d : Int)
  if d * 2 ^ k.toNat ≤ n * 2 ^ (-k).toNat then k else k - 1

/-- The exponent of the unit in the last place of the `float64` values around `n / d`: 52
below the exponent of `n / d`, and no less than -1074, the exponent of the subnormal
numbers. -/
def ulpExp (n d : Nat) : Int := max (log2 n d - 52) (-1074)

/-- The magnitude `m * 2 ^ e` as a rational. -/
def scale (m : Nat) (e : Int) : ℚ :=
  ((m * 2 ^ e.toNat : Nat) : ℚ) / ((2 ^ (-e).toNat : Nat) : ℚ)

/-- The conversion of an exact result to `float64`, rounding to nearest with ties to even
(IEEE 754 binary64: 53 significant bits, exponents down to -1074, overflow to an infinity
from `2 ^ 1024` on). -/
def ofRat (q : ℚ) : Float64 :=
  if q.num = 0 then .finite 0
  else
    let n := q.num.natAbs
    let e := ulpExp n q.den
    let m := roundHalfEven (n * 2 ^ (-e).toNat) (q.den * 2 ^ e.toNat)
    if 2 ^ 1024 ≤ m * 2 ^ e.toNat then (if 0 < q.num then .posInf else .negInf)
    else if 0 < q.num then .finite (scale m e)
    else .finite (- scale m e)

/-- The sum `x + y` of two `float64` values. -/
def add : Float64 → Float64 → Float64
  | .finite a, .finite b => ofRat (a + b)
  | .nan, _ => .nan
  | _, .nan => .nan
  | .posInf, .negInf => .nan
  | .negInf, .posInf => .nan
  | .posInf, _ => .posInf
  | _, .posInf => .posInf
  | .negInf, _ => .negInf
  | _, .negInf => .negInf

end Float64

/-! ## Services (`internal/domain/services`)

A service method returns its result together with the database it leaves behind. -/

/-- The loop of `countWorkingDays`: `d` is the day under inspection, `count` the weekdays met
so far. It is defined by recursion on the distance from `d` to the day after `stop`. -/
def countWorkingDays.loop (stop : Time) (d : Time) (count : Nat) : Nat :=
  if d.After stop then count
  else
    countWorkingDays.loop stop d.AddDay
      (if d.Weekday ≠ Weekday.Saturday ∧ d.Weekday ≠ Weekday.Sunday then count + 1 else count)
termination_by (stop.day + 1 - d.day).toNat
decreasing_by
  all_goals simp_wf
  all_goals simp only [Time.After, decide_eq_true_eq, Time.AddDay] at *
  all_goals omega

/-- The function `countWorkingDays(start, end)`. -/
def countWorkingDays (start stop : Time) : Nat :=
  countWorkingDays.loop stop start 0

namespace AttendanceService

/-- The method `AttendanceService.CreatePeriod`. -/
def CreatePeriod (F : Faults) (ids : Nat → UUID) (s : Store) (startDate endDate : String)
    (userID : UUID) (ipAddress requestID : String) : Except Err AttendancePeriod × Store :=
  match Time.Parse startDate with
  | none => (.error .invalidStartDate, s)
  | some start =>
    match Time.Parse endDate with
    | none => (.error .invalidEndDate, s)
    | some stop =>
      if stop.Before start then (.error .endBeforeStart, s)
      else
        let period : AttendancePeriod :=
          { ID := ids 0, StartDate := start, EndDate := stop, CreatedBy := userID,
            UpdatedBy := userID }
        match AttendanceRepository.CreatePeriod F s period with
        | none => (.error .createPeriodFailed, s)
        | some s1 =>
          let audit : AuditLog :=
            { ID := ids 1, Action := "create", TableName := "attendance_period",
              RecordID := period.ID, UserID := userID, IPAddress := ipAddress,
              RequestID := requestID }
          match AuditRepository.Create F s1 audit with
          | none => (.error .auditFailed, s1)
          | some s2 => (.ok period, s2)

/-- The method `AttendanceService.SubmitAttendance`. -/
def SubmitAttendance (F : Faults) (ids : Nat → UUID) (s : Store) (date periodID : String)
    (userID : UUID) (ipAddress requestID : String) : Except Err Attendance × Store :=
  match Time.Parse date with
  | none => (.error .invalidDate, s)
  | some parsedDate =>
    match uuidParse periodID with
    | none => (.error .invalidPeriodID, s)
    | some parsedPeriodID =>
      if AttendanceRepository.IsPayrollProcessed F s parsedPeriodID then
        (.error .payrollProcessed, s)
      else if parsedDate.Weekday = Weekday.Saturday ∨ parsedDate.Weekday = Weekday.Sunday then
        (.error .weekend, s)
      else if (AttendanceRepository.FindAttendanceByUserAndDate F s userID parsedDate
          parsedPeriodID).isSome then
        (.error .duplicateAttendance, s)
      else
        let attendance : Attendance :=
          { ID := ids 0, UserID := userID, Date := parsedDate, PeriodID := parsedPeriodID,
            CreatedBy := userID, UpdatedBy := userID, IPAddress := ipAddress }
        match AttendanceRepository.CreateAttendance F s attendance with
        | none => (.error .submitAttendanceFailed, s)
        | some s1 =>
          let audit : AuditLog :=
            { ID := ids 1, Action := "create", TableName := "attendance",
              RecordID := attendance.ID, UserID := userID, IPAddress := ipAddress,
              RequestID := requestID }
          match AuditRepository.Create F s1 audit with
          | none => (.error .auditFailed, s1)
          | some s2 => (.ok attendance, s2)

/-- The method `AttendanceService.SubmitOvertime`. -/
def SubmitOvertime (F : Faults) (ids : Nat → UUID) (s : Store) (date : String) (hours : ℚ)
    (periodID : String) (userID : UUID) (ipAddress requestID : String) :
    Except Err Overtime × Store :=
  match Time.Parse date with
  | none => (.error .invalidDate, s)
  | some parsedDate =>
    match uuidParse periodID with
    | none => (.error .invalidPeriodID, s)
    | some parsedPeriodID =>
      if AttendanceRepository.IsPayrollProcessed F s parsedPeriodID then
        (.error .payrollProcessed, s)
      else if hours > 3 then (.error .overtimeExceeds, s)
      else
        let overtime : Overtime :=
          { ID := ids 0, UserID := userID, Date := parsedDate, Hours := hours,
            PeriodID := parsedPeriodID, CreatedBy := userID, UpdatedBy := userID,
            IPAddress := ipAddress }
        match AttendanceRepository.CreateOvertime F s overtime with
        | none => (.error .submitOvertimeFailed, s)
        | some s1 =>
          let audit : AuditLog :=
            { ID := ids 1, Action := "create", TableName := "overtime",
              RecordID := overtime.ID, UserID := userID, IPAddress := ipAddress,
              RequestID := requestID }
          match AuditRepository.Create F s1 audit with
          | none => (.error .auditFailed, s1)
          | some s2 => (.ok overtime, s2)

/-- The method `AttendanceService.SubmitReimbursement`. -/
def SubmitReimbursement (F : Faults) (ids : Nat → UUID) (s : Store) (amount : ℚ)
    (description periodID : String) (userID : UUID) (ipAddress requestID : String) :
    Except Err Reimbursement × Store :=
  match uuidParse periodID with
  | none => (.error .invalidPeriodID, s)
  | some parsedPeriodID =>
    if AttendanceRepository.IsPayrollProcessed F s parsedPeriodID then
      (.error .payrollProcessed, s)
    else if amount ≤ 0 then (.error .amountNotPositive, s)
    else if description = "" then (.error .descriptionRequired, s)
    else
      let reimbursement : Reimbursement :=
        { ID := ids 0, UserID := userID, Amount := amount, Description := description,
          PeriodID := parsedPeriodID, CreatedBy := userID, UpdatedBy := userID,
          IPAddress := ipAddress }
      match AttendanceRepository.CreateReimbursement F s reimbursement with
      | none => (.error .submitReimbursementFailed, s)
      | some s1 =>
        let audit : AuditLog :=
          { ID := ids 1, Action := "create", TableName := "reimbursement",
            RecordID := reimbursement.ID, UserID := userID, IPAddress := ipAddress,
            RequestID := requestID }
        match AuditRepository.Create F s1 audit with
        | none => (.error .auditFailed, s1)
        | some s2 => (.ok reimbursement, s2)

end AttendanceService

namespace PayrollService

/-- One pass of the `for _, user := range employees` loop of `RunPayroll`, for the `i`-th
employee: the three aggregates, the pay figures, the payroll row and its audit row. -/
def RunPayroll.body (F : Faults) (ids : Nat → UUID) (parsedPeriodID : UUID)
    (totalWorkingHours : ℚ) (userID : UUID) (ipAddress requestID : String) (i : Nat)
    (user : User) (s : Store) : Except Err Unit × Store :=
  match PayrollRepository.CountAttendance F s user.ID parsedPeriodID with
  | none => (.error (.countAttendanceFailed user.ID), s)
  | some attendanceCount =>
    let salaryPerHour := user.Salary / totalWorkingHours
    let baseSalary := salaryPerHour * ((attendanceCount * 8 : Nat) : ℚ)
    match PayrollRepository.SumOvertimeHours F s user.ID parsedPeriodID with
    | none => (.error (.sumOvertimeFailed user.ID), s)
    | some totalOvertimeHours =>
      let overtimePay := salaryPerHour * 2 * totalOvertimeHours
      match PayrollRepository.SumReimbursementAmount F s user.ID parsedPeriodID with
      | none => (.error (.sumReimbursementFailed user.ID), s)
      | some totalReimbursement =>
        let totalPay := baseSalary + overtimePay + totalReimbursement
        let payroll : Payroll :=
          { ID := ids (2 * i), PeriodID := parsedPeriodID, UserID := user.ID,
            BaseSalary := baseSalary, OvertimePay := overtimePay,
            ReimbursementAmount := totalReimbursement, TotalPay := totalPay,
            CreatedBy := userID, IPAddress := ipAddress }
        match PayrollRepository.CreatePayroll F s payroll with
        | none => (.error (.createPayrollFailed user.ID), s)
        | some s1 =>
          let audit : AuditLog :=
            { ID := ids (2 * i + 1), Action := "create", TableName := "payroll",
              RecordID := payroll.ID, UserID := userID, IPAddress := ipAddress,
              RequestID := requestID }
          match AuditRepository.Create F s1 audit with
          | none => (.error .auditFailed, s1)
          | some s2 => (.ok (), s2)

/-- The `for _, user := range employees` loop of `RunPayroll`: the first failing pass ends
the run with its error, and what earlier passes wrote stays. -/
def RunPayroll.loop (F : Faults) (ids : Nat → UUID) (parsedPeriodID : UUID)
    (totalWorkingHours : ℚ) (userID : UUID) (ipAddress requestID : String) :
    List User → Nat → Store → Except Err Unit × Store
  | [], _, s => (.ok (), s)
  | user :: rest, i, s =>
    match RunPayroll.body F ids parsedPeriodID totalWorkingHours userID ipAddress requestID i
        user s with
    | (.error e, s1) => (.error e, s1)
    | (.ok _, s1) =>
      RunPayroll.loop F ids parsedPeriodID totalWorkingHours userID ipAddress requestID rest
        (i + 1) s1

/-- The method `PayrollService.RunPayroll`. -/
def RunPayroll (F : Faults) (ids : Nat → UUID) (s : Store) (periodID : String) (userID : UUID)
    (ipAddress requestID : String) : Except Err Unit × Store :=
  match uuidParse periodID with
  | none => (.error .invalidPeriodID, s)
  | some parsedPeriodID =>
    match AttendanceRepository.FindPeriodByID F s parsedPeriodID with
    | none => (.error .periodNotFound, s)
    | some period =>
      if AttendanceRepository.IsPayrollProcessed F s parsedPeriodID then
        (.error .payrollProcessed, s)
      else
        let workingDays := countWorkingDays period.StartDate period.EndDate
        let totalWorkingHours : ℚ := ((workingDays * 8 : Nat) : ℚ)
        match PayrollRepository.FindEmployees F s with
        | none => (.error .findEmployeesFailed, s)
        | some employees =>
          RunPayroll.loop F ids parsedPeriodID totalWorkingHours userID ipAddress requestID
            employees 0 s

/-- The payslip `GeneratePayslip` returns: the keys of its result map. -/
structure PayslipView where
  period : AttendancePeriod
  attendance : List Attendance
  overtime : List Overtime
  reimbursements : List Reimbursement
  base_salary : ℚ
  overtime_pay : ℚ
  reimbursement_amount : ℚ
  total_pay : ℚ
  deriving DecidableEq, Repr

/-- The method `PayrollService.GeneratePayslip`. -/
def GeneratePayslip (F : Faults) (s : Store) (periodID : String) (userID : UUID) :
    Except Err PayslipView × Store :=
  match uuidParse periodID with
  | none => (.error .invalidPeriodID, s)
  | some parsedPeriodID =>
    match PayrollRepository.FindPayrollByPeriodAndUser F s parsedPeriodID userID with
    | none => (.error .payrollNotFound, s)
    | some payroll =>
      match AttendanceRepository.FindPeriodByID F s parsedPeriodID with
      | none => (.error .periodNotFound, s)
      | some period =>
        match PayrollRepository.FindAttendancesByUserAndPeriod F s userID parsedPeriodID with
        | none => (.error .findAttendancesFailed, s)
        | some attendances =>
          match PayrollRepository.FindOvertimesByUserAndPeriod F s userID parsedPeriodID with
          | none => (.error .findOvertimesFailed, s)
          | some overtimes =>
            match PayrollRepository.FindReimbursementsByUserAndPeriod F s userID
                parsedPeriodID with
            | none => (.error .findReimbursementsFailed, s)
            | some reimbursements =>
              (.ok { period := period, attendance := attendances, overtime := overtimes,
                     reimbursements := reimbursements, base_salary := payroll.BaseSalary,
                     overtime_pay := payroll.OvertimePay,
                     reimbursement_amount := payroll.ReimbursementAmount,
                     total_pay := payroll.TotalPay }, s)

/-- One entry of the summary list: the keys `username` and `total_pay`. -/
structure SummaryEntry where
  username : String
  total_pay : ℚ
  deriving DecidableEq, Repr

/-- The summary `GeneratePayrollSummary` returns: the keys of its result map. -/
structure SummaryView where
  summary : List SummaryEntry
  total_payroll : Float64
  deriving DecidableEq

/-- The `for i, p := range payrolls` loop of `GeneratePayrollSummary`: `summary` holds the
entries filled so far, in order, and `totalPay` their running total, a `float64`. -/
def GeneratePayrollSummary.loop (F : Faults) (s : Store) :
    List Payroll → List SummaryEntry → Float64 → Except Err (List SummaryEntry × Float64)
  | [], summary, totalPay => .ok (summary, totalPay)
  | p :: rest, summary, totalPay =>
    match PayrollRepository.FindUserByID F s p.UserID with
    | none => .error (.findUserFailed p.UserID)
    | some user =>
      GeneratePayrollSummary.loop F s rest
        (summary ++ [{ username := user.Username, total_pay := p.TotalPay }])
        (Float64.add totalPay (.finite p.TotalPay))

/-- The method `PayrollService.GeneratePayrollSummary`. -/
def GeneratePayrollSummary (F : Faults) (s : Store) (periodID : String) :
    Except Err SummaryView × Store :=
  match uuidParse periodID with
  | none => (.error .invalidPeriodID, s)
  | some parsedPeriodID =>
    match PayrollRepository.FindPayrollsByPeriod F s parsedPeriodID with
    | none => (.error .findPayrollsFailed, s)
    | some payrolls =>
      match GeneratePayrollSummary.loop F s payrolls [] (.finite 0) with
      | .error e => (.error e, s)
      | .ok (summary, totalPay) => (.ok { summary := summary, total_payroll := totalPay }, s)

end PayrollService

/-! ## Vocabulary of the statements -/

/-- The test of the loop body of `countWorkingDays`: neither Saturday nor Sunday. -/
def Time.isWorkingDay (t : Time) : Bool :=
  decide (t.Weekday ≠ Weekday.Saturday ∧ t.Weekday ≠ Weekday.Sunday)

/-- A period is frozen when the payroll table has a row for it. -/
def Store.Frozen (s : Store) (periodID : UUID) : Prop :=
  ∃ p ∈ s.payrolls, p.PeriodID = periodID

/-- A period is open when the payroll table has no row for it. -/
def Store.Open (s : Store) (periodID : UUID) : Prop :=
  ∀ p ∈ s.payrolls, p.PeriodID ≠ periodID

/-- The users a payroll run pays: those whose role is `employee`, in table order. -/
def Store.employees (s : Store) : List User :=
  s.users.filter (fun u => u.Role = "employee")

/-- The attendance marks of a user in a period. -/
def Store.marksOf (s : Store) (userID periodID : UUID) : List Attendance :=
  s.attendances.filter (fun a => a.UserID = userID ∧ a.PeriodID = periodID)

/-- The attendance marks of a user on a date in a period. -/
def Store.marksOn (s : Store) (userID : UUID) (date : Time) (periodID : UUID) :
    List Attendance :=
  s.attendances.filter (fun a => a.UserID = userID ∧ a.Date = date ∧ a.PeriodID = periodID)

/-- The overtime hours of a user in a period, summed. -/
def Store.overtimeHoursSum (s : Store) (userID periodID : UUID) : ℚ :=
  ((s.overtimes.filter (fun o => o.UserID = userID ∧ o.PeriodID = periodID)).map
    (fun o => o.Hours)).sum

/-- The reimbursement amounts of a user in a period, summed. -/
def Store.reimbursementSum (s : Store) (userID periodID : UUID) : ℚ :=
  ((s.reimbursements.filter (fun r => r.UserID = userID ∧ r.PeriodID = periodID)).map
    (fun r => r.Amount)).sum

/-- The payroll rows of a user in a period. -/
def Store.payrollsOf (s : Store) (periodID userID : UUID) : List Payroll :=
  s.payrolls.filter (fun p => p.PeriodID = periodID ∧ p.UserID = userID)

/-- The row `p` is what a payroll run over the ledger of `s` computes for `user` in period
`periodID` when the period has `totalWorkingHours` working hours. -/
def PayrollFor (s : Store) (periodID : UUID) (totalWorkingHours : ℚ) (user : User)
    (p : Payroll) : Prop :=
  p.PeriodID = periodID ∧ p.UserID = user.ID ∧
  p.BaseSalary = user.Salary / totalWorkingHours *
    (((s.marksOf user.ID periodID).length * 8 : Nat) : ℚ) ∧
  p.OvertimePay = user.Salary / totalWorkingHours * 2 * s.overtimeHoursSum user.ID periodID ∧
  p.ReimbursementAmount = s.reimbursementSum user.ID periodID ∧
  p.TotalPay = p.BaseSalary + p.OvertimePay + p.ReimbursementAmount

/-- The audit row `a` records the creation of the payroll row `p`. -/
def AuditFor (p : Payroll) (a : AuditLog) : Prop :=
  a.Action = "create" ∧ a.TableName = "payroll" ∧ a.RecordID = p.ID

/-- The writing operations of the two services, with their arguments. -/
inductive Op
  | CreatePeriod (startDate endDate : String) (userID : UUID) (ipAddress requestID : String)
  | SubmitAttendance (date periodID : String) (userID : UUID) (ipAddress requestID : String)
  | SubmitOvertime (date : String) (hours : ℚ) (periodID : String) (userID : UUID)
      (ipAddress requestID : String)
  | SubmitReimbursement (amount : ℚ) (description periodID : String) (userID : UUID)
      (ipAddress requestID : String)
  | RunPayroll (periodID : String) (userID : UUID) (ipAddress requestID : String)
  deriving Repr

/-- The database an operation leaves behind, whatever it returns. -/
def Op.exec (F : Faults) (ids : Nat → UUID) (s : Store) : Op → Store
  | .CreatePeriod startDate endDate userID ipAddress requestID =>
    (AttendanceService.CreatePeriod F ids s startDate endDate userID ipAddress requestID).2
  | .SubmitAttendance date periodID userID ipAddress requestID =>
    (AttendanceService.SubmitAttendance F ids s date periodID userID ipAddress requestID).2
  | .SubmitOvertime date hours periodID userID ipAddress requestID =>
    (AttendanceService.SubmitOvertime F ids s date hours periodID userID ipAddress requestID).2
  | .SubmitReimbursement amount description periodID userID ipAddress requestID =>
    (AttendanceService.SubmitReimbursement F ids s amount description periodID userID ipAddress
      requestID).2
  | .RunPayroll periodID userID ipAddress requestID =>
    (PayrollService.RunPayroll F ids s periodID userID ipAddress requestID).2

/-- The databases the system can be in after `s0`: any number of service operations, each
with its own identifier supply and a fault oracle satisfying `ok`, interleaved with writes of
the identity subsystem, which owns the users table and appends audit rows of its own. -/
inductive ReachableVia (ok : Faults → Prop) (s0 : Store) : Store → Prop
  | init : ReachableVia ok s0 s0
  | step {s : Store} (F : Faults) (ids : Nat → UUID) (op : Op) :
      ReachableVia ok s0 s → ok F → ReachableVia ok s0 (op.exec F ids s)
  | identity {s : Store} (users : List User) (logs : List AuditLog) :
      ReachableVia ok s0 s →
      ReachableVia ok s0 { s with users := users, auditLogs := s.auditLogs ++ logs }

/-- Reachability under arbitrary database faults. -/
def Reachable (s0 s : Store) : Prop := ReachableVia (fun _ => True) s0 s

/-- The oracle answers every lookup of an attendance mark by user, date and period. -/
def Faults.answersMarkLookup (F : Faults) : Prop :=
  ∀ userID date periodID, F (.FindAttendanceByUserAndDate userID date periodID) = false

/-- Every attendance mark falls on a weekday. -/
def Store.MarksOnWeekdays (s : Store) : Prop :=
  ∀ a ∈ s.attendances, a.Date.Weekday ∈ [Weekday.Monday, Weekday.Tuesday, Weekday.Wednesday,
    Weekday.Thursday, Weekday.Friday]

/-- No two attendance marks share user, date and period. -/
def Store.MarksUnique (s : Store) : Prop :=
  ∀ userID date periodID, (s.marksOn userID date periodID).length ≤ 1

/-- Each table of `t` starts with the rows of the same table of `s`; the users table is left
aside. -/
def Store.Grows (s t : Store) : Prop :=
  s.periods <+: t.periods ∧ s.attendances <+: t.attendances ∧ s.overtimes <+: t.overtimes ∧
  s.reimbursements <+: t.reimbursements ∧ s.payrolls <+: t.payrolls ∧
  s.auditLogs <+: t.auditLogs

instance (s : Store) (periodID : UUID) : Decidable (s.Frozen periodID) := by
  unfold Store.Frozen
  infer_instance

instance (s : Store) (periodID : UUID) : Decidable (s.Open periodID) := by
  unfold Store.Open
  infer_instance

/-- The pay rules in the words of the specification, for a period of `workingDays` working
days: `salaryPerHour = monthlySalary / (workingDays * 8)`,
`baseSalary = salaryPerHour * attendanceCount * 8`,
`overtimePay = salaryPerHour * 2 * overtimeHoursSum` and
`totalPay = baseSalary + overtimePay + reimbursementSum`, the count and the sums being taken
over the ledger entries of the user in the period. -/
def SpecPay (s : Store) (periodID : UUID) (workingDays : Nat) (user : User) (p : Payroll) :
    Prop :=
  let salaryPerHour : ℚ := user.Salary / ((workingDays : ℚ) * 8)
  let attendanceCount : ℚ := ((s.marksOf user.ID periodID).length : ℚ)
  let overtimeHoursSum : ℚ := s.overtimeHoursSum user.ID periodID
  let reimbursementSum : ℚ := s.reimbursementSum user.ID periodID
  salaryPerHour * ((workingDays : ℚ) * 8) = user.Salary ∧
  p.BaseSalary = salaryPerHour * attendanceCount * 8 ∧
  p.OvertimePay = salaryPerHour * 2 * overtimeHoursSum ∧
  p.ReimbursementAmount = reimbursementSum ∧
  p.TotalPay = p.BaseSalary + p.OvertimePay + reimbursementSum

/-- The mark `SubmitAttendance` builds for a user, a parsed date and a parsed period, with
the first identifier of the supply. -/
def AttendanceService.markOf (ids : Nat → UUID) (userID : UUID) (date : Time) (periodID : UUID)
    (ipAddress : String) : Attendance :=
  { ID := ids 0, UserID := userID, Date := date, PeriodID := periodID, CreatedBy := userID,
    UpdatedBy := userID, IPAddress := ipAddress }

/-- The claim `SubmitOvertime` builds, with the first identifier of the supply. -/
def AttendanceService.overtimeOf (ids : Nat → UUID) (userID : UUID) (date : Time) (hours : ℚ)
    (periodID : UUID) (ipAddress : String) : Overtime :=
  { ID := ids 0, UserID := userID, Date := date, Hours := hours, PeriodID := periodID,
    CreatedBy := userID, UpdatedBy := userID, IPAddress := ipAddress }

/-- The claim `SubmitReimbursement` builds, with the first identifier of the supply. -/
def AttendanceService.reimbursementOf (ids : Nat → UUID) (userID : UUID) (amount : ℚ)
    (description : String) (periodID : UUID) (ipAddress : String) : Reimbursement :=
  { ID := ids 0, UserID := userID, Amount := amount, Description := description,
    PeriodID := periodID, CreatedBy := userID, UpdatedBy := userID, IPAddress := ipAddress }

/-- The period `CreatePeriod` builds, with the first identifier of the supply. -/
def AttendanceService.periodOf (ids : Nat → UUID) (start stop : Time) (userID : UUID) :
    AttendancePeriod :=
  { ID := ids 0, StartDate := start, EndDate := stop, CreatedBy := userID, UpdatedBy := userID }

/-- The audit row the services of the attendance ledger write after creating the record
`ids 0` in `table`, with the second identifier of the supply. -/
def AttendanceService.auditOf (ids : Nat → UUID) (table : String) (userID : UUID)
    (ipAddress requestID : String) : AuditLog :=
  { ID := ids 1, Action := "create", TableName := table, RecordID := ids 0, UserID := userID,
    IPAddress := ipAddress, RequestID := requestID }

/-- No stored overtime claim exceeds 3 hours. -/
def Store.OvertimesAtMost3 (s : Store) : Prop :=
  ∀ o ∈ s.overtimes, o.Hours ≤ 3

/-- Every stored reimbursement claim has a positive amount and a description. -/
def Store.ReimbursementsValid (s : Store) : Prop :=
  ∀ r ∈ s.reimbursements, 0 < r.Amount ∧ r.Description ≠ ""

/-- Every stored period ends on or after the day it starts. -/
def Store.PeriodsOrdered (s : Store) : Prop :=
  ∀ p ∈ s.periods, p.StartDate.day ≤ p.EndDate.day

/-- The validation errors of the attendance ledger: what `CreatePeriod` and the three
submissions return when they turn the input down, as opposed to a failed write. -/
def Err.isValidation : Err → Bool
  | .invalidStartDate => true
  | .invalidEndDate => true
  | .endBeforeStart => true
  | .invalidDate => true
  | .invalidPeriodID => true
  | .payrollProcessed => true
  | .weekend => true
  | .duplicateAttendance => true
  | .overtimeExceeds => true
  | .amountNotPositive => true
  | .descriptionRequired => true
  | _ => false

/-- The overtime claims of a user in a period. -/
def Store.overtimesOf (s : Store) (userID periodID : UUID) : List Overtime :=
  s.overtimes.filter (fun o => o.UserID = userID ∧ o.PeriodID = periodID)

/-- The reimbursement claims of a user in a period. -/
def Store.reimbursementsOf (s : Store) (userID periodID : UUID) : List Reimbursement :=
  s.reimbursements.filter (fun r => r.UserID = userID ∧ r.PeriodID = periodID)

/-- The payroll rows of a period, in table order. -/
def Store.payrollsIn (s : Store) (periodID : UUID) : List Payroll :=
  s.payrolls.filter (fun p => p.PeriodID = periodID)

/-- The payslip made of a period, the ledger entries of a user in that period and the four
pay figures of the payroll row `p`. -/
def PayrollService.payslipOf (s : Store) (period : AttendancePeriod) (userID periodID : UUID)
    (p : Payroll) : PayrollService.PayslipView :=
  { period := period, attendance := s.marksOf userID periodID,
    overtime := s.overtimesOf userID periodID,
    reimbursements := s.reimbursementsOf userID periodID, base_salary := p.BaseSalary,
    overtime_pay := p.OvertimePay, reimbursement_amount := p.ReimbursementAmount,
    total_pay := p.TotalPay }

/-- The `float64` sum of a list of amounts: accumulated from 0 in the order of the list, each
addition rounded. -/
def Float64.sum (xs : List ℚ) : Float64 :=
  xs.foldl (fun acc x => Float64.add acc (.finite x)) (.finite 0)

/-- The rational `q` is a finite `float64`: converting it rounds nothing off. -/
def Float64.Exact (q : ℚ) : Prop := Float64.ofRat q = .finite q

instance (q : ℚ) : Decidable (Float64.Exact q) := by unfold Float64.Exact; infer_instance

/-- The summary entry `e` is the one of the payroll row `p`: it carries the total pay of `p`
and the username under which the user of `p` resolves. -/
def SummaryFor (F : Faults) (s : Store) (p : Payroll) (e : PayrollService.SummaryEntry) :
    Prop :=
  e.total_pay = p.TotalPay ∧
  ∃ u, PayrollRepository.FindUserByID F s p.UserID = some u ∧ e.username = u.Username

/-- The user has an overtime claim and a reimbursement claim in the period, so that each of
the two sums of a payroll pass is taken over at least one row. -/
def Store.HasLedger (s : Store) (periodID : UUID) (user : User) : Prop :=
  s.overtimesOf user.ID periodID ≠ [] ∧ s.reimbursementsOf user.ID periodID ≠ []

/-- The audit row the `i`-th pass of the payroll loop builds. -/
def PayrollService.auditOf (ids : Nat → UUID) (userID : UUID) (ipAddress requestID : String)
    (i : Nat) : AuditLog :=
  { ID := ids (2 * i + 1), Action := "create", TableName := "payroll", RecordID := ids (2 * i),
    UserID := userID, IPAddress := ipAddress, RequestID := requestID }

/-- The payroll row the `i`-th pass of the payroll loop builds for `user`, from the ledger of
`s`. -/
def PayrollService.payrollOf (ids : Nat → UUID) (s : Store) (periodID : UUID)
    (totalWorkingHours : ℚ) (userID : UUID) (ipAddress : String) (i : Nat) (user : User) :
    Payroll :=
  { ID := ids (2 * i), PeriodID := periodID, UserID := user.ID,
    BaseSalary := user.Salary / totalWorkingHours *
      (((s.marksOf user.ID periodID).length * 8 : Nat) : ℚ),
    OvertimePay := user.Salary / totalWorkingHours * 2 * s.overtimeHoursSum user.ID periodID,
    ReimbursementAmount := s.reimbursementSum user.ID periodID,
    TotalPay := user.Salary / totalWorkingHours *
        (((s.marksOf user.ID periodID).length * 8 : Nat) : ℚ) +
      user.Salary / totalWorkingHours * 2 * s.overtimeHoursSum user.ID periodID +
      s.reimbursementSum user.ID periodID,
    CreatedBy := userID, IPAddress := ipAddress }

/-- The lookups and the insert of one pass of the payroll loop succeed for `user`: the three
queries are answered, each sum has a row to sum, and the insert is accepted. -/
def Faults.SucceedsFor (F : Faults) (s : Store) (periodID : UUID) (user : User) : Prop :=
  F (.CountAttendance user.ID periodID) = false ∧
  F (.SumOvertimeHours user.ID periodID) = false ∧
  s.overtimesOf user.ID periodID ≠ [] ∧
  F (.SumReimbursementAmount user.ID periodID) = false ∧
  s.reimbursementsOf user.ID periodID ≠ [] ∧
  ∀ p : Payroll, p.UserID = user.ID → F (.CreatePayroll p) = false

/-- A lookup or the insert of one pass of the payroll loop fails for `user`: a query is not
answered, a sum has no row to sum, or the insert is refused. -/
def Faults.FailsFor (F : Faults) (s : Store) (periodID : UUID) (user : User) : Prop :=
  F (.CountAttendance user.ID periodID) = true ∨
  F (.SumOvertimeHours user.ID periodID) = true ∨
  s.overtimesOf user.ID periodID = [] ∨
  F (.SumReimbursementAmount user.ID periodID) = true ∨
  s.reimbursementsOf user.ID periodID = [] ∨
  ∀ p : Payroll, p.UserID = user.ID → F (.CreatePayroll p) = true

/-- The error of the first step of the pass for `user` that fails, the insert being the last
of the four. -/
def Faults.failureOf (F : Faults) (s : Store) (periodID : UUID) (user : User) : Err :=
  if F (.CountAttendance user.ID periodID) then .countAttendanceFailed user.ID
  else if F (.SumOvertimeHours user.ID periodID) = true ∨ s.overtimesOf user.ID periodID = []
    then .sumOvertimeFailed user.ID
  else if F (.SumReimbursementAmount user.ID periodID) = true ∨
      s.reimbursementsOf user.ID periodID = []
    then .sumReimbursementFailed user.ID
  else .createPayrollFailed user.ID

/-- The call `t.AddDate(0, 0, k)`: the day `k` days later (earlier when `k` is negative). -/
def Time.AddDays (t : Time) (k : Int) : Time := ⟨t.day + k⟩

/-! ## Example data -/

/-- The text of the identifier 1. -/
def exPeriodID : String := "00000000-0000-0000-0000-000000000001"

/-- An identifier supply: 100, 101, 102, ... -/
def exIds : Nat → UUID := fun k => 100 + k

/-- An employee with a monthly salary of 4000000. -/
def exAnn : User := { ID := 7, Username := "ann", Role := "employee", Salary := 4000000 }

/-- An administrator. -/
def exRoot : User := { ID := 8, Username := "root", Role := "admin", Salary := 0 }

/-- Monday 2024-01-01 to Friday 2024-01-26: 20 working days. -/
def exPeriod : AttendancePeriod :=
  { ID := 1, StartDate := Time.Date 2024 1 1, EndDate := Time.Date 2024 1 26, CreatedBy := 8,
    UpdatedBy := 8 }

/-- Saturday 2024-01-06 to Sunday 2024-01-07: no working day. -/
def exWeekend : AttendancePeriod :=
  { ID := 1, StartDate := Time.Date 2024 1 6, EndDate := Time.Date 2024 1 7, CreatedBy := 8,
    UpdatedBy := 8 }

/-- One employee, one administrator, one open period and an empty ledger. -/
def exOpen : Store :=
  { users := [exAnn, exRoot], periods := [exPeriod], attendances := [], overtimes := [],
    reimbursements := [], payrolls := [], auditLogs := [] }

/-- The database `exOpen` with one payroll row for the period: the period is frozen. -/
def exFrozen : Store :=
  { exOpen with
    payrolls := [{ ID := 100, PeriodID := 1, UserID := 7, BaseSalary := 0, OvertimePay := 0,
                   ReimbursementAmount := 0, TotalPay := 0, CreatedBy := 8,
                   IPAddress := "10.0.0.1" }],
    auditLogs := [{ ID := 101, Action := "create", TableName := "payroll", RecordID := 100,
                    UserID := 8, IPAddress := "10.0.0.1", RequestID := "r1" }] }

/-- An open period and no employee: the only user is an administrator. -/
def exNoEmployee : Store :=
  { users := [exRoot], periods := [exPeriod], attendances := [], overtimes := [],
    reimbursements := [], payrolls := [], auditLogs := [] }

/-- The attendance mark of user 7 for Tuesday 2024-01-02 in period 1. -/
def exMark : Attendance :=
  { ID := 100, UserID := 7, Date := Time.Date 2024 1 2, PeriodID := 1, CreatedBy := 7,
    UpdatedBy := 7, IPAddress := "10.0.0.2" }

/-- The 20 working days of `exPeriod`, as offsets from its first day. -/
def exOffsets : List Nat :=
  [0, 1, 2, 3, 4, 7, 8, 9, 10, 11, 14, 15, 16, 17, 18, 21, 22, 23, 24, 25]

/-- One attendance mark of user 7 for each working day of `exPeriod`. -/
def exMarks : List Attendance :=
  exOffsets.map (fun k =>
    { ID := 200 + k, UserID := 7, Date := ⟨(Time.Date 2024 1 1).day + (k : Int)⟩, PeriodID := 1,
      CreatedBy := 7, UpdatedBy := 7, IPAddress := "10.0.0.2" })

/-- The database `exOpen` with full attendance of the employee and nothing else. -/
def exWorked : Store := { exOpen with attendances := exMarks }

/-- An overtime claim of user 7 in period 1: 2 hours on Tuesday 2024-01-02. -/
def exClaim : Overtime :=
  { ID := 300, UserID := 7, Date := Time.Date 2024 1 2, Hours := 2, PeriodID := 1,
    CreatedBy := 7, UpdatedBy := 7, IPAddress := "10.0.0.2" }

/-- An overtime claim of user 7 in period 1 of 0 hours. -/
def exIdleClaim : Overtime :=
  { ID := 300, UserID := 7, Date := Time.Date 2024 1 2, Hours := 0, PeriodID := 1,
    CreatedBy := 7, UpdatedBy := 7, IPAddress := "10.0.0.2" }

/-- A reimbursement claim of user 7 in period 1: 50000 for a taxi. -/
def exExpense : Reimbursement :=
  { ID := 400, UserID := 7, Amount := 50000, Description := "taxi", PeriodID := 1,
    CreatedBy := 7, UpdatedBy := 7, IPAddress := "10.0.0.2" }

/-- The payroll audit row of the first pass of a run started by user 8 with `exIds`. -/
def exPayrollAudit : AuditLog :=
  { ID := 101, Action := "create", TableName := "payroll", RecordID := 100, UserID := 8,
    IPAddress := "10.0.0.1", RequestID := "r1" }

/-- The database `exOpen` with one overtime claim and one reimbursement of the employee. -/
def exLedger : Store := { exOpen with overtimes := [exClaim], reimbursements := [exExpense] }

/-- The database `exLedger` after a payroll run: no day is paid, 2 overtime hours and the
reimbursement are. -/
def exLedgerPaid : Store :=
  { exLedger with
    payrolls := [{ ID := 100, PeriodID := 1, UserID := 7, BaseSalary := 0,
                   OvertimePay := 100000, ReimbursementAmount := 50000, TotalPay := 150000,
                   CreatedBy := 8, IPAddress := "10.0.0.1" }],
    auditLogs := [exPayrollAudit] }

/-- The database `exLedger` after user 7 has marked Tuesday 2024-01-02. -/
def exLedgerMarked : Store :=
  { exLedger with
    attendances := [exMark],
    auditLogs := [{ ID := 101, Action := "create", TableName := "attendance", RecordID := 100,
                    UserID := 7, IPAddress := "10.0.0.2", RequestID := "r2" }] }

/-- The database `exLedgerMarked` after a payroll run: one day out of 20 is paid. -/
def exLedgerMarkedPaid : Store :=
  { exLedgerMarked with
    payrolls := [{ ID := 100, PeriodID := 1, UserID := 7, BaseSalary := 200000,
                   OvertimePay := 100000, ReimbursementAmount := 50000, TotalPay := 350000,
                   CreatedBy := 8, IPAddress := "10.0.0.1" }],
    auditLogs := exLedgerMarked.auditLogs ++ [exPayrollAudit] }

/-- The database `exWorked` with one overtime claim of 2 hours and no reimbursement. -/
def exOvertime : Store := { exWorked with overtimes := [exClaim] }

/-- The database `exOvertime` with one reimbursement of 50000. -/
def exFull : Store := { exOvertime with reimbursements := [exExpense] }

/-- The database `exFull` after a payroll run. -/
def exFullPaid : Store :=
  { exFull with
    payrolls := [{ ID := 100, PeriodID := 1, UserID := 7, BaseSalary := 4000000,
                   OvertimePay := 100000, ReimbursementAmount := 50000, TotalPay := 4150000,
                   CreatedBy := 8, IPAddress := "10.0.0.1" }],
    auditLogs := [exPayrollAudit] }

/-- The database `exWorked` with one overtime claim of 0 hours and one reimbursement of
50000. -/
def exPlain : Store :=
  { exWorked with overtimes := [exIdleClaim], reimbursements := [exExpense] }

/-- The database `exPlain` after a payroll run. -/
def exPlainPaid : Store :=
  { exPlain with
    payrolls := [{ ID := 100, PeriodID := 1, UserID := 7, BaseSalary := 4000000,
                   OvertimePay := 0, ReimbursementAmount := 50000, TotalPay := 4050000,
                   CreatedBy := 8, IPAddress := "10.0.0.1" }],
    auditLogs := [exPayrollAudit] }

/-- One employee, with one overtime claim and one reimbursement, one administrator and an
open period that holds no working day. -/
def exWeekendStore : Store :=
  { users := [exAnn, exRoot], periods := [exWeekend], attendances := [],
    overtimes := [exClaim], reimbursements := [exExpense], payrolls := [], auditLogs := [] }

/-- The database `exOpen` after user 7 has marked Tuesday 2024-01-02. -/
def exMarked : Store :=
  { exOpen with
    attendances := [exMark],
    auditLogs := [{ ID := 101, Action := "create", TableName := "attendance", RecordID := 100,
                    UserID := 7, IPAddress := "10.0.0.2", RequestID := "r2" }] }

/-- A second employee, with a monthly salary of 2500000. -/
def exBob : User := { ID := 9, Username := "bob", Role := "employee", Salary := 2500000 }

/-- Two employees and a frozen period with one payroll row each: 4100000 and 2500000. -/
def exTwoPaid : Store :=
  { users := [exAnn, exBob, exRoot], periods := [exPeriod], attendances := exMarks,
    overtimes := [], reimbursements := [],
    payrolls := [{ ID := 100, PeriodID := 1, UserID := 7, BaseSalary := 4000000,
                   OvertimePay := 100000, ReimbursementAmount := 0, TotalPay := 4100000,
                   CreatedBy := 8, IPAddress := "10.0.0.1" },
                 { ID := 102, PeriodID := 1, UserID := 9, BaseSalary := 2500000,
                   OvertimePay := 0, ReimbursementAmount := 0, TotalPay := 2500000,
                   CreatedBy := 8, IPAddress := "10.0.0.1" }],
    auditLogs := [] }

/-- The `float64` nearest to 0.1. -/
def exTenth : ℚ := 3602879701896397 / 36028797018963968

/-- The `float64` nearest to 0.2. -/
def exFifth : ℚ := 3602879701896397 / 18014398509481984

/-- Two employees and a frozen period with one payroll row each, of total pay 0.1 and 0.2 as
`float64` values. -/
def exSmallPaid : Store :=
  { users := [exAnn, exBob, exRoot], periods := [exPeriod], attendances := [],
    overtimes := [], reimbursements := [],
    payrolls := [{ ID := 100, PeriodID := 1, UserID := 7, BaseSalary := 0,
                   OvertimePay := 0, ReimbursementAmount := exTenth, TotalPay := exTenth,
                   CreatedBy := 8, IPAddress := "10.0.0.1" },
                 { ID := 102, PeriodID := 1, UserID := 9, BaseSalary := 0,
                   OvertimePay := 0, ReimbursementAmount := exFifth, TotalPay := exFifth,
                   CreatedBy := 8, IPAddress := "10.0.0.1" }],
    auditLogs := [] }

/-- The database whose audit writes all fail, and whose other calls are answered. -/
def exAuditDown : Faults := fun c =>
  match c with
  | .AuditCreate _ => true
  | _ => false

/-- The database that fails to count the attendance of user 9 in period 1, and answers every
other call. -/
def exCountFails : Faults := fun c =>
  match c with
  | .CountAttendance userID periodID => decide (userID = 9 ∧ periodID = 1)
  | _ => false

/-- The database whose audit write for the record 102 fails, and whose other calls are
answered. -/
def exSecondAuditFails : Faults := fun c =>
  match c with
  | .AuditCreate l => decide (l.RecordID = 102)
  | _ => false

/-- An overtime claim of user 9 in period 1: 1 hour on Wednesday 2024-01-03. -/
def exBobClaim : Overtime :=
  { ID := 301, UserID := 9, Date := Time.Date 2024 1 3, Hours := 1, PeriodID := 1,
    CreatedBy := 9, UpdatedBy := 9, IPAddress := "10.0.0.3" }

/-- A reimbursement claim of user 9 in period 1: 20000 for a meal. -/
def exBobExpense : Reimbursement :=
  { ID := 401, UserID := 9, Amount := 20000, Description := "meal", PeriodID := 1,
    CreatedBy := 9, UpdatedBy := 9, IPAddress := "10.0.0.3" }

/-- Two employees, each with one overtime claim and one reimbursement, one administrator and
one open period. -/
def exTwoOpen : Store :=
  { users := [exAnn, exBob, exRoot], periods := [exPeriod], attendances := [],
    overtimes := [exClaim, exBobClaim], reimbursements := [exExpense, exBobExpense],
    payrolls := [], auditLogs := [] }

/-- Monday 2024-01-01 to Friday 2024-01-05: 5 working days. -/
def exShortPeriod : AttendancePeriod :=
  { ID := 1, StartDate := Time.Date 2024 1 1, EndDate := Time.Date 2024 1 5, CreatedBy := 8,
    UpdatedBy := 8 }

/-- One attendance mark of user 7 for each of the 5 days of `exShortPeriod`. -/
def exShortMarks : List Attendance :=
  [0, 1, 2, 3, 4].map (fun k =>
    { ID := 200 + k, UserID := 7, Date := ⟨(Time.Date 2024 1 1).day + (k : Int)⟩, PeriodID := 1,
      CreatedBy := 7, UpdatedBy := 7, IPAddress := "10.0.0.2" })

/-- The open period `exShortPeriod` with full attendance of the employee, one overtime claim
and one reimbursement. -/
def exShort : Store :=
  { users := [exAnn, exRoot], periods := [exShortPeriod], attendances := exShortMarks,
    overtimes := [exClaim], reimbursements := [exExpense], payrolls := [], auditLogs := [] }

/-- A mark of user 7 in period 1 for Monday 2024-01-08, three days after the period ends. -/
def exOutsideMark : Attendance :=
  { ID := 100, UserID := 7, Date := Time.Date 2024 1 8, PeriodID := 1, CreatedBy := 7,
    UpdatedBy := 7, IPAddress := "10.0.0.2" }

/-- The database `exShort` after user 7 has marked Monday 2024-01-08 in period 1. -/
def exShortOutside : Store :=
  { exShort with
    attendances := exShortMarks ++ [exOutsideMark],
    auditLogs := [{ ID := 101, Action := "create", TableName := "attendance", RecordID := 100,
                    UserID := 7, IPAddress := "10.0.0.2", RequestID := "r2" }] }

/-- The database `exShortOutside` after a payroll run: 6 days are paid out of 5. -/
def exShortPaid : Store :=
  { exShortOutside with
    payrolls := [{ ID := 100, PeriodID := 1, UserID := 7, BaseSalary := 4800000,
                   OvertimePay := 400000, ReimbursementAmount := 50000, TotalPay := 5250000,
                   CreatedBy := 8, IPAddress := "10.0.0.1" }],
    auditLogs := exShortOutside.auditLogs ++ [exPayrollAudit] }

/-- The text of the identifier 2, which no period of the example databases carries. -/
def exGhostID : String := "00000000-0000-0000-0000-000000000002"

/-- The mark of user 7 for Tuesday 2024-01-02 in the period 2, which does not exist. -/
def exGhostMark : Attendance :=
  { ID := 100, UserID := 7, Date := Time.Date 2024 1 2, PeriodID := 2, CreatedBy := 7,
    UpdatedBy := 7, IPAddress := "10.0.0.2" }

/-- The database `exOpen` after user 7 has marked Tuesday 2024-01-02 in the period 2. -/
def exGhostMarked : Store :=
  { exOpen with
    attendances := [exGhostMark],
    auditLogs := [{ ID := 101, Action := "create", TableName := "attendance", RecordID := 100,
                    UserID := 7, IPAddress := "10.0.0.2", RequestID := "r2" }] }

/-! ## Counting working days -/

theorem countWorkingDays.loop_after (stop d : Time) (count : Nat) (h : stop.day < d.day) :
    countWorkingDays.loop stop d count = count := by
  rw [countWorkingDays.loop]
  simp [Time.After, h]

theorem countWorkingDays.loop_step (stop d : Time) (count : Nat) (h : d.day ≤ stop.day) :
    countWorkingDays.loop stop d count =
      countWorkingDays.loop stop d.AddDay (if d.isWorkingDay then count + 1 else count) := by
  rw [countWorkingDays.loop]
  have : ¬ stop.day < d.day := by omega
  simp [Time.After, this, Time.isWorkingDay]

theorem countWorkingDays.loop_eq_range (stop : Time) :
    ∀ (n : Nat) (d : Time) (count : Nat), (stop.day + 1 - d.day).toNat = n →
      countWorkingDays.loop stop d count =
        count + ((List.range n).filter
          (fun i : Nat => (Time.mk (d.day + (i : Int))).isWorkingDay)).length := by
  intro n
  induction n with
  | zero =>
    intro d count h
    rw [countWorkingDays.loop_after stop d count (by omega)]
    simp
  | succ n ih =>
    intro d count h
    rw [countWorkingDays.loop_step stop d count (by omega)]
    rw [ih d.AddDay _ (by simp only [Time.AddDay]; omega)]
    have hfun : ((fun i : Nat => (Time.mk (d.AddDay.day + (i : Int))).isWorkingDay)) =
        ((fun i : Nat => (Time.mk (d.day + (i : Int))).isWorkingDay) ∘ Nat.succ) := by
      funext i
      simp only [Time.AddDay, Function.comp, Nat.succ_eq_add_one]
      congr 2
      push_cast
      ring
    have h0 : (Time.mk (d.day + ((0 : Nat) : Int))) = d := by simp
    rw [List.range_succ_eq_map, List.filter_cons, List.filter_map, h0, hfun]
    by_cases hw : d.isWorkingDay
    · simp only [hw, if_true, List.length_cons, List.length_map]; omega
    · simp only [hw, if_false, List.length_map]; simp

/-- A closed form of `countWorkingDays` that evaluates by structural recursion. -/
theorem countWorkingDays_eq_range (start stop : Time) :
    countWorkingDays start stop =
      ((List.range (stop.day + 1 - start.day).toNat).filter
        (fun i : Nat => (Time.mk (start.day + (i : Int))).isWorkingDay)).length := by
  rw [countWorkingDays, countWorkingDays.loop_eq_range stop _ start 0 rfl]
  simp

theorem countWorkingDays.loop_eq_card (stop : Time) :
    ∀ (n : Nat) (d : Time) (count : Nat), (stop.day + 1 - d.day).toNat = n →
      countWorkingDays.loop stop d count =
        count + ((Finset.Icc d.day stop.day).filter
          (fun k => (Time.mk k).isWorkingDay = true)).card := by
  intro n
  induction n with
  | zero =>
    intro d count h
    rw [countWorkingDays.loop_after stop d count (by omega)]
    rw [Finset.Icc_eq_empty (by omega)]
    simp
  | succ n ih =>
    intro d count h
    rw [countWorkingDays.loop_step stop d count (by omega)]
    rw [ih d.AddDay _ (by simp only [Time.AddDay]; omega)]
    have hIcc : Finset.Icc d.day stop.day = insert d.day (Finset.Icc d.AddDay.day stop.day) := by
      ext k
      simp only [Finset.mem_Icc, Finset.mem_insert, Time.AddDay]
      omega
    have hnot : d.day ∉ Finset.Icc d.AddDay.day stop.day := by
      simp only [Finset.mem_Icc, Time.AddDay]
      omega
    rw [hIcc, Finset.filter_insert]
    by_cases hw : d.isWorkingDay
    · have hnot2 : d.day ∉ (Finset.Icc d.AddDay.day stop.day).filter
          (fun k => (Time.mk k).isWorkingDay = true) := fun hm => hnot (Finset.mem_filter.mp hm).1
      simp only [hw, if_true]
      rw [Finset.card_insert_of_not_mem hnot2]
      omega
    · simp only [hw, if_false]
      simp

/-! ## The payroll run -/

theorem PayrollRepository.CountAttendance_eq {F : Faults} {s : Store} {u p : UUID} {n : Nat}
    (h : PayrollRepository.CountAttendance F s u p = some n) : n = (s.marksOf u p).length := by
  unfold PayrollRepository.CountAttendance at h
  split at h
  · simp at h
  · simpa [Store.marksOf] using h.symm

theorem PayrollRepository.SumOvertimeHours_eq {F : Faults} {s : Store} {u p : UUID} {x : ℚ}
    (h : PayrollRepository.SumOvertimeHours F s u p = some x) : x = s.overtimeHoursSum u p := by
  unfold PayrollRepository.SumOvertimeHours at h
  split at h
  · simp at h
  · split at h
    · simp at h
    · rename_i o rows hrows
      unfold Store.overtimeHoursSum
      rw [hrows]
      simpa using h.symm

/-- The sum of the overtime hours is returned only when there is an overtime row to sum. -/
theorem PayrollRepository.SumOvertimeHours_ne_nil {F : Faults} {s : Store} {u p : UUID} {x : ℚ}
    (h : PayrollRepository.SumOvertimeHours F s u p = some x) : s.overtimesOf u p ≠ [] := by
  unfold PayrollRepository.SumOvertimeHours at h
  split at h
  · simp at h
  · split at h
    · simp at h
    · rename_i o rows hrows
      unfold Store.overtimesOf
      rw [hrows]
      simp

/-- The sum of the overtime hours, when the query is answered and there is a row to sum. -/
theorem PayrollRepository.SumOvertimeHours_of_rows {F : Faults} {s : Store} {u p : UUID}
    (hF : F (.SumOvertimeHours u p) = false) (h : s.overtimesOf u p ≠ []) :
    PayrollRepository.SumOvertimeHours F s u p = some (s.overtimeHoursSum u p) := by
  unfold PayrollRepository.SumOvertimeHours Store.overtimeHoursSum
  unfold Store.overtimesOf at h
  rw [hF]
  split
  · simp at *
  · split
    · rename_i hnil
      exact absurd hnil h
    · rename_i o rows hrows
      rw [hrows]

/-- The sum of the overtime hours is an error when there is no overtime row to sum. -/
theorem PayrollRepository.SumOvertimeHours_of_nil {s : Store} {u p : UUID} (F : Faults)
    (h : s.overtimesOf u p = []) : PayrollRepository.SumOvertimeHours F s u p = none := by
  unfold PayrollRepository.SumOvertimeHours
  unfold Store.overtimesOf at h
  rw [h]
  split <;> rfl

theorem PayrollRepository.SumReimbursementAmount_eq {F : Faults} {s : Store} {u p : UUID} {x : ℚ}
    (h : PayrollRepository.SumReimbursementAmount F s u p = some x) :
    x = s.reimbursementSum u p := by
  unfold PayrollRepository.SumReimbursementAmount at h
  split at h
  · simp at h
  · split at h
    · simp at h
    · rename_i o rows hrows
      unfold Store.reimbursementSum
      rw [hrows]
      simpa using h.symm

/-- The sum of the reimbursement amounts is returned only when there is a reimbursement row to sum. -/
theorem PayrollRepository.SumReimbursementAmount_ne_nil {F : Faults} {s : Store} {u p : UUID} {x : ℚ}
    (h : PayrollRepository.SumReimbursementAmount F s u p = some x) : s.reimbursementsOf u p ≠ [] := by
  unfold PayrollRepository.SumReimbursementAmount at h
  split at h
  · simp at h
  · split at h
    · simp at h
    · rename_i o rows hrows
      unfold Store.reimbursementsOf
      rw [hrows]
      simp

/-- The sum of the reimbursement amounts, when the query is answered and there is a row to sum. -/
theorem PayrollRepository.SumReimbursementAmount_of_rows {F : Faults} {s : Store} {u p : UUID}
    (hF : F (.SumReimbursementAmount u p) = false) (h : s.reimbursementsOf u p ≠ []) :
    PayrollRepository.SumReimbursementAmount F s u p = some (s.reimbursementSum u p) := by
  unfold PayrollRepository.SumReimbursementAmount Store.reimbursementSum
  unfold Store.reimbursementsOf at h
  rw [hF]
  split
  · simp at *
  · split
    · rename_i hnil
      exact absurd hnil h
    · rename_i o rows hrows
      rw [hrows]

/-- The sum of the reimbursement amounts is an error when there is no reimbursement row to sum. -/
theorem PayrollRepository.SumReimbursementAmount_of_nil {s : Store} {u p : UUID} (F : Faults)
    (h : s.reimbursementsOf u p = []) : PayrollRepository.SumReimbursementAmount F s u p = none := by
  unfold PayrollRepository.SumReimbursementAmount
  unfold Store.reimbursementsOf at h
  rw [h]
  split <;> rfl

theorem PayrollRepository.CreatePayroll_eq {F : Faults} {s s1 : Store} {p : Payroll}
    (h : PayrollRepository.CreatePayroll F s p = some s1) :
    s1 = { s with payrolls := s.payrolls ++ [p] } := by
  unfold PayrollRepository.CreatePayroll at h
  split at h
  · simp at h
  · simpa using h.symm

theorem AuditRepository.Create_eq {F : Faults} {s s1 : Store} {a : AuditLog}
    (h : AuditRepository.Create F s a = some s1) :
    s1 = { s with auditLogs := s.auditLogs ++ [a] } := by
  unfold AuditRepository.Create at h
  split at h
  · simp at h
  · simpa using h.symm

theorem PayrollService.RunPayroll.body_ok {F : Faults} {ids : Nat → UUID} {pid : UUID}
    {hours : ℚ} {actor : UUID} {ip req : String} {i : Nat} {user : User} {s s' : Store} {u : Unit}
    (h : PayrollService.RunPayroll.body F ids pid hours actor ip req i user s = (.ok u, s')) :
    ∃ p a, s' = { s with payrolls := s.payrolls ++ [p], auditLogs := s.auditLogs ++ [a] } ∧
      PayrollFor s pid hours user p ∧ AuditFor p a := by
  unfold PayrollService.RunPayroll.body at h
  split at h
  · simp at h
  rename_i n hn
  try dsimp only at h
  split at h
  · simp at h
  rename_i ot hot
  try dsimp only at h
  split at h
  · simp at h
  rename_i re hre
  try dsimp only at h
  split at h
  · simp at h
  rename_i s1 hs1
  try dsimp only at h
  split at h
  · simp at h
  rename_i s2 hs2
  simp only [Prod.mk.injEq] at h
  have e1 := PayrollRepository.CountAttendance_eq hn
  have e2 := PayrollRepository.SumOvertimeHours_eq hot
  have e3 := PayrollRepository.SumReimbursementAmount_eq hre
  have e4 := PayrollRepository.CreatePayroll_eq hs1
  have e5 := AuditRepository.Create_eq hs2
  subst e1 e2 e3 e4 e5
  obtain ⟨_, rfl⟩ := h
  exact ⟨_, _, rfl, ⟨rfl, rfl, rfl, rfl, rfl, rfl⟩, ⟨rfl, rfl, rfl⟩⟩

/-- Whatever it returns, one pass of the loop leaves the database with at most one more
payroll row, computed from the ledger, and at most one more audit row. -/
theorem PayrollService.RunPayroll.body_frame (F : Faults) (ids : Nat → UUID) (pid : UUID)
    (hours : ℚ) (actor : UUID) (ip req : String) (i : Nat) (user : User) (s : Store) :
    ∃ rows logs, (PayrollService.RunPayroll.body F ids pid hours actor ip req i user s).2 =
        { s with payrolls := s.payrolls ++ rows, auditLogs := s.auditLogs ++ logs } ∧
      (∀ p ∈ rows, PayrollFor s pid hours user p) := by
  unfold PayrollService.RunPayroll.body
  split
  · exact ⟨[], [], by simp, by simp⟩
  rename_i n hn
  try dsimp only
  split
  · exact ⟨[], [], by simp, by simp⟩
  rename_i ot hot
  try dsimp only
  split
  · exact ⟨[], [], by simp, by simp⟩
  rename_i re hre
  try dsimp only
  have e1 := PayrollRepository.CountAttendance_eq hn
  have e2 := PayrollRepository.SumOvertimeHours_eq hot
  have e3 := PayrollRepository.SumReimbursementAmount_eq hre
  subst e1 e2 e3
  split
  · exact ⟨[], [], by simp, by simp⟩
  rename_i s1 hs1
  try dsimp only
  have e4 := PayrollRepository.CreatePayroll_eq hs1
  subst e4
  split
  · refine ⟨[_], [], by rw [List.append_nil], ?_⟩
    intro p hp
    rw [List.mem_singleton] at hp
    subst hp
    exact ⟨rfl, rfl, rfl, rfl, rfl, rfl⟩
  rename_i s2 hs2
  have e5 := AuditRepository.Create_eq hs2
  subst e5
  refine ⟨[_], [_], rfl, ?_⟩
  intro p hp
  rw [List.mem_singleton] at hp
  subst hp
  exact ⟨rfl, rfl, rfl, rfl, rfl, rfl⟩

theorem PayrollService.RunPayroll.loop_ok {F : Faults} {ids : Nat → UUID} {pid : UUID}
    {hours : ℚ} {actor : UUID} {ip req : String} :
    ∀ (es : List User) (i : Nat) (s s' : Store) (u : Unit),
      PayrollService.RunPayroll.loop F ids pid hours actor ip req es i s = (.ok u, s') →
      ∃ rows logs,
        s' = { s with payrolls := s.payrolls ++ rows, auditLogs := s.auditLogs ++ logs } ∧
        List.Forall₂ (PayrollFor s pid hours) es rows ∧ List.Forall₂ AuditFor rows logs := by
  intro es
  induction es with
  | nil =>
    intro i s s' u h
    simp only [PayrollService.RunPayroll.loop, Prod.mk.injEq] at h
    exact ⟨[], [], by simp [← h.2], List.Forall₂.nil, List.Forall₂.nil⟩
  | cons user rest ih =>
    intro i s s' u h
    rw [PayrollService.RunPayroll.loop] at h
    split at h
    · simp at h
    rename_i u1 s1 hb
    obtain ⟨p, a, rfl, hp, ha⟩ := PayrollService.RunPayroll.body_ok hb
    obtain ⟨rows, logs, rfl, hrows, hlogs⟩ := ih _ _ _ _ h
    refine ⟨p :: rows, a :: logs, by simp, List.Forall₂.cons hp hrows, List.Forall₂.cons ha hlogs⟩

/-- Whatever it returns, the loop only appends: payroll rows, each computed from the ledger
for one of the employees, and audit rows. -/
theorem PayrollService.RunPayroll.loop_frame (F : Faults) (ids : Nat → UUID) (pid : UUID)
    (hours : ℚ) (actor : UUID) (ip req : String) :
    ∀ (es : List User) (i : Nat) (s : Store),
      ∃ rows logs, (PayrollService.RunPayroll.loop F ids pid hours actor ip req es i s).2 =
          { s with payrolls := s.payrolls ++ rows, auditLogs := s.auditLogs ++ logs } ∧
        (∀ p ∈ rows, ∃ user ∈ es, PayrollFor s pid hours user p) := by
  intro es
  induction es with
  | nil =>
    intro i s
    exact ⟨[], [], by simp [PayrollService.RunPayroll.loop], by simp⟩
  | cons user rest ih =>
    intro i s
    obtain ⟨r1, l1, h1, hr1⟩ := PayrollService.RunPayroll.body_frame F ids pid hours actor ip req
      i user s
    rw [PayrollService.RunPayroll.loop]
    split
    · rename_i e s1 hb
      rw [hb] at h1
      refine ⟨r1, l1, h1, ?_⟩
      intro p hp
      exact ⟨user, List.mem_cons_self _ _, hr1 p hp⟩
    · rename_i u1 s1 hb
      rw [hb] at h1
      simp only at h1
      subst h1
      obtain ⟨r2, l2, h2, hr2⟩ := ih (i + 1)
        { s with payrolls := s.payrolls ++ r1, auditLogs := s.auditLogs ++ l1 }
      refine ⟨r1 ++ r2, l1 ++ l2, by rw [h2]; simp, ?_⟩
      intro p hp
      rcases List.mem_append.mp hp with hp | hp
      · exact ⟨user, List.mem_cons_self _ _, hr1 p hp⟩
      · obtain ⟨v, hv, hpv⟩ := hr2 p hp
        exact ⟨v, List.mem_cons_of_mem _ hv, hpv⟩

/-- A payroll run that returns without error found the period, and appended one payroll row
per employee, in the order of the employees, each with its audit row. -/
theorem PayrollService.RunPayroll_ok {F : Faults} {ids : Nat → UUID} {s s' : Store}
    {periodID : String} {actor : UUID} {ip req : String} {u : Unit}
    (h : PayrollService.RunPayroll F ids s periodID actor ip req = (.ok u, s')) :
    ∃ pid period rows logs, uuidParse periodID = some pid ∧
      s.periods.find? (fun p => p.ID = pid) = some period ∧
      AttendanceRepository.IsPayrollProcessed F s pid = false ∧
      s' = { s with payrolls := s.payrolls ++ rows, auditLogs := s.auditLogs ++ logs } ∧
      List.Forall₂ (PayrollFor s pid
        (((countWorkingDays period.StartDate period.EndDate * 8 : Nat) : ℚ))) s.employees rows ∧
      List.Forall₂ AuditFor rows logs := by
  unfold PayrollService.RunPayroll at h
  split at h
  · simp at h
  rename_i pid hpid
  split at h
  · simp at h
  rename_i period hperiod
  split at h
  · simp at h
  rename_i hgate
  dsimp only at h
  split at h
  · simp at h
  rename_i es hes
  obtain ⟨rows, logs, hs', hrows, hlogs⟩ := PayrollService.RunPayroll.loop_ok _ _ _ _ _ h
  have hes' : es = s.employees := by
    unfold PayrollRepository.FindEmployees at hes
    split at hes
    · simp at hes
    · simpa [Store.employees] using hes.symm
  have hperiod' : s.periods.find? (fun p => p.ID = pid) = some period := by
    unfold AttendanceRepository.FindPeriodByID at hperiod
    split at hperiod
    · simp at hperiod
    · exact hperiod
  subst hes'
  exact ⟨pid, period, rows, logs, hpid, hperiod', by simpa using hgate, hs', hrows, hlogs⟩

/-- Whatever it returns, a payroll run only appends payroll rows of its own period and audit
rows. -/
theorem PayrollService.RunPayroll_frame (F : Faults) (ids : Nat → UUID) (s : Store)
    (periodID : String) (actor : UUID) (ip req : String) :
    ∃ rows logs, (PayrollService.RunPayroll F ids s periodID actor ip req).2 =
        { s with payrolls := s.payrolls ++ rows, auditLogs := s.auditLogs ++ logs } ∧
      (∀ p ∈ rows, uuidParse periodID = some p.PeriodID) := by
  unfold PayrollService.RunPayroll
  split
  · exact ⟨[], [], by simp, by simp⟩
  rename_i pid hpid
  split
  · exact ⟨[], [], by simp, by simp⟩
  split
  · exact ⟨[], [], by simp, by simp⟩
  dsimp only
  split
  · exact ⟨[], [], by simp, by simp⟩
  rename_i es hes
  obtain ⟨rows, logs, h, hrows⟩ := PayrollService.RunPayroll.loop_frame F ids pid _ actor ip req
    es 0 s
  refine ⟨rows, logs, h, ?_⟩
  intro p hp
  obtain ⟨_, _, hpf⟩ := hrows p hp
  rw [hpid, hpf.1]

/-! ## The ledger operations -/

theorem AttendanceRepository.IsPayrollProcessed_of_open {s : Store} {pid : UUID}
    (F : Faults) (h : s.Open pid) : AttendanceRepository.IsPayrollProcessed F s pid = false := by
  unfold AttendanceRepository.IsPayrollProcessed
  have : s.payrolls.filter (fun p => p.PeriodID = pid) = [] := by
    rw [List.filter_eq_nil_iff]
    intro p hp
    simpa using h p hp
  split <;> simp [this]

theorem AttendanceRepository.IsPayrollProcessed_of_frozen {F : Faults} {s : Store} {pid : UUID}
    (hF : F (.IsPayrollProcessed pid) = false) (h : s.Frozen pid) :
    AttendanceRepository.IsPayrollProcessed F s pid = true := by
  unfold AttendanceRepository.IsPayrollProcessed
  obtain ⟨p, hp, hpid⟩ := h
  have hmem : p ∈ s.payrolls.filter (fun p => p.PeriodID = pid) := by
    rw [List.mem_filter]
    exact ⟨hp, by simpa using hpid⟩
  have : 0 < (s.payrolls.filter (fun p => p.PeriodID = pid)).length :=
    List.length_pos_of_mem hmem
  simp [hF, this]

theorem AttendanceRepository.IsPayrollProcessed_frozen {F : Faults} {s : Store} {pid : UUID}
    (h : AttendanceRepository.IsPayrollProcessed F s pid = true) : s.Frozen pid := by
  unfold AttendanceRepository.IsPayrollProcessed at h
  split at h
  · simp at h
  · simp only [gt_iff_lt, decide_eq_true_eq] at h
    obtain ⟨p, hp⟩ := List.exists_mem_of_length_pos h
    rw [List.mem_filter] at hp
    exact ⟨p, hp.1, by simpa using hp.2⟩

theorem Store.open_iff_not_frozen (s : Store) (pid : UUID) : s.Open pid ↔ ¬ s.Frozen pid := by
  unfold Store.Open Store.Frozen
  constructor
  · rintro h ⟨p, hp, hpid⟩
    exact h p hp hpid
  · intro h p hp hpid
    exact h ⟨p, hp, hpid⟩

theorem AttendanceRepository.CreateAttendance_eq {F : Faults} {s s1 : Store} {a : Attendance}
    (h : AttendanceRepository.CreateAttendance F s a = some s1) :
    s1 = { s with attendances := s.attendances ++ [a] } := by
  unfold AttendanceRepository.CreateAttendance at h
  split at h
  · simp at h
  · simpa using h.symm

theorem AttendanceRepository.FindAttendanceByUserAndDate_none {F : Faults} {s : Store}
    {userID : UUID} {date : Time} {periodID : UUID}
    (hF : F (.FindAttendanceByUserAndDate userID date periodID) = false)
    (h : (AttendanceRepository.FindAttendanceByUserAndDate F s userID date periodID).isSome
      = false) :
    s.marksOn userID date periodID = [] := by
  unfold AttendanceRepository.FindAttendanceByUserAndDate at h
  rw [hF] at h
  simp only [Bool.false_eq_true, if_false] at h
  unfold Store.marksOn
  rw [List.filter_eq_nil_iff]
  simpa using h

theorem AttendanceRepository.FindAttendanceByUserAndDate_some {F : Faults} {s : Store}
    {userID : UUID} {date : Time} {periodID : UUID}
    (hF : F (.FindAttendanceByUserAndDate userID date periodID) = false)
    (h : s.marksOn userID date periodID ≠ []) :
    (AttendanceRepository.FindAttendanceByUserAndDate F s userID date periodID).isSome = true := by
  by_contra hc
  exact h (AttendanceRepository.FindAttendanceByUserAndDate_none hF (by simpa using hc))

/-- Whatever it returns, `SubmitAttendance` appends at most one mark, and an audit row only
with it. The mark carries the parsed date, a weekday, the parsed period, which the gate saw
open, and the submitting user; when the duplicate lookup was answered, the user had no mark
for that date in that period before. -/
theorem AttendanceService.SubmitAttendance_frame (F : Faults) (ids : Nat → UUID) (s : Store)
    (date periodID : String) (userID : UUID) (ip req : String) :
    ∃ marks logs, (AttendanceService.SubmitAttendance F ids s date periodID userID ip req).2 =
        { s with attendances := s.attendances ++ marks, auditLogs := s.auditLogs ++ logs } ∧
      ∀ a ∈ marks, marks = [a] ∧ Time.Parse date = some a.Date ∧ a.Date.isWorkingDay = true ∧
        uuidParse periodID = some a.PeriodID ∧ a.UserID = userID ∧
        AttendanceRepository.IsPayrollProcessed F s a.PeriodID = false ∧
        (F (.FindAttendanceByUserAndDate userID a.Date a.PeriodID) = false →
          s.marksOn userID a.Date a.PeriodID = []) := by
  unfold AttendanceService.SubmitAttendance
  split
  · exact ⟨[], [], by simp, by simp⟩
  rename_i d hd
  split
  · exact ⟨[], [], by simp, by simp⟩
  rename_i pid hpid
  split
  · exact ⟨[], [], by simp, by simp⟩
  rename_i hgate
  split
  · exact ⟨[], [], by simp, by simp⟩
  rename_i hwd
  split
  · exact ⟨[], [], by simp, by simp⟩
  rename_i hdup
  dsimp only
  split
  · exact ⟨[], [], by simp, by simp⟩
  rename_i s1 hs1
  have e1 := AttendanceRepository.CreateAttendance_eq hs1
  subst e1
  have key : ∀ m : Attendance, m.Date = d → m.PeriodID = pid → m.UserID = userID →
      ∀ a ∈ [m], [m] = [a] ∧
      Time.Parse date = some a.Date ∧ a.Date.isWorkingDay = true ∧
        uuidParse periodID = some a.PeriodID ∧ a.UserID = userID ∧
        AttendanceRepository.IsPayrollProcessed F s a.PeriodID = false ∧
        (F (.FindAttendanceByUserAndDate userID a.Date a.PeriodID) = false →
          s.marksOn userID a.Date a.PeriodID = []) := by
    intro m hm1 hm2 hm3 a ha
    rw [List.mem_singleton] at ha
    subst ha
    subst hm1 hm2 hm3
    refine ⟨rfl, hd, ?_, hpid, rfl, by simpa using hgate, ?_⟩
    · simpa [Time.isWorkingDay, not_or] using hwd
    · intro hF
      exact AttendanceRepository.FindAttendanceByUserAndDate_none hF (by simpa using hdup)
  split
  · exact ⟨_, [], by rw [List.append_nil], key _ rfl rfl rfl⟩
  rename_i s2 hs2
  have e2 := AuditRepository.Create_eq hs2
  subst e2
  exact ⟨_, [_], rfl, key _ rfl rfl rfl⟩

theorem AttendanceRepository.CreateOvertime_eq {F : Faults} {s s1 : Store} {o : Overtime}
    (h : AttendanceRepository.CreateOvertime F s o = some s1) :
    s1 = { s with overtimes := s.overtimes ++ [o] } := by
  unfold AttendanceRepository.CreateOvertime at h
  split at h
  · simp at h
  · simpa using h.symm

theorem AttendanceRepository.CreateReimbursement_eq {F : Faults} {s s1 : Store}
    {r : Reimbursement} (h : AttendanceRepository.CreateReimbursement F s r = some s1) :
    s1 = { s with reimbursements := s.reimbursements ++ [r] } := by
  unfold AttendanceRepository.CreateReimbursement at h
  split at h
  · simp at h
  · simpa using h.symm

theorem AttendanceRepository.CreatePeriod_eq {F : Faults} {s s1 : Store}
    {p : AttendancePeriod} (h : AttendanceRepository.CreatePeriod F s p = some s1) :
    s1 = { s with periods := s.periods ++ [p] } := by
  unfold AttendanceRepository.CreatePeriod at h
  split at h
  · simp at h
  · simpa using h.symm

/-- Whatever it returns, `SubmitOvertime` appends at most one claim, of at most 3 hours, for
a period the gate saw open, and an audit row only with it. -/
theorem AttendanceService.SubmitOvertime_frame (F : Faults) (ids : Nat → UUID) (s : Store)
    (date : String) (hours : ℚ) (periodID : String) (userID : UUID) (ip req : String) :
    ∃ rows logs,
      (AttendanceService.SubmitOvertime F ids s date hours periodID userID ip req).2 =
        { s with overtimes := s.overtimes ++ rows, auditLogs := s.auditLogs ++ logs } ∧
      ∀ o ∈ rows, rows = [o] ∧ Time.Parse date = some o.Date ∧ o.Hours = hours ∧ hours ≤ 3 ∧
        uuidParse periodID = some o.PeriodID ∧ o.UserID = userID ∧
        AttendanceRepository.IsPayrollProcessed F s o.PeriodID = false := by
  unfold AttendanceService.SubmitOvertime
  split
  · exact ⟨[], [], by simp, by simp⟩
  rename_i d hd
  split
  · exact ⟨[], [], by simp, by simp⟩
  rename_i pid hpid
  split
  · exact ⟨[], [], by simp, by simp⟩
  rename_i hgate
  split
  · exact ⟨[], [], by simp, by simp⟩
  rename_i hh
  dsimp only
  have key : ∀ m : Overtime, m.Date = d → m.Hours = hours → m.PeriodID = pid →
      m.UserID = userID → ∀ o ∈ [m], [m] = [o] ∧ Time.Parse date = some o.Date ∧
        o.Hours = hours ∧ hours ≤ 3 ∧ uuidParse periodID = some o.PeriodID ∧
        o.UserID = userID ∧ AttendanceRepository.IsPayrollProcessed F s o.PeriodID = false := by
    intro m h1 h2 h3 h4 o ho
    rw [List.mem_singleton] at ho
    subst ho
    subst h1 h3 h4
    exact ⟨rfl, hd, h2, not_lt.mp hh, hpid, rfl, by simpa using hgate⟩
  split
  · exact ⟨[], [], by simp, by simp⟩
  rename_i s1 hs1
  have e1 := AttendanceRepository.CreateOvertime_eq hs1
  subst e1
  split
  · exact ⟨_, [], by rw [List.append_nil], key _ rfl rfl rfl rfl⟩
  rename_i s2 hs2
  have e2 := AuditRepository.Create_eq hs2
  subst e2
  exact ⟨_, [_], rfl, key _ rfl rfl rfl rfl⟩

/-- Whatever it returns, `SubmitReimbursement` appends at most one claim, of positive amount
and with a description, for a period the gate saw open, and an audit row only with it. -/
theorem AttendanceService.SubmitReimbursement_frame (F : Faults) (ids : Nat → UUID)
    (s : Store) (amount : ℚ) (description periodID : String) (userID : UUID)
    (ip req : String) :
    ∃ rows logs,
      (AttendanceService.SubmitReimbursement F ids s amount description periodID userID ip
        req).2 =
        { s with reimbursements := s.reimbursements ++ rows,
                 auditLogs := s.auditLogs ++ logs } ∧
      ∀ r ∈ rows, rows = [r] ∧ r.Amount = amount ∧ 0 < amount ∧ r.Description = description ∧
        description ≠ "" ∧ uuidParse periodID = some r.PeriodID ∧ r.UserID = userID ∧
        AttendanceRepository.IsPayrollProcessed F s r.PeriodID = false := by
  unfold AttendanceService.SubmitReimbursement
  split
  · exact ⟨[], [], by simp, by simp⟩
  rename_i pid hpid
  split
  · exact ⟨[], [], by simp, by simp⟩
  rename_i hgate
  split
  · exact ⟨[], [], by simp, by simp⟩
  rename_i ha
  split
  · exact ⟨[], [], by simp, by simp⟩
  rename_i hdesc
  dsimp only
  have key : ∀ m : Reimbursement, m.Amount = amount → m.Description = description →
      m.PeriodID = pid → m.UserID = userID → ∀ r ∈ [m], [m] = [r] ∧ r.Amount = amount ∧
        0 < amount ∧ r.Description = description ∧ description ≠ "" ∧
        uuidParse periodID = some r.PeriodID ∧ r.UserID = userID ∧
        AttendanceRepository.IsPayrollProcessed F s r.PeriodID = false := by
    intro m h1 h2 h3 h4 r hr
    rw [List.mem_singleton] at hr
    subst hr
    subst h3 h4
    exact ⟨rfl, h1, not_le.mp ha, h2, hdesc, hpid, rfl, by simpa using hgate⟩
  split
  · exact ⟨[], [], by simp, by simp⟩
  rename_i s1 hs1
  have e1 := AttendanceRepository.CreateReimbursement_eq hs1
  subst e1
  split
  · exact ⟨_, [], by rw [List.append_nil], key _ rfl rfl rfl rfl⟩
  rename_i s2 hs2
  have e2 := AuditRepository.Create_eq hs2
  subst e2
  exact ⟨_, [_], rfl, key _ rfl rfl rfl rfl⟩

/-- Whatever it returns, `CreatePeriod` appends at most one period, whose end is not before
its start, and an audit row only with it. -/
theorem AttendanceService.CreatePeriod_frame (F : Faults) (ids : Nat → UUID) (s : Store)
    (startDate endDate : String) (userID : UUID) (ip req : String) :
    ∃ rows logs,
      (AttendanceService.CreatePeriod F ids s startDate endDate userID ip req).2 =
        { s with periods := s.periods ++ rows, auditLogs := s.auditLogs ++ logs } ∧
      ∀ p ∈ rows, rows = [p] ∧ Time.Parse startDate = some p.StartDate ∧
        Time.Parse endDate = some p.EndDate ∧ p.StartDate.day ≤ p.EndDate.day := by
  unfold AttendanceService.CreatePeriod
  split
  · exact ⟨[], [], by simp, by simp⟩
  rename_i d1 hd1
  split
  · exact ⟨[], [], by simp, by simp⟩
  rename_i d2 hd2
  split
  · exact ⟨[], [], by simp, by simp⟩
  rename_i hbefore
  dsimp only
  have key : ∀ m : AttendancePeriod, m.StartDate = d1 → m.EndDate = d2 →
      ∀ p ∈ [m], [m] = [p] ∧ Time.Parse startDate = some p.StartDate ∧
        Time.Parse endDate = some p.EndDate ∧ p.StartDate.day ≤ p.EndDate.day := by
    intro m h1 h2 p hp
    rw [List.mem_singleton] at hp
    subst hp
    subst h1 h2
    refine ⟨rfl, hd1, hd2, ?_⟩
    simpa [Time.Before] using hbefore
  split
  · exact ⟨[], [], by simp, by simp⟩
  rename_i s1 hs1
  have e1 := AttendanceRepository.CreatePeriod_eq hs1
  subst e1
  split
  · exact ⟨_, [], by rw [List.append_nil], key _ rfl rfl⟩
  rename_i s2 hs2
  have e2 := AuditRepository.Create_eq hs2
  subst e2
  exact ⟨_, [_], rfl, key _ rfl rfl⟩

/-! ## Reachable databases -/

theorem Store.Grows.refl (s : Store) : s.Grows s :=
  ⟨List.prefix_refl _, List.prefix_refl _, List.prefix_refl _, List.prefix_refl _,
    List.prefix_refl _, List.prefix_refl _⟩

theorem Store.Grows.trans {s t u : Store} (h1 : s.Grows t) (h2 : t.Grows u) : s.Grows u :=
  ⟨h1.1.trans h2.1, h1.2.1.trans h2.2.1, h1.2.2.1.trans h2.2.2.1,
    h1.2.2.2.1.trans h2.2.2.2.1, h1.2.2.2.2.1.trans h2.2.2.2.2.1,
    h1.2.2.2.2.2.trans h2.2.2.2.2.2⟩

theorem Op.exec_grows (F : Faults) (ids : Nat → UUID) (s : Store) (op : Op) :
    s.Grows (op.exec F ids s) := by
  cases op with
  | CreatePeriod a b u ip r =>
    obtain ⟨rows, logs, h, _⟩ := AttendanceService.CreatePeriod_frame F ids s a b u ip r
    simp only [Op.exec, h]
    exact ⟨List.prefix_append _ _, List.prefix_refl _, List.prefix_refl _, List.prefix_refl _,
      List.prefix_refl _, List.prefix_append _ _⟩
  | SubmitAttendance a b u ip r =>
    obtain ⟨rows, logs, h, _⟩ := AttendanceService.SubmitAttendance_frame F ids s a b u ip r
    simp only [Op.exec, h]
    exact ⟨List.prefix_refl _, List.prefix_append _ _, List.prefix_refl _, List.prefix_refl _,
      List.prefix_refl _, List.prefix_append _ _⟩
  | SubmitOvertime a hh b u ip r =>
    obtain ⟨rows, logs, h, _⟩ := AttendanceService.SubmitOvertime_frame F ids s a hh b u ip r
    simp only [Op.exec, h]
    exact ⟨List.prefix_refl _, List.prefix_refl _, List.prefix_append _ _, List.prefix_refl _,
      List.prefix_refl _, List.prefix_append _ _⟩
  | SubmitReimbursement am de b u ip r =>
    obtain ⟨rows, logs, h, _⟩ :=
      AttendanceService.SubmitReimbursement_frame F ids s am de b u ip r
    simp only [Op.exec, h]
    exact ⟨List.prefix_refl _, List.prefix_refl _, List.prefix_refl _, List.prefix_append _ _,
      List.prefix_refl _, List.prefix_append _ _⟩
  | RunPayroll b u ip r =>
    obtain ⟨rows, logs, h, _⟩ := PayrollService.RunPayroll_frame F ids s b u ip r
    simp only [Op.exec, h]
    exact ⟨List.prefix_refl _, List.prefix_refl _, List.prefix_refl _, List.prefix_refl _,
      List.prefix_append _ _, List.prefix_append _ _⟩

theorem ReachableVia.grows {ok : Faults → Prop} {s0 s : Store} (h : ReachableVia ok s0 s) :
    s0.Grows s := by
  induction h with
  | init => exact Store.Grows.refl _
  | step F ids op _ _ ih => exact ih.trans (Op.exec_grows F ids _ op)
  | identity users logs _ ih =>
    exact ih.trans ⟨List.prefix_refl _, List.prefix_refl _, List.prefix_refl _,
      List.prefix_refl _, List.prefix_refl _, List.prefix_append _ _⟩

theorem Store.Grows.frozen {s t : Store} {pid : UUID} (h : s.Grows t) (hf : s.Frozen pid) :
    t.Frozen pid := by
  obtain ⟨p, hp, hpid⟩ := hf
  exact ⟨p, h.2.2.2.2.1.subset hp, hpid⟩

theorem Store.Grows.find_period {s t : Store} {pid : UUID} {period : AttendancePeriod}
    (h : s.Grows t) (hf : s.periods.find? (fun p => p.ID = pid) = some period) :
    t.periods.find? (fun p => p.ID = pid) = some period := by
  obtain ⟨rest, hrest⟩ := h.1
  rw [← hrest, List.find?_append, hf]
  rfl

theorem Store.Grows.marksOn {s t : Store} {userID : UUID} {date : Time} {periodID : UUID}
    (h : s.Grows t) (hm : s.marksOn userID date periodID ≠ []) :
    t.marksOn userID date periodID ≠ [] := by
  obtain ⟨rest, hrest⟩ := h.2.1
  unfold Store.marksOn at hm ⊢
  rw [← hrest, List.filter_append]
  intro hc
  exact hm (List.append_eq_nil.mp hc).1

theorem AttendanceRepository.FindPeriodByID_of_mem {F : Faults} {s : Store} {pid : UUID}
    (hF : F (.FindPeriodByID pid) = false) (h : ∃ period ∈ s.periods, period.ID = pid) :
    ∃ period, AttendanceRepository.FindPeriodByID F s pid = some period ∧
      s.periods.find? (fun p => p.ID = pid) = some period := by
  unfold AttendanceRepository.FindPeriodByID
  rw [hF]
  obtain ⟨period, hmem, hid⟩ := h
  cases hfind : s.periods.find? (fun p => p.ID = pid) with
  | none =>
    have := List.find?_eq_none.mp hfind period hmem
    simp [hid] at this
  | some found => exact ⟨found, by simp, rfl⟩

/-- Behind a gate that answers "processed", every submission with a well-formed date is
turned down and nothing is written. -/
theorem AttendanceService.rejected_of_gate {F : Faults} (ids : Nat → UUID) {s : Store}
    {periodID : String} {pid : UUID} (hpid : uuidParse periodID = some pid)
    (hgate : AttendanceRepository.IsPayrollProcessed F s pid = true) :
    (∀ (amount : ℚ) (description : String) (userID : UUID) (ip req : String),
      AttendanceService.SubmitReimbursement F ids s amount description periodID userID ip req
        = (.error .payrollProcessed, s)) ∧
    (∀ (date : String) (hours : ℚ) (userID : UUID) (ip req : String),
      (Time.Parse date).isSome = true →
      AttendanceService.SubmitAttendance F ids s date periodID userID ip req
        = (.error .payrollProcessed, s) ∧
      AttendanceService.SubmitOvertime F ids s date hours periodID userID ip req
        = (.error .payrollProcessed, s)) := by
  refine ⟨?_, ?_⟩
  · intro amount description userID ip req
    simp [AttendanceService.SubmitReimbursement, hpid, hgate]
  · intro date hours userID ip req hdate
    obtain ⟨d, hd⟩ := Option.isSome_iff_exists.mp hdate
    constructor
    · simp [AttendanceService.SubmitAttendance, hd, hpid, hgate]
    · simp [AttendanceService.SubmitOvertime, hd, hpid, hgate]

/-- Behind a gate that answers "processed", a payroll run on a period it finds is turned
down and nothing is written. -/
theorem PayrollService.RunPayroll_of_gate {F : Faults} {ids : Nat → UUID} {s : Store}
    {periodID : String} {pid : UUID} {period : AttendancePeriod}
    (hpid : uuidParse periodID = some pid) (hF : F (.FindPeriodByID pid) = false)
    (hfind : s.periods.find? (fun p => p.ID = pid) = some period)
    (hgate : AttendanceRepository.IsPayrollProcessed F s pid = true)
    (userID : UUID) (ip req : String) :
    PayrollService.RunPayroll F ids s periodID userID ip req = (.error .payrollProcessed, s) := by
  simp [PayrollService.RunPayroll, AttendanceRepository.FindPeriodByID, hpid, hF, hfind, hgate]

theorem PayrollFor.periodID {s : Store} {pid : UUID} {h : ℚ} {u : User} {p : Payroll}
    (hp : PayrollFor s pid h u p) : p.PeriodID = pid := hp.1

theorem Store.employees_ne_nil {s : Store} (h : ∃ u ∈ s.users, u.Role = "employee") :
    s.employees ≠ [] := by
  obtain ⟨u, hu, hr⟩ := h
  have : u ∈ s.employees := by
    unfold Store.employees
    rw [List.mem_filter]
    exact ⟨hu, by simpa using hr⟩
  exact List.ne_nil_of_mem this

/-- A payroll run that returns without error while there is an employee leaves the period
frozen. -/
theorem PayrollService.RunPayroll_frozen {F : Faults} {ids : Nat → UUID} {s s' : Store}
    {periodID : String} {pid : UUID} {actor : UUID} {ip req : String} {u : Unit}
    (hpid : uuidParse periodID = some pid) (hemp : ∃ u ∈ s.users, u.Role = "employee")
    (h : PayrollService.RunPayroll F ids s periodID actor ip req = (.ok u, s')) :
    s'.Frozen pid ∧ ∃ period, s'.periods.find? (fun p => p.ID = pid) = some period := by
  obtain ⟨pid', period, rows, logs, hpid', hperiod, _, hs', hrows, _⟩ :=
    PayrollService.RunPayroll_ok h
  rw [hpid] at hpid'
  cases hpid'
  subst hs'
  refine ⟨?_, period, hperiod⟩
  have hne := Store.employees_ne_nil hemp
  generalize s.employees = es at hrows hne
  cases hrows with
  | nil => exact absurd rfl hne
  | cons hp _ =>
    exact ⟨_, List.mem_append_right _ (List.mem_cons_self _ _), hp.1⟩

/-- The rows a successful run appends for one user identifier are as many as the employees
carrying that identifier. -/
theorem PayrollFor.filter_length {s : Store} {pid : UUID} {h : ℚ} (x : UUID) :
    ∀ {es : List User} {rows : List Payroll}, List.Forall₂ (PayrollFor s pid h) es rows →
      (rows.filter (fun p => p.PeriodID = pid ∧ p.UserID = x)).length
        = List.count x (es.map User.ID) := by
  intro es rows hrows
  induction hrows with
  | nil => simp
  | @cons u p es rows hp _ ih =>
    rw [List.map_cons, List.count_cons, List.filter_cons]
    by_cases hx : u.ID = x
    · have : (decide (p.PeriodID = pid ∧ p.UserID = x)) = true := by
        simp [hp.1, hp.2.1, hx]
      rw [this, if_pos rfl, List.length_cons, ih]
      simp [hx]
    · have : (decide (p.PeriodID = pid ∧ p.UserID = x)) = false := by
        simp [hp.2.1, hx]
      rw [this, if_neg Bool.false_ne_true, ih]
      simp [hx]

theorem Store.Open.payrollsOf {s : Store} {pid : UUID} (h : s.Open pid) (x : UUID) :
    s.payrolls.filter (fun p => p.PeriodID = pid ∧ p.UserID = x) = [] := by
  rw [List.filter_eq_nil_iff]
  intro p hp
  simp [h p hp]

theorem Store.employees_ids_nodup {s : Store} (h : (s.users.map User.ID).Nodup) :
    (s.employees.map User.ID).Nodup :=
  h.sublist ((List.filter_sublist _).map _)

theorem forall₂_exists_right {α β : Type} {R : α → β → Prop} {l₁ : List α} {l₂ : List β}
    (h : List.Forall₂ R l₁ l₂) : ∀ a ∈ l₁, ∃ b ∈ l₂, R a b := by
  induction h with
  | nil => intro a ha; simp at ha
  | @cons x y xs ys hxy _ ih =>
    intro a ha
    rcases List.mem_cons.mp ha with rfl | ha
    · exact ⟨y, List.mem_cons_self _ _, hxy⟩
    · obtain ⟨b, hb, hab⟩ := ih a ha
      exact ⟨b, List.mem_cons_of_mem _ hb, hab⟩

theorem forall₂_exists_left {α β : Type} {R : α → β → Prop} {l₁ : List α} {l₂ : List β}
    (h : List.Forall₂ R l₁ l₂) : ∀ b ∈ l₂, ∃ a ∈ l₁, R a b := by
  induction h with
  | nil => intro b hb; simp at hb
  | @cons x y xs ys hxy _ ih =>
    intro b hb
    rcases List.mem_cons.mp hb with rfl | hb
    · exact ⟨x, List.mem_cons_self _ _, hxy⟩
    · obtain ⟨a, ha, hab⟩ := ih b hb
      exact ⟨a, List.mem_cons_of_mem _ ha, hab⟩

/-- What the run computes is what the specification's pay rules say, when the period has a
working day. -/
theorem PayrollFor.specPay {s : Store} {pid : UUID} {workingDays : Nat} {u : User}
    {p : Payroll} (hwd : 0 < workingDays)
    (h : PayrollFor s pid (((workingDays * 8 : Nat) : ℚ)) u p) :
    SpecPay s pid workingDays u p := by
  obtain ⟨_, _, hb, ho, hr, ht⟩ := h
  have hne : ((workingDays : ℚ) * 8) ≠ 0 := by
    have : (0 : ℚ) < (workingDays : ℚ) := by exact_mod_cast hwd
    positivity
  have hcast : (((workingDays * 8 : Nat) : ℚ)) = (workingDays : ℚ) * 8 := by push_cast; ring
  rw [hcast] at hb ho
  refine ⟨div_mul_cancel₀ _ hne, ?_, ho, hr, ?_⟩
  · rw [hb]; push_cast; ring
  · rw [ht, hr]

theorem Store.mem_employees {s : Store} {u : User} :
    u ∈ s.employees ↔ u ∈ s.users ∧ u.Role = "employee" := by
  unfold Store.employees
  rw [List.mem_filter]
  simp

/-- Neither Saturday nor Sunday is the same as Monday to Friday. -/
theorem Time.isWorkingDay_iff (t : Time) :
    t.isWorkingDay = true ↔
      t.Weekday ∈ [Weekday.Monday, Weekday.Tuesday, Weekday.Wednesday, Weekday.Thursday,
        Weekday.Friday] := by
  unfold Time.isWorkingDay
  cases t.Weekday <;> simp

/-- What any operation does to the attendance table: it appends at most one mark, on a
weekday, and when the duplicate lookup for it was answered its user had no mark for that date
in that period before. -/
theorem Op.exec_attendances (F : Faults) (ids : Nat → UUID) (s : Store) (op : Op) :
    ∃ marks, (op.exec F ids s).attendances = s.attendances ++ marks ∧
      ∀ a ∈ marks, marks = [a] ∧ a.Date.isWorkingDay = true ∧
        (F (.FindAttendanceByUserAndDate a.UserID a.Date a.PeriodID) = false →
          s.marksOn a.UserID a.Date a.PeriodID = []) := by
  cases op with
  | CreatePeriod a b u ip r =>
    obtain ⟨rows, logs, h, _⟩ := AttendanceService.CreatePeriod_frame F ids s a b u ip r
    exact ⟨[], by simp [Op.exec, h], by simp⟩
  | SubmitAttendance a b u ip r =>
    obtain ⟨marks, logs, h, hm⟩ := AttendanceService.SubmitAttendance_frame F ids s a b u ip r
    refine ⟨marks, by simp [Op.exec, h], ?_⟩
    intro m hmem
    obtain ⟨h1, _, h3, _, h5, _, h7⟩ := hm m hmem
    refine ⟨h1, h3, ?_⟩
    rw [h5]
    exact h7
  | SubmitOvertime a hh b u ip r =>
    obtain ⟨rows, logs, h, _⟩ := AttendanceService.SubmitOvertime_frame F ids s a hh b u ip r
    exact ⟨[], by simp [Op.exec, h], by simp⟩
  | SubmitReimbursement am de b u ip r =>
    obtain ⟨rows, logs, h, _⟩ :=
      AttendanceService.SubmitReimbursement_frame F ids s am de b u ip r
    exact ⟨[], by simp [Op.exec, h], by simp⟩
  | RunPayroll b u ip r =>
    obtain ⟨rows, logs, h, _⟩ := PayrollService.RunPayroll_frame F ids s b u ip r
    exact ⟨[], by simp [Op.exec, h], by simp⟩

/-- Marks stay on weekdays along every run of the system. -/
theorem ReachableVia.marksOnWeekdays {ok : Faults → Prop} {s0 s : Store}
    (h : ReachableVia ok s0 s) (h0 : s0.MarksOnWeekdays) : s.MarksOnWeekdays := by
  induction h with
  | init => exact h0
  | @step s1 F ids op _ _ ih =>
    obtain ⟨marks, hatt, hm⟩ := Op.exec_attendances F ids s1 op
    intro a ha
    rw [hatt] at ha
    rcases List.mem_append.mp ha with ha | ha
    · exact ih a ha
    · exact (Time.isWorkingDay_iff _).mp (hm a ha).2.1
  | identity users logs _ ih => exact ih

/-- Marks stay unique per user, date and period along every run of the system in which the
duplicate lookups are answered. -/
theorem ReachableVia.marksUnique {s0 s : Store}
    (h : ReachableVia Faults.answersMarkLookup s0 s) (h0 : s0.MarksUnique) :
    s.MarksUnique := by
  induction h with
  | init => exact h0
  | @step s1 F ids op _ hF ih =>
    obtain ⟨marks, hatt, hm⟩ := Op.exec_attendances F ids s1 op
    intro u d p
    unfold Store.marksOn
    rw [hatt, List.filter_append, List.length_append]
    have hi := ih u d p
    unfold Store.marksOn at hi
    cases marks with
    | nil => simpa using hi
    | cons a rest =>
      obtain ⟨h1, _, h3⟩ := hm a (List.mem_cons_self _ _)
      have hrest : rest = [] := by simpa using h1
      subst hrest
      by_cases hk : a.UserID = u ∧ a.Date = d ∧ a.PeriodID = p
      · obtain ⟨rfl, rfl, rfl⟩ := hk
        have hnil := h3 (hF _ _ _)
        unfold Store.marksOn at hnil
        rw [hnil]
        simp
      · have : List.filter (fun a => decide (a.UserID = u ∧ a.Date = d ∧ a.PeriodID = p)) [a]
            = [] := by
          rw [List.filter_eq_nil_iff]
          intro x hx
          rw [List.mem_singleton] at hx
          subst hx
          simpa using hk
        rw [this]
        simpa using hi
  | identity users logs _ ih => exact ih

theorem AttendanceRepository.FindAttendanceByUserAndDate_of_nil {s : Store} {userID : UUID}
    {date : Time} {periodID : UUID} (F : Faults) (h : s.marksOn userID date periodID = []) :
    (AttendanceRepository.FindAttendanceByUserAndDate F s userID date periodID).isSome
      = false := by
  unfold AttendanceRepository.FindAttendanceByUserAndDate
  split
  · rfl
  · unfold Store.marksOn at h
    rw [List.filter_eq_nil_iff] at h
    have : s.attendances.find?
        (fun a => decide (a.UserID = userID ∧ a.Date = date ∧ a.PeriodID = periodID)) = none :=
      List.find?_eq_none.mpr h
    rw [this]
    rfl

theorem Time.not_weekend_of_isWorkingDay {d : Time} (h : d.isWorkingDay = true) :
    ¬ (d.Weekday = Weekday.Saturday ∨ d.Weekday = Weekday.Sunday) := by
  unfold Time.isWorkingDay at h
  simp only [decide_eq_true_eq] at h
  exact not_or.mpr h

/-! ## What each ledger operation returns -/

/-- Everything `SubmitOvertime` can return for a well-formed date and period identifier. -/
theorem AttendanceService.SubmitOvertime_eq (F : Faults) (ids : Nat → UUID) (s : Store)
    {date : String} (hours : ℚ) {periodID : String} {d : Time} {pid : UUID} (userID : UUID)
    (ip req : String) (hdate : Time.Parse date = some d)
    (hpid : uuidParse periodID = some pid) :
    AttendanceService.SubmitOvertime F ids s date hours periodID userID ip req =
      if AttendanceRepository.IsPayrollProcessed F s pid then (.error .payrollProcessed, s)
      else if 3 < hours then (.error .overtimeExceeds, s)
      else if F (.CreateOvertime (AttendanceService.overtimeOf ids userID d hours pid ip)) then
        (.error .submitOvertimeFailed, s)
      else if F (.AuditCreate (AttendanceService.auditOf ids "overtime" userID ip req)) then
        (.error .auditFailed,
          { s with
            overtimes := s.overtimes ++
              [AttendanceService.overtimeOf ids userID d hours pid ip] })
      else
        (.ok (AttendanceService.overtimeOf ids userID d hours pid ip),
          { s with
            overtimes := s.overtimes ++
              [AttendanceService.overtimeOf ids userID d hours pid ip],
            auditLogs := s.auditLogs ++
              [AttendanceService.auditOf ids "overtime" userID ip req] }) := by
  cases hg : AttendanceRepository.IsPayrollProcessed F s pid
  swap
  · simp [AttendanceService.SubmitOvertime, hdate, hpid, hg]
  by_cases h1 : 3 < hours
  · simp [AttendanceService.SubmitOvertime, hdate, hpid, hg, h1]
  · cases hc : F (.CreateOvertime (AttendanceService.overtimeOf ids userID d hours pid ip)) <;>
      cases ha : F (.AuditCreate (AttendanceService.auditOf ids "overtime" userID ip req)) <;>
      simp only [AttendanceService.overtimeOf, AttendanceService.auditOf] at hc ha <;>
      simp [AttendanceService.SubmitOvertime, hdate, hpid, hg, h1,
        AttendanceRepository.CreateOvertime, AuditRepository.Create,
        AttendanceService.overtimeOf, AttendanceService.auditOf, hc, ha]

/-- Everything `SubmitReimbursement` can return for a well-formed period identifier. -/
theorem AttendanceService.SubmitReimbursement_eq (F : Faults) (ids : Nat → UUID) (s : Store)
    (amount : ℚ) (description : String) {periodID : String} {pid : UUID} (userID : UUID)
    (ip req : String) (hpid : uuidParse periodID = some pid) :
    AttendanceService.SubmitReimbursement F ids s amount description periodID userID ip req =
      if AttendanceRepository.IsPayrollProcessed F s pid then (.error .payrollProcessed, s)
      else if amount ≤ 0 then (.error .amountNotPositive, s)
      else if description = "" then (.error .descriptionRequired, s)
      else if F (.CreateReimbursement
          (AttendanceService.reimbursementOf ids userID amount description pid ip)) then
        (.error .submitReimbursementFailed, s)
      else if F (.AuditCreate (AttendanceService.auditOf ids "reimbursement" userID ip req))
        then
        (.error .auditFailed,
          { s with
            reimbursements := s.reimbursements ++
              [AttendanceService.reimbursementOf ids userID amount description pid ip] })
      else
        (.ok (AttendanceService.reimbursementOf ids userID amount description pid ip),
          { s with
            reimbursements := s.reimbursements ++
              [AttendanceService.reimbursementOf ids userID amount description pid ip],
            auditLogs := s.auditLogs ++
              [AttendanceService.auditOf ids "reimbursement" userID ip req] }) := by
  cases hg : AttendanceRepository.IsPayrollProcessed F s pid
  swap
  · simp [AttendanceService.SubmitReimbursement, hpid, hg]
  by_cases h1 : amount ≤ 0
  · simp [AttendanceService.SubmitReimbursement, hpid, hg, h1]
  by_cases h2 : description = ""
  · simp [AttendanceService.SubmitReimbursement, hpid, hg, h1, h2]
  · cases hc : F (.CreateReimbursement
        (AttendanceService.reimbursementOf ids userID amount description pid ip)) <;>
      cases ha : F (.AuditCreate (AttendanceService.auditOf ids "reimbursement" userID ip req))
      <;> simp only [AttendanceService.reimbursementOf, AttendanceService.auditOf] at hc ha <;>
      simp [AttendanceService.SubmitReimbursement, hpid, hg, h1, h2,
        AttendanceRepository.CreateReimbursement, AuditRepository.Create,
        AttendanceService.reimbursementOf, AttendanceService.auditOf, hc, ha]

/-- Everything `CreatePeriod` can return for two well-formed dates. -/
theorem AttendanceService.CreatePeriod_cases (F : Faults) (ids : Nat → UUID) (s : Store)
    {startDate endDate : String} {start stop : Time} (userID : UUID) (ip req : String)
    (hstart : Time.Parse startDate = some start) (hstop : Time.Parse endDate = some stop) :
    AttendanceService.CreatePeriod F ids s startDate endDate userID ip req =
      if stop.day < start.day then (.error .endBeforeStart, s)
      else if F (.CreatePeriod (AttendanceService.periodOf ids start stop userID)) then
        (.error .createPeriodFailed, s)
      else if F (.AuditCreate (AttendanceService.auditOf ids "attendance_period" userID ip
          req)) then
        (.error .auditFailed,
          { s with
            periods := s.periods ++ [AttendanceService.periodOf ids start stop userID] })
      else
        (.ok (AttendanceService.periodOf ids start stop userID),
          { s with
            periods := s.periods ++ [AttendanceService.periodOf ids start stop userID],
            auditLogs := s.auditLogs ++
              [AttendanceService.auditOf ids "attendance_period" userID ip req] }) := by
  by_cases h1 : stop.day < start.day
  · simp [AttendanceService.CreatePeriod, hstart, hstop, Time.Before, h1]
  · cases hc : F (.CreatePeriod (AttendanceService.periodOf ids start stop userID)) <;>
      cases ha : F (.AuditCreate (AttendanceService.auditOf ids "attendance_period" userID ip
        req)) <;>
      simp only [AttendanceService.periodOf, AttendanceService.auditOf] at hc ha <;>
      simp [AttendanceService.CreatePeriod, hstart, hstop, Time.Before, h1,
        AttendanceRepository.CreatePeriod, AuditRepository.Create,
        AttendanceService.periodOf, AttendanceService.auditOf, hc, ha]

/-- Everything `SubmitAttendance` can return for a well-formed date and period identifier. -/
theorem AttendanceService.SubmitAttendance_eq (F : Faults) (ids : Nat → UUID) (s : Store)
    {date periodID : String} {d : Time} {pid : UUID} (userID : UUID) (ip req : String)
    (hdate : Time.Parse date = some d) (hpid : uuidParse periodID = some pid) :
    AttendanceService.SubmitAttendance F ids s date periodID userID ip req =
      if AttendanceRepository.IsPayrollProcessed F s pid then (.error .payrollProcessed, s)
      else if d.Weekday = Weekday.Saturday ∨ d.Weekday = Weekday.Sunday then
        (.error .weekend, s)
      else if (AttendanceRepository.FindAttendanceByUserAndDate F s userID d pid).isSome then
        (.error .duplicateAttendance, s)
      else if F (.CreateAttendance (AttendanceService.markOf ids userID d pid ip)) then
        (.error .submitAttendanceFailed, s)
      else if F (.AuditCreate (AttendanceService.auditOf ids "attendance" userID ip req)) then
        (.error .auditFailed,
          { s with
            attendances := s.attendances ++ [AttendanceService.markOf ids userID d pid ip] })
      else
        (.ok (AttendanceService.markOf ids userID d pid ip),
          { s with
            attendances := s.attendances ++ [AttendanceService.markOf ids userID d pid ip],
            auditLogs := s.auditLogs ++
              [AttendanceService.auditOf ids "attendance" userID ip req] }) := by
  cases hg : AttendanceRepository.IsPayrollProcessed F s pid
  swap
  · simp [AttendanceService.SubmitAttendance, hdate, hpid, hg]
  by_cases h1 : d.Weekday = Weekday.Saturday ∨ d.Weekday = Weekday.Sunday
  · simp [AttendanceService.SubmitAttendance, hdate, hpid, hg, h1]
  cases h2 : (AttendanceRepository.FindAttendanceByUserAndDate F s userID d pid).isSome
  swap
  · simp [AttendanceService.SubmitAttendance, hdate, hpid, hg, h1, h2]
  · cases hc : F (.CreateAttendance (AttendanceService.markOf ids userID d pid ip)) <;>
      cases ha : F (.AuditCreate (AttendanceService.auditOf ids "attendance" userID ip req)) <;>
      simp only [AttendanceService.markOf, AttendanceService.auditOf] at hc ha <;>
      simp [AttendanceService.SubmitAttendance, hdate, hpid, hg, h1, h2,
        AttendanceRepository.CreateAttendance, AuditRepository.Create,
        AttendanceService.markOf, AttendanceService.auditOf, hc, ha]

/-- What any operation does to the overtime table: it appends at most one claim, of at most
3 hours. -/
theorem Op.exec_overtimes (F : Faults) (ids : Nat → UUID) (s : Store) (op : Op) :
    ∃ rows, (op.exec F ids s).overtimes = s.overtimes ++ rows ∧ ∀ o ∈ rows, o.Hours ≤ 3 := by
  cases op with
  | CreatePeriod a b u ip r =>
    obtain ⟨rows, logs, h, _⟩ := AttendanceService.CreatePeriod_frame F ids s a b u ip r
    exact ⟨[], by simp [Op.exec, h], by simp⟩
  | SubmitAttendance a b u ip r =>
    obtain ⟨marks, logs, h, _⟩ := AttendanceService.SubmitAttendance_frame F ids s a b u ip r
    exact ⟨[], by simp [Op.exec, h], by simp⟩
  | SubmitOvertime a hh b u ip r =>
    obtain ⟨rows, logs, h, hr⟩ := AttendanceService.SubmitOvertime_frame F ids s a hh b u ip r
    refine ⟨rows, by simp [Op.exec, h], ?_⟩
    intro o ho
    obtain ⟨_, _, h3, h4, _⟩ := hr o ho
    rw [h3]
    exact h4
  | SubmitReimbursement am de b u ip r =>
    obtain ⟨rows, logs, h, _⟩ :=
      AttendanceService.SubmitReimbursement_frame F ids s am de b u ip r
    exact ⟨[], by simp [Op.exec, h], by simp⟩
  | RunPayroll b u ip r =>
    obtain ⟨rows, logs, h, _⟩ := PayrollService.RunPayroll_frame F ids s b u ip r
    exact ⟨[], by simp [Op.exec, h], by simp⟩

/-- What any operation does to the reimbursement table: it appends at most one claim, of
positive amount and with a description. -/
theorem Op.exec_reimbursements (F : Faults) (ids : Nat → UUID) (s : Store) (op : Op) :
    ∃ rows, (op.exec F ids s).reimbursements = s.reimbursements ++ rows ∧
      ∀ r ∈ rows, 0 < r.Amount ∧ r.Description ≠ "" := by
  cases op with
  | CreatePeriod a b u ip r =>
    obtain ⟨rows, logs, h, _⟩ := AttendanceService.CreatePeriod_frame F ids s a b u ip r
    exact ⟨[], by simp [Op.exec, h], by simp⟩
  | SubmitAttendance a b u ip r =>
    obtain ⟨marks, logs, h, _⟩ := AttendanceService.SubmitAttendance_frame F ids s a b u ip r
    exact ⟨[], by simp [Op.exec, h], by simp⟩
  | SubmitOvertime a hh b u ip r =>
    obtain ⟨rows, logs, h, _⟩ := AttendanceService.SubmitOvertime_frame F ids s a hh b u ip r
    exact ⟨[], by simp [Op.exec, h], by simp⟩
  | SubmitReimbursement am de b u ip r =>
    obtain ⟨rows, logs, h, hr⟩ :=
      AttendanceService.SubmitReimbursement_frame F ids s am de b u ip r
    refine ⟨rows, by simp [Op.exec, h], ?_⟩
    intro x hx
    obtain ⟨_, h2, h3, h4, h5, _⟩ := hr x hx
    rw [h2, h4]
    exact ⟨h3, h5⟩
  | RunPayroll b u ip r =>
    obtain ⟨rows, logs, h, _⟩ := PayrollService.RunPayroll_frame F ids s b u ip r
    exact ⟨[], by simp [Op.exec, h], by simp⟩

/-- What any operation does to the period table: it appends at most one period, which ends
on or after the day it starts. -/
theorem Op.exec_periods (F : Faults) (ids : Nat → UUID) (s : Store) (op : Op) :
    ∃ rows, (op.exec F ids s).periods = s.periods ++ rows ∧
      ∀ p ∈ rows, p.StartDate.day ≤ p.EndDate.day := by
  cases op with
  | CreatePeriod a b u ip r =>
    obtain ⟨rows, logs, h, hr⟩ := AttendanceService.CreatePeriod_frame F ids s a b u ip r
    refine ⟨rows, by simp [Op.exec, h], ?_⟩
    intro p hp
    exact (hr p hp).2.2.2
  | SubmitAttendance a b u ip r =>
    obtain ⟨marks, logs, h, _⟩ := AttendanceService.SubmitAttendance_frame F ids s a b u ip r
    exact ⟨[], by simp [Op.exec, h], by simp⟩
  | SubmitOvertime a hh b u ip r =>
    obtain ⟨rows, logs, h, _⟩ := AttendanceService.SubmitOvertime_frame F ids s a hh b u ip r
    exact ⟨[], by simp [Op.exec, h], by simp⟩
  | SubmitReimbursement am de b u ip r =>
    obtain ⟨rows, logs, h, _⟩ :=
      AttendanceService.SubmitReimbursement_frame F ids s am de b u ip r
    exact ⟨[], by simp [Op.exec, h], by simp⟩
  | RunPayroll b u ip r =>
    obtain ⟨rows, logs, h, _⟩ := PayrollService.RunPayroll_frame F ids s b u ip r
    exact ⟨[], by simp [Op.exec, h], by simp⟩

theorem ReachableVia.overtimesAtMost3 {ok : Faults → Prop} {s0 s : Store}
    (h : ReachableVia ok s0 s) (h0 : s0.OvertimesAtMost3) : s.OvertimesAtMost3 := by
  induction h with
  | init => exact h0
  | @step s1 F ids op _ _ ih =>
    obtain ⟨rows, heq, hr⟩ := Op.exec_overtimes F ids s1 op
    intro o ho
    rw [heq] at ho
    rcases List.mem_append.mp ho with ho | ho
    · exact ih o ho
    · exact hr o ho
  | identity users logs _ ih => exact ih

theorem ReachableVia.reimbursementsValid {ok : Faults → Prop} {s0 s : Store}
    (h : ReachableVia ok s0 s) (h0 : s0.ReimbursementsValid) : s.ReimbursementsValid := by
  induction h with
  | init => exact h0
  | @step s1 F ids op _ _ ih =>
    obtain ⟨rows, heq, hr⟩ := Op.exec_reimbursements F ids s1 op
    intro o ho
    rw [heq] at ho
    rcases List.mem_append.mp ho with ho | ho
    · exact ih o ho
    · exact hr o ho
  | identity users logs _ ih => exact ih

theorem ReachableVia.periodsOrdered {ok : Faults → Prop} {s0 s : Store}
    (h : ReachableVia ok s0 s) (h0 : s0.PeriodsOrdered) : s.PeriodsOrdered := by
  induction h with
  | init => exact h0
  | @step s1 F ids op _ _ ih =>
    obtain ⟨rows, heq, hr⟩ := Op.exec_periods F ids s1 op
    intro o ho
    rw [heq] at ho
    rcases List.mem_append.mp ho with ho | ho
    · exact ih o ho
    · exact hr o ho
  | identity users logs _ ih => exact ih

/-! ## The readers -/

theorem PayrollService.GeneratePayrollSummary.loop_total (F : Faults) (s : Store) :
    ∀ (rows : List Payroll) (acc : List PayrollService.SummaryEntry) (t : Float64),
      (∀ p ∈ rows, (PayrollRepository.FindUserByID F s p.UserID).isSome = true) →
      ∃ entries, PayrollService.GeneratePayrollSummary.loop F s rows acc t
          = .ok (acc ++ entries,
              (rows.map (fun p => p.TotalPay)).foldl
                (fun acc x => Float64.add acc (.finite x)) t) ∧
        List.Forall₂ (SummaryFor F s) rows entries := by
  intro rows
  induction rows with
  | nil =>
    intro acc t _
    exact ⟨[], by simp [PayrollService.GeneratePayrollSummary.loop], List.Forall₂.nil⟩
  | cons p rest ih =>
    intro acc t h
    obtain ⟨u, hu⟩ := Option.isSome_iff_exists.mp (h p (List.mem_cons_self _ _))
    obtain ⟨entries, he, hf⟩ := ih (acc ++ [{ username := u.Username, total_pay := p.TotalPay }])
      (Float64.add t (.finite p.TotalPay)) (fun q hq => h q (List.mem_cons_of_mem _ hq))
    refine ⟨{ username := u.Username, total_pay := p.TotalPay } :: entries, ?_,
      List.Forall₂.cons ⟨rfl, u, hu, rfl⟩ hf⟩
    rw [PayrollService.GeneratePayrollSummary.loop, hu]
    simp only [he, List.map_cons, List.foldl_cons, List.append_assoc, List.singleton_append]

/-- A `float64` accumulation none of whose partial sums is rounded yields the exact sum. -/
theorem Float64.foldl_exact :
    ∀ (xs : List ℚ) (t : ℚ),
      (∀ k, 1 ≤ k → k ≤ xs.length → Float64.Exact (t + (xs.take k).sum)) →
      xs.foldl (fun acc x => Float64.add acc (.finite x)) (.finite t)
        = .finite (t + xs.sum) := by
  intro xs
  induction xs with
  | nil => intro t _; simp
  | cons x rest ih =>
    intro t h
    have h1 : Float64.add (.finite t) (.finite x) = .finite (t + x) := by
      have := h 1 (le_refl _) (by simp)
      simpa [Float64.Exact] using this
    rw [List.foldl_cons, h1, ih (t + x), List.sum_cons, add_assoc]
    intro k hk1 hk
    have := h (k + 1) (by omega) (by simpa using hk)
    simpa [add_assoc] using this

theorem SummaryFor.map_total_pay {F : Faults} {s : Store} {rows : List Payroll}
    {entries : List PayrollService.SummaryEntry}
    (h : List.Forall₂ (SummaryFor F s) rows entries) :
    entries.map (fun e => e.total_pay) = rows.map (fun p => p.TotalPay) := by
  induction h with
  | nil => rfl
  | cons h _ ih => simp [h.1, ih]

theorem firstByID_nil_iff {α : Type} (key : α → UUID) (l : List α) :
    firstByID key l = none ↔ l = [] := by
  cases l with
  | nil => simp [firstByID]
  | cons x xs =>
    simp only [firstByID]
    cases firstByID key xs with
    | none => simp
    | some y => by_cases h : key x ≤ key y <;> simp [h]

theorem firstByID_some {α : Type} (key : α → UUID) :
    ∀ (l : List α) (p : α), firstByID key l = some p → p ∈ l ∧ ∀ q ∈ l, key p ≤ key q := by
  intro l
  induction l with
  | nil => intro p h; simp [firstByID] at h
  | cons x xs ih =>
    intro p h
    simp only [firstByID] at h
    cases hxs : firstByID key xs with
    | none =>
      rw [hxs] at h
      simp only [Option.some.injEq] at h
      subst h
      have : xs = [] := (firstByID_nil_iff key xs).mp hxs
      subst this
      simp
    | some y =>
      rw [hxs] at h
      obtain ⟨hy, hmin⟩ := ih y hxs
      by_cases hle : key x ≤ key y
      · simp only [hle, if_true, Option.some.injEq] at h
        subst h
        refine ⟨List.mem_cons_self _ _, ?_⟩
        intro q hq
        rcases List.mem_cons.mp hq with rfl | hq
        · exact le_refl _
        · exact le_trans hle (hmin q hq)
      · simp only [hle, if_false, Option.some.injEq] at h
        subst h
        refine ⟨List.mem_cons_of_mem _ hy, ?_⟩
        intro q hq
        rcases List.mem_cons.mp hq with rfl | hq
        · exact le_of_lt (not_le.mp hle)
        · exact hmin q hq

/-- `GeneratePayslip` writes nothing. -/
theorem PayrollService.GeneratePayslip_store (F : Faults) (s : Store) (periodID : String)
    (userID : UUID) : (PayrollService.GeneratePayslip F s periodID userID).2 = s := by
  unfold PayrollService.GeneratePayslip
  repeat' split
  all_goals rfl

/-- `GeneratePayrollSummary` writes nothing. -/
theorem PayrollService.GeneratePayrollSummary_store (F : Faults) (s : Store)
    (periodID : String) : (PayrollService.GeneratePayrollSummary F s periodID).2 = s := by
  unfold PayrollService.GeneratePayrollSummary
  repeat' split
  all_goals rfl

/-! ## Successful writes and their audit rows -/

theorem AuditRepository.Create_fault {F : Faults} {s s1 : Store} {a : AuditLog}
    (h : AuditRepository.Create F s a = some s1) : F (.AuditCreate a) = false := by
  unfold AuditRepository.Create at h
  split at h
  · simp at h
  · simpa using ‹¬ F (.AuditCreate a) = true›

/-- A successful `SubmitAttendance` has written its mark and one audit row for it. -/
theorem AttendanceService.SubmitAttendance_ok {F : Faults} {ids : Nat → UUID} {s s' : Store}
    {date periodID : String} {userID : UUID} {ip req : String} {a : Attendance}
    (h : AttendanceService.SubmitAttendance F ids s date periodID userID ip req = (.ok a, s')) :
    s'.attendances = s.attendances ++ [a] ∧ a.ID = ids 0 ∧
    s'.auditLogs = s.auditLogs ++ [AttendanceService.auditOf ids "attendance" userID ip req] ∧
    F (.AuditCreate (AttendanceService.auditOf ids "attendance" userID ip req)) = false := by
  cases hd : Time.Parse date with
  | none => simp [AttendanceService.SubmitAttendance, hd] at h
  | some d =>
    cases hp : uuidParse periodID with
    | none => simp [AttendanceService.SubmitAttendance, hd, hp] at h
    | some pid =>
      rw [AttendanceService.SubmitAttendance_eq F ids s userID ip req hd hp] at h
      repeat' split at h
      all_goals simp only [Prod.mk.injEq, Except.ok.injEq, reduceCtorEq, false_and] at h
      obtain ⟨rfl, rfl⟩ := h
      exact ⟨rfl, rfl, rfl, by simpa using ‹¬ F (.AuditCreate _) = true›⟩

/-- A successful `SubmitOvertime` has written its claim and one audit row for it. -/
theorem AttendanceService.SubmitOvertime_ok {F : Faults} {ids : Nat → UUID} {s s' : Store}
    {date : String} {hours : ℚ} {periodID : String} {userID : UUID} {ip req : String}
    {o : Overtime}
    (h : AttendanceService.SubmitOvertime F ids s date hours periodID userID ip req
      = (.ok o, s')) :
    s'.overtimes = s.overtimes ++ [o] ∧ o.ID = ids 0 ∧
    s'.auditLogs = s.auditLogs ++ [AttendanceService.auditOf ids "overtime" userID ip req] ∧
    F (.AuditCreate (AttendanceService.auditOf ids "overtime" userID ip req)) = false := by
  cases hd : Time.Parse date with
  | none => simp [AttendanceService.SubmitOvertime, hd] at h
  | some d =>
    cases hp : uuidParse periodID with
    | none => simp [AttendanceService.SubmitOvertime, hd, hp] at h
    | some pid =>
      rw [AttendanceService.SubmitOvertime_eq F ids s hours userID ip req hd hp] at h
      repeat' split at h
      all_goals simp only [Prod.mk.injEq, Except.ok.injEq, reduceCtorEq, false_and] at h
      obtain ⟨rfl, rfl⟩ := h
      exact ⟨rfl, rfl, rfl, by simpa using ‹¬ F (.AuditCreate _) = true›⟩

/-- A successful `SubmitReimbursement` has written its claim and one audit row for it. -/
theorem AttendanceService.SubmitReimbursement_ok {F : Faults} {ids : Nat → UUID}
    {s s' : Store} {amount : ℚ} {description periodID : String} {userID : UUID}
    {ip req : String} {r : Reimbursement}
    (h : AttendanceService.SubmitReimbursement F ids s amount description periodID userID ip
      req = (.ok r, s')) :
    s'.reimbursements = s.reimbursements ++ [r] ∧ r.ID = ids 0 ∧
    s'.auditLogs = s.auditLogs ++
      [AttendanceService.auditOf ids "reimbursement" userID ip req] ∧
    F (.AuditCreate (AttendanceService.auditOf ids "reimbursement" userID ip req)) = false := by
  cases hp : uuidParse periodID with
  | none => simp [AttendanceService.SubmitReimbursement, hp] at h
  | some pid =>
    rw [AttendanceService.SubmitReimbursement_eq F ids s amount description userID ip req hp]
      at h
    repeat' split at h
    all_goals simp only [Prod.mk.injEq, Except.ok.injEq, reduceCtorEq, false_and] at h
    obtain ⟨rfl, rfl⟩ := h
    exact ⟨rfl, rfl, rfl, by simpa using ‹¬ F (.AuditCreate _) = true›⟩

/-- A successful `CreatePeriod` has written its period and one audit row for it. -/
theorem AttendanceService.CreatePeriod_ok {F : Faults} {ids : Nat → UUID} {s s' : Store}
    {startDate endDate : String} {userID : UUID} {ip req : String} {p : AttendancePeriod}
    (h : AttendanceService.CreatePeriod F ids s startDate endDate userID ip req = (.ok p, s')) :
    s'.periods = s.periods ++ [p] ∧ p.ID = ids 0 ∧
    s'.auditLogs = s.auditLogs ++
      [AttendanceService.auditOf ids "attendance_period" userID ip req] ∧
    F (.AuditCreate (AttendanceService.auditOf ids "attendance_period" userID ip req))
      = false := by
  cases hd : Time.Parse startDate with
  | none => simp [AttendanceService.CreatePeriod, hd] at h
  | some d =>
    cases hp : Time.Parse endDate with
    | none => simp [AttendanceService.CreatePeriod, hd, hp] at h
    | some e =>
      rw [AttendanceService.CreatePeriod_cases F ids s userID ip req hd hp] at h
      repeat' split at h
      all_goals simp only [Prod.mk.injEq, Except.ok.injEq, reduceCtorEq, false_and] at h
      obtain ⟨rfl, rfl⟩ := h
      exact ⟨rfl, rfl, rfl, by simpa using ‹¬ F (.AuditCreate _) = true›⟩

theorem PayrollService.RunPayroll.body_ok_fault {F : Faults} {ids : Nat → UUID} {pid : UUID}
    {hours : ℚ} {actor : UUID} {ip req : String} {i : Nat} {user : User} {s s' : Store}
    {u : Unit}
    (h : PayrollService.RunPayroll.body F ids pid hours actor ip req i user s = (.ok u, s')) :
    ∃ a, s'.auditLogs = s.auditLogs ++ [a] ∧ F (.AuditCreate a) = false := by
  unfold PayrollService.RunPayroll.body at h
  split at h
  · simp at h
  try dsimp only at h
  split at h
  · simp at h
  try dsimp only at h
  split at h
  · simp at h
  try dsimp only at h
  split at h
  · simp at h
  rename_i s1 hs1
  try dsimp only at h
  split at h
  · simp at h
  rename_i s2 hs2
  simp only [Prod.mk.injEq] at h
  have e4 := PayrollRepository.CreatePayroll_eq hs1
  have e5 := AuditRepository.Create_eq hs2
  have hf := AuditRepository.Create_fault hs2
  obtain ⟨_, rfl⟩ := h
  exact ⟨_, by rw [e5, e4], hf⟩

theorem PayrollService.RunPayroll.loop_ok_fault {F : Faults} {ids : Nat → UUID} {pid : UUID}
    {hours : ℚ} {actor : UUID} {ip req : String} :
    ∀ (es : List User) (i : Nat) (s s' : Store) (u : Unit),
      PayrollService.RunPayroll.loop F ids pid hours actor ip req es i s = (.ok u, s') →
      ∃ logs, s'.auditLogs = s.auditLogs ++ logs ∧ ∀ l ∈ logs, F (.AuditCreate l) = false := by
  intro es
  induction es with
  | nil =>
    intro i s s' u h
    simp only [PayrollService.RunPayroll.loop, Prod.mk.injEq] at h
    exact ⟨[], by simp [← h.2], by simp⟩
  | cons user rest ih =>
    intro i s s' u h
    rw [PayrollService.RunPayroll.loop] at h
    split at h
    · simp at h
    rename_i u1 s1 hb
    obtain ⟨a, ha, hf⟩ := PayrollService.RunPayroll.body_ok_fault hb
    obtain ⟨logs, hl, hfs⟩ := ih _ _ _ _ h
    refine ⟨a :: logs, by rw [hl, ha]; simp, ?_⟩
    intro l hmem
    rcases List.mem_cons.mp hmem with rfl | hmem
    · exact hf
    · exact hfs l hmem

theorem PayrollService.RunPayroll_ok_fault {F : Faults} {ids : Nat → UUID} {s s' : Store}
    {periodID : String} {actor : UUID} {ip req : String} {u : Unit}
    (h : PayrollService.RunPayroll F ids s periodID actor ip req = (.ok u, s')) :
    ∃ logs, s'.auditLogs = s.auditLogs ++ logs ∧ ∀ l ∈ logs, F (.AuditCreate l) = false := by
  unfold PayrollService.RunPayroll at h
  split at h
  · simp at h
  split at h
  · simp at h
  split at h
  · simp at h
  dsimp only at h
  split at h
  · simp at h
  exact PayrollService.RunPayroll.loop_ok_fault _ _ _ _ _ h

theorem PayrollService.RunPayroll.body_fails {F : Faults} (ids : Nat → UUID) {pid : UUID}
    (hours : ℚ) (actor : UUID) (ip req : String) (i : Nat) {user : User} (s : Store)
    (h : F.FailsFor s pid user) :
    PayrollService.RunPayroll.body F ids pid hours actor ip req i user s
      = (.error (F.failureOf s pid user), s) := by
  unfold Faults.failureOf
  cases h1 : F (.CountAttendance user.ID pid)
  swap
  · simp [PayrollService.RunPayroll.body, PayrollRepository.CountAttendance, h1]
  have e1 : PayrollRepository.CountAttendance F s user.ID pid
      = some (s.attendances.filter (fun a => a.UserID = user.ID ∧ a.PeriodID = pid)).length := by
    simp [PayrollRepository.CountAttendance, h1]
  by_cases h2 : F (.SumOvertimeHours user.ID pid) = true ∨ s.overtimesOf user.ID pid = []
  · have e2 : PayrollRepository.SumOvertimeHours F s user.ID pid = none := by
      rcases h2 with h2 | h2
      · simp [PayrollRepository.SumOvertimeHours, h2]
      · exact PayrollRepository.SumOvertimeHours_of_nil F h2
    simp only [PayrollService.RunPayroll.body, e1, e2, if_pos h2]
    simp
  have e2 := PayrollRepository.SumOvertimeHours_of_rows (by simpa using (not_or.mp h2).1)
    (not_or.mp h2).2
  by_cases h3 : F (.SumReimbursementAmount user.ID pid) = true ∨
      s.reimbursementsOf user.ID pid = []
  · have e3 : PayrollRepository.SumReimbursementAmount F s user.ID pid = none := by
      rcases h3 with h3 | h3
      · simp [PayrollRepository.SumReimbursementAmount, h3]
      · exact PayrollRepository.SumReimbursementAmount_of_nil F h3
    simp only [PayrollService.RunPayroll.body, e1, e2, e3, if_neg h2, if_pos h3]
    simp
  have e3 := PayrollRepository.SumReimbursementAmount_of_rows (by simpa using (not_or.mp h3).1)
    (not_or.mp h3).2
  have h4 : ∀ p : Payroll, p.UserID = user.ID → F (.CreatePayroll p) = true := by
    rcases h with h | h | h | h | h | h
    · rw [h1] at h; exact absurd h (by decide)
    · exact absurd (Or.inl h) h2
    · exact absurd (Or.inr h) h2
    · exact absurd (Or.inl h) h3
    · exact absurd (Or.inr h) h3
    · exact h
  simp only [PayrollService.RunPayroll.body, e1, e2, e3, if_neg h2, if_neg h3]
  simp [PayrollRepository.CreatePayroll, h4]

/-- A pass whose lookups, insert and audit write succeed returns without error. -/
theorem PayrollService.RunPayroll.body_succeeds {F : Faults} (ids : Nat → UUID) {pid : UUID}
    (hours : ℚ) (actor : UUID) (ip req : String) (i : Nat) {user : User} (s : Store)
    (h : F.SucceedsFor s pid user)
    (haudit : F (.AuditCreate (PayrollService.auditOf ids actor ip req i)) = false) :
    ∃ s', PayrollService.RunPayroll.body F ids pid hours actor ip req i user s
      = (.ok (), s') := by
  obtain ⟨h1, h2, h2', h3, h3', h4⟩ := h
  have e2 := PayrollRepository.SumOvertimeHours_of_rows h2 h2'
  have e3 := PayrollRepository.SumReimbursementAmount_of_rows h3 h3'
  unfold PayrollService.auditOf at haudit
  simp [PayrollService.RunPayroll.body, PayrollRepository.CountAttendance, h1, e2, e3,
    PayrollRepository.CreatePayroll, h4, AuditRepository.Create, haudit]

/-- A pass whose lookups and insert succeed and whose audit write fails returns "failed to
log audit" and leaves the payroll row of the user behind. -/
theorem PayrollService.RunPayroll.body_audit_fails {F : Faults} (ids : Nat → UUID)
    {pid : UUID} (hours : ℚ) (actor : UUID) (ip req : String) (i : Nat) {user : User}
    (s : Store) (h : F.SucceedsFor s pid user)
    (haudit : F (.AuditCreate (PayrollService.auditOf ids actor ip req i)) = true) :
    ∃ p, PayrollService.RunPayroll.body F ids pid hours actor ip req i user s
        = (.error .auditFailed, { s with payrolls := s.payrolls ++ [p] }) ∧
      PayrollFor s pid hours user p := by
  obtain ⟨h1, h2, h2', h3, h3', h4⟩ := h
  have e2 := PayrollRepository.SumOvertimeHours_of_rows h2 h2'
  have e3 := PayrollRepository.SumReimbursementAmount_of_rows h3 h3'
  unfold PayrollService.auditOf at haudit
  refine ⟨PayrollService.payrollOf ids s pid hours actor ip i user, ?_,
    ⟨rfl, rfl, rfl, rfl, rfl, rfl⟩⟩
  simp [PayrollService.RunPayroll.body, PayrollRepository.CountAttendance, h1, e2, e3,
    PayrollRepository.CreatePayroll, h4, AuditRepository.Create, haudit, Store.marksOf,
    PayrollService.payrollOf]

/-- The loop over employees of whom the first to fail before the audit write is `ek`: it
returns the error of `ek` and leaves one payroll row for each employee before `ek`, and none
for `ek`. -/
theorem PayrollService.RunPayroll.loop_fails_at {F : Faults} (ids : Nat → UUID) {pid : UUID}
    (hours : ℚ) (actor : UUID) (ip req : String) {ek : User} (post : List User) :
    ∀ (pre : List User) (i : Nat) (s : Store), (∀ u ∈ pre, F.SucceedsFor s pid u) →
      (∀ j, j < pre.length →
        F (.AuditCreate (PayrollService.auditOf ids actor ip req (i + j))) = false) →
      F.FailsFor s pid ek →
      ∃ rows logs,
        PayrollService.RunPayroll.loop F ids pid hours actor ip req (pre ++ ek :: post) i s
          = (.error (F.failureOf s pid ek),
              { s with payrolls := s.payrolls ++ rows, auditLogs := s.auditLogs ++ logs }) ∧
        List.Forall₂ (PayrollFor s pid hours) pre rows := by
  intro pre
  induction pre with
  | nil =>
    intro i s _ _ hfail
    refine ⟨[], [], ?_, List.Forall₂.nil⟩
    rw [List.nil_append, PayrollService.RunPayroll.loop,
      PayrollService.RunPayroll.body_fails ids hours actor ip req i s hfail]
    simp
  | cons u rest ih =>
    intro i s hpre haudit hfail
    obtain ⟨s1, hs1⟩ := PayrollService.RunPayroll.body_succeeds ids hours actor ip req i s
      (hpre u (List.mem_cons_self _ _)) (haudit 0 (by simp))
    obtain ⟨p, a, rfl, hp, _⟩ := PayrollService.RunPayroll.body_ok hs1
    obtain ⟨rows, logs, hl, hrows⟩ := ih (i + 1)
      { s with payrolls := s.payrolls ++ [p], auditLogs := s.auditLogs ++ [a] }
      (fun v hv => hpre v (List.mem_cons_of_mem _ hv))
      (fun j hj => by
        have := haudit (j + 1) (by simpa using hj)
        rwa [show i + (j + 1) = i + 1 + j by omega] at this)
      hfail
    refine ⟨p :: rows, a :: logs, ?_, List.Forall₂.cons hp hrows⟩
    rw [List.cons_append, PayrollService.RunPayroll.loop, hs1]
    simp only [hl]
    simp [Faults.failureOf, Store.overtimesOf, Store.reimbursementsOf]

/-- The loop over employees of whom the first to fail is `ek`, at the audit write: it returns
"failed to log audit" and leaves one payroll row for each employee up to and including
`ek`. -/
theorem PayrollService.RunPayroll.loop_audit_fails_at {F : Faults} (ids : Nat → UUID)
    {pid : UUID} (hours : ℚ) (actor : UUID) (ip req : String) {ek : User} (post : List User) :
    ∀ (pre : List User) (i : Nat) (s : Store), (∀ u ∈ pre, F.SucceedsFor s pid u) →
      (∀ j, j < pre.length →
        F (.AuditCreate (PayrollService.auditOf ids actor ip req (i + j))) = false) →
      F.SucceedsFor s pid ek →
      F (.AuditCreate (PayrollService.auditOf ids actor ip req (i + pre.length))) = true →
      ∃ rows logs,
        PayrollService.RunPayroll.loop F ids pid hours actor ip req (pre ++ ek :: post) i s
          = (.error .auditFailed,
              { s with payrolls := s.payrolls ++ rows, auditLogs := s.auditLogs ++ logs }) ∧
        List.Forall₂ (PayrollFor s pid hours) (pre ++ [ek]) rows := by
  intro pre
  induction pre with
  | nil =>
    intro i s _ _ hek haudit
    obtain ⟨p, hb, hp⟩ := PayrollService.RunPayroll.body_audit_fails ids hours actor ip req i
      s hek (by simpa using haudit)
    refine ⟨[p], [], ?_, List.Forall₂.cons hp List.Forall₂.nil⟩
    rw [List.nil_append, PayrollService.RunPayroll.loop, hb]
    simp
  | cons u rest ih =>
    intro i s hpre haudit hek hauditk
    obtain ⟨s1, hs1⟩ := PayrollService.RunPayroll.body_succeeds ids hours actor ip req i s
      (hpre u (List.mem_cons_self _ _)) (haudit 0 (by simp))
    obtain ⟨p, a, rfl, hp, _⟩ := PayrollService.RunPayroll.body_ok hs1
    obtain ⟨rows, logs, hl, hrows⟩ := ih (i + 1)
      { s with payrolls := s.payrolls ++ [p], auditLogs := s.auditLogs ++ [a] }
      (fun v hv => hpre v (List.mem_cons_of_mem _ hv))
      (fun j hj => by
        have := haudit (j + 1) (by simpa using hj)
        rwa [show i + (j + 1) = i + 1 + j by omega] at this)
      hek
      (by
        rwa [show i + 1 + rest.length = i + (u :: rest).length by
          simp only [List.length_cons]; omega])
    refine ⟨p :: rows, a :: logs, ?_, List.Forall₂.cons hp hrows⟩
    rw [List.cons_append, PayrollService.RunPayroll.loop, hs1]
    simp only [hl]
    simp

/-- A payroll pass that returns without error had an overtime row and a reimbursement row to
sum for its user. -/
theorem PayrollService.RunPayroll.body_ok_ledger {F : Faults} {ids : Nat → UUID} {pid : UUID}
    {hours : ℚ} {actor : UUID} {ip req : String} {i : Nat} {user : User} {s s' : Store}
    {u : Unit}
    (h : PayrollService.RunPayroll.body F ids pid hours actor ip req i user s = (.ok u, s')) :
    s.HasLedger pid user := by
  unfold PayrollService.RunPayroll.body at h
  split at h
  · simp at h
  try dsimp only at h
  split at h
  · simp at h
  rename_i ot hot
  try dsimp only at h
  split at h
  · simp at h
  rename_i re hre
  exact ⟨PayrollRepository.SumOvertimeHours_ne_nil hot,
    PayrollRepository.SumReimbursementAmount_ne_nil hre⟩

/-- A payroll loop that returns without error had an overtime row and a reimbursement row to
sum for each of its users. -/
theorem PayrollService.RunPayroll.loop_ok_ledger {F : Faults} {ids : Nat → UUID} {pid : UUID}
    {hours : ℚ} {actor : UUID} {ip req : String} :
    ∀ (users : List User) (i : Nat) (s s' : Store),
      PayrollService.RunPayroll.loop F ids pid hours actor ip req users i s = (.ok (), s') →
      ∀ u ∈ users, s.HasLedger pid u := by
  intro users
  induction users with
  | nil => intro _ _ _ _ u hu; simp at hu
  | cons v rest ih =>
    intro i s s' h u hu
    rw [PayrollService.RunPayroll.loop] at h
    split at h
    · simp at h
    · rename_i x s1 hb
      have hv := PayrollService.RunPayroll.body_ok_ledger hb
      obtain ⟨p, a, rfl, _, _⟩ := PayrollService.RunPayroll.body_ok hb
      rcases List.mem_cons.mp hu with rfl | hu
      · exact hv
      · exact ih (i + 1) _ s' h u hu

/-- A payroll run that returns without error had an overtime row and a reimbursement row to
sum for every employee. -/
theorem PayrollService.RunPayroll_ok_ledger {F : Faults} {ids : Nat → UUID} {s s' : Store}
    {periodID : String} {pid : UUID} {actor : UUID} {ip req : String}
    (hpid : uuidParse periodID = some pid)
    (h : PayrollService.RunPayroll F ids s periodID actor ip req = (.ok (), s')) :
    ∀ u ∈ s.employees, s.HasLedger pid u := by
  unfold PayrollService.RunPayroll at h
  rw [hpid] at h
  dsimp only at h
  split at h
  · simp at h
  split at h
  · simp at h
  try dsimp only at h
  split at h
  · simp at h
  rename_i es hes
  have : es = s.employees := by
    unfold PayrollRepository.FindEmployees at hes
    split at hes
    · simp at hes
    · simpa [Store.employees] using hes.symm
  subst this
  exact PayrollService.RunPayroll.loop_ok_ledger _ _ _ _ h

/-! ## Weeks -/

/-- A day is a working day when its weekday number is neither 0 (Sunday) nor 6 (Saturday). -/
theorem Time.isWorkingDay_mod (k : Int) :
    (Time.mk k).isWorkingDay = decide ((k + 1) % 7 ≠ 0 ∧ (k + 1) % 7 ≠ 6) := by
  obtain ⟨m, hm, hlt⟩ : ∃ m : Nat, (k + 1) % 7 = (m : Int) ∧ m < 7 :=
    ⟨((k + 1) % 7).toNat, by omega, by omega⟩
  unfold Time.isWorkingDay Time.Weekday
  simp only [hm, Int.toNat_ofNat]
  interval_cases m <;> simp

/-- Any 7 consecutive days hold 5 working days. -/
theorem Time.week_has_five (d : Int) :
    ((List.range 7).filter (fun i : Nat => (Time.mk (d + (i : Int))).isWorkingDay)).length
      = 5 := by
  have hfun : (fun i : Nat => (Time.mk (d + (i : Int))).isWorkingDay) =
      (fun i : Nat => decide ((((d + 1) % 7) + (i : Int)) % 7 ≠ 0 ∧
        (((d + 1) % 7) + (i : Int)) % 7 ≠ 6)) := by
    funext i
    rw [Time.isWorkingDay_mod]
    congr 1
    have h1 : (d + (i : Int) + 1) % 7 = (((d + 1) % 7) + (i : Int)) % 7 := by omega
    rw [h1]
  rw [hfun]
  have h0 : 0 ≤ (d + 1) % 7 := by omega
  have h7 : (d + 1) % 7 < 7 := by omega
  generalize (d + 1) % 7 = r at h0 h7
  interval_cases r <;> decide

/-- A closed form of `countWorkingDays` as a cardinality. -/
theorem countWorkingDays_eq_card (start stop : Time) :
    countWorkingDays start stop =
      ((Finset.Icc start.day stop.day).filter
        (fun k => (Time.mk k).isWorkingDay = true)).card := by
  rw [countWorkingDays, countWorkingDays.loop_eq_card stop _ start 0 rfl, Nat.zero_add]

/-- The period lookup finds nothing when no stored period carries the identifier. -/
theorem AttendanceRepository.FindPeriodByID_of_absent {s : Store} {pid : UUID} (F : Faults)
    (h : ∀ p ∈ s.periods, p.ID ≠ pid) : AttendanceRepository.FindPeriodByID F s pid = none := by
  unfold AttendanceRepository.FindPeriodByID
  split
  · rfl
  · rw [List.find?_eq_none]
    intro p hp
    simpa using h p hp

/-- A payroll run on an open period that is found, with no employee: when the lookups are
answered it returns without error and leaves the database as it was. -/
theorem PayrollService.RunPayroll_no_employee {F : Faults} (ids : Nat → UUID) {s : Store}
    {periodID : String} {pid : UUID} {period : AttendancePeriod} (actor : UUID)
    (ip req : String) (hpid : uuidParse periodID = some pid)
    (hperiod : s.periods.find? (fun p => p.ID = pid) = some period) (hopen : s.Open pid)
    (hnone : ∀ u ∈ s.users, u.Role ≠ "employee")
    (hfind : F (.FindPeriodByID pid) = false) (hemp : F .FindEmployees = false) :
    PayrollService.RunPayroll F ids s periodID actor ip req = (.ok (), s) := by
  have hfp : AttendanceRepository.FindPeriodByID F s pid = some period := by
    unfold AttendanceRepository.FindPeriodByID
    rw [hfind]
    exact hperiod
  have hfe : PayrollRepository.FindEmployees F s = some [] := by
    unfold PayrollRepository.FindEmployees
    rw [hemp]
    have : s.users.filter (fun u => u.Role = "employee") = [] := by
      rw [List.filter_eq_nil_iff]
      intro u hu
      simpa using hnone u hu
    simp [this]
  simp only [PayrollService.RunPayroll, hpid, hfp,
    AttendanceRepository.IsPayrollProcessed_of_open F hopen, hfe]
  simp [PayrollService.RunPayroll.loop]

/-- The reimbursement amounts of a user with at least one claim in the period, all stored
amounts being positive, sum to a positive number. -/
theorem Store.reimbursementSum_pos {s : Store} {userID periodID : UUID}
    (hvalid : s.ReimbursementsValid) (hne : s.reimbursementsOf userID periodID ≠ []) :
    0 < s.reimbursementSum userID periodID := by
  unfold Store.reimbursementSum
  unfold Store.reimbursementsOf at hne
  have hpos : ∀ r ∈ s.reimbursements.filter
      (fun r => r.UserID = userID ∧ r.PeriodID = periodID), 0 < r.Amount :=
    fun r hr => (hvalid r (List.mem_of_mem_filter hr)).1
  generalize s.reimbursements.filter (fun r => r.UserID = userID ∧ r.PeriodID = periodID)
    = rows at hne hpos
  cases rows with
  | nil => exact absurd rfl hne
  | cons r rest =>
    rw [List.map_cons, List.sum_cons]
    have h1 := hpos r (List.mem_cons_self _ _)
    have h2 : 0 ≤ (rest.map (fun r => r.Amount)).sum := by
      apply List.sum_nonneg
      intro x hx
      obtain ⟨y, hy, rfl⟩ := List.mem_map.mp hx
      exact le_of_lt (hpos y (List.mem_cons_of_mem _ hy))
    linarith

/-- The loop over employees for each of whom the lookups, the insert and the audit write
succeed returns without error. -/
theorem PayrollService.RunPayroll.loop_succeeds {F : Faults} (ids : Nat → UUID) {pid : UUID}
    (hours : ℚ) (actor : UUID) (ip req : String) (haudit : ∀ l, F (.AuditCreate l) = false) :
    ∀ (users : List User) (i : Nat) (s : Store), (∀ u ∈ users, F.SucceedsFor s pid u) →
      ∃ s', PayrollService.RunPayroll.loop F ids pid hours actor ip req users i s
        = (.ok (), s') := by
  intro users
  induction users with
  | nil => intro i s _; exact ⟨s, rfl⟩
  | cons u rest ih =>
    intro i s hall
    obtain ⟨s1, hs1⟩ := PayrollService.RunPayroll.body_succeeds ids hours actor ip req i s
      (hall u (List.mem_cons_self _ _)) (haudit _)
    obtain ⟨p, a, rfl, _, _⟩ := PayrollService.RunPayroll.body_ok hs1
    obtain ⟨s', hs'⟩ := ih (i + 1)
      { s with payrolls := s.payrolls ++ [p], auditLogs := s.auditLogs ++ [a] }
      (fun v hv => hall v (List.mem_cons_of_mem _ hv))
    refine ⟨s', ?_⟩
    rw [PayrollService.RunPayroll.loop, hs1]
    exact hs'

/-- A payroll run on an open period that is found returns without error when its lookups,
inserts and audit writes succeed for every employee. -/
theorem PayrollService.RunPayroll_succeeds {F : Faults} (ids : Nat → UUID) {s : Store}
    {periodID : String} {pid : UUID} {period : AttendancePeriod} (actor : UUID)
    (ip req : String) (hpid : uuidParse periodID = some pid)
    (hperiod : s.periods.find? (fun p => p.ID = pid) = some period) (hopen : s.Open pid)
    (hfind : F (.FindPeriodByID pid) = false) (hemp : F .FindEmployees = false)
    (hall : ∀ u ∈ s.employees, F.SucceedsFor s pid u)
    (haudit : ∀ l, F (.AuditCreate l) = false) :
    ∃ s', PayrollService.RunPayroll F ids s periodID actor ip req = (.ok (), s') := by
  have hfp : AttendanceRepository.FindPeriodByID F s pid = some period := by
    unfold AttendanceRepository.FindPeriodByID
    rw [hfind]
    exact hperiod
  have hfe : PayrollRepository.FindEmployees F s = some s.employees := by
    unfold PayrollRepository.FindEmployees
    rw [hemp]
    rfl
  obtain ⟨s', hs'⟩ := PayrollService.RunPayroll.loop_succeeds ids
    (((countWorkingDays period.StartDate period.EndDate * 8 : Nat) : ℚ)) actor ip req haudit
    s.employees 0 s hall
  refine ⟨s', ?_⟩
  simp only [PayrollService.RunPayroll, hpid, hfp,
    AttendanceRepository.IsPayrollProcessed_of_open F hopen, hfe]
  simpa using hs'

/-! ## The claims -/

/-- C1 (counterexample). The period with identifier 1 is frozen in `exFrozen`, and yet a
submission of attendance or overtime against it whose date string is not a calendar date
fails with "invalid date format", not with "payroll already processed for this period": the
date is parsed before the gate is consulted. -/
theorem frozen_period_malformed_date_is_invalid_input :
    exFrozen.Frozen 1 ∧ uuidParse exPeriodID = some 1 ∧
    AttendanceService.SubmitAttendance noFaults exIds exFrozen "06/01/2024" exPeriodID 7
      "10.0.0.2" "r2" = (.error .invalidDate, exFrozen) ∧
    AttendanceService.SubmitOvertime noFaults exIds exFrozen "06/01/2024" 2 exPeriodID 7
      "10.0.0.2" "r2" = (.error .invalidDate, exFrozen) ∧
    Err.invalidDate ≠ Err.payrollProcessed := by
  decide

/-- C1 (amended). When a period has a payroll row and the count query of the gate is
answered, every submission against it leaves the database as it was and fails: a
reimbursement with "payroll already processed for this period" whatever its amount and
description; attendance and overtime with that same error whenever the date string is a
calendar date, and with "invalid date format" when it is not. -/
theorem frozen_period_rejects_submissions (F : Faults) (ids : Nat → UUID) (s : Store)
    (periodID : String) (pid : UUID) (hpid : uuidParse periodID = some pid)
    (hF : F (.IsPayrollProcessed pid) = false) (hfrozen : s.Frozen pid) :
    (∀ (amount : ℚ) (description : String) (userID : UUID) (ip req : String),
      AttendanceService.SubmitReimbursement F ids s amount description periodID userID ip req
        = (.error .payrollProcessed, s)) ∧
    (∀ (date : String) (hours : ℚ) (userID : UUID) (ip req : String),
      (Time.Parse date).isSome = true →
      AttendanceService.SubmitAttendance F ids s date periodID userID ip req
        = (.error .payrollProcessed, s) ∧
      AttendanceService.SubmitOvertime F ids s date hours periodID userID ip req
        = (.error .payrollProcessed, s)) ∧
    (∀ (date : String) (hours : ℚ) (userID : UUID) (ip req : String),
      Time.Parse date = none →
      AttendanceService.SubmitAttendance F ids s date periodID userID ip req
        = (.error .invalidDate, s) ∧
      AttendanceService.SubmitOvertime F ids s date hours periodID userID ip req
        = (.error .invalidDate, s)) := by
  have hgate := AttendanceRepository.IsPayrollProcessed_of_frozen hF hfrozen
  refine ⟨?_, ?_, ?_⟩
  · intro amount description userID ip req
    simp [AttendanceService.SubmitReimbursement, hpid, hgate]
  · intro date hours userID ip req hdate
    obtain ⟨d, hd⟩ := Option.isSome_iff_exists.mp hdate
    constructor
    · simp [AttendanceService.SubmitAttendance, hd, hpid, hgate]
    · simp [AttendanceService.SubmitOvertime, hd, hpid, hgate]
  · intro date hours userID ip req hdate
    constructor
    · simp [AttendanceService.SubmitAttendance, hdate]
    · simp [AttendanceService.SubmitOvertime, hdate]

/-- C1 (witness). In `exFrozen`, against the frozen period 1: a reimbursement, an attendance
mark for Tuesday 2024-01-02 and two hours of overtime on that day are all turned down with
"payroll already processed for this period". -/
theorem frozen_period_rejects_submissions_witness :
    uuidParse exPeriodID = some 1 ∧ noFaults (.IsPayrollProcessed 1) = false ∧
    exFrozen.Frozen 1 ∧
    AttendanceService.SubmitReimbursement noFaults exIds exFrozen 150000 "taxi" exPeriodID 7
      "10.0.0.2" "r2" = (.error .payrollProcessed, exFrozen) ∧
    AttendanceService.SubmitAttendance noFaults exIds exFrozen "2024-01-02" exPeriodID 7
      "10.0.0.2" "r2" = (.error .payrollProcessed, exFrozen) ∧
    AttendanceService.SubmitOvertime noFaults exIds exFrozen "2024-01-02" 2 exPeriodID 7
      "10.0.0.2" "r2" = (.error .payrollProcessed, exFrozen) :=
  have h := frozen_period_rejects_submissions noFaults exIds exFrozen exPeriodID 1 (by decide)
    rfl (by decide)
  ⟨by decide, rfl, by decide, h.1 150000 "taxi" 7 "10.0.0.2" "r2",
    (h.2.1 "2024-01-02" 2 7 "10.0.0.2" "r2" (by decide)).1,
    (h.2.1 "2024-01-02" 2 7 "10.0.0.2" "r2" (by decide)).2⟩

/-- C2. A payroll run is single-shot: when the period exists and already has a payroll row,
and the database answers the period lookup and the count query of the gate, `RunPayroll`
fails with "payroll already processed for this period" and leaves every table, the payroll
rows and the audit rows among them, as it was. -/
theorem runPayroll_single_shot (F : Faults) (ids : Nat → UUID) (s : Store)
    (periodID : String) (pid : UUID) (userID : UUID) (ip req : String)
    (hpid : uuidParse periodID = some pid)
    (hexists : ∃ period ∈ s.periods, period.ID = pid)
    (hfrozen : s.Frozen pid)
    (hfind : F (.FindPeriodByID pid) = false) (hgate : F (.IsPayrollProcessed pid) = false) :
    PayrollService.RunPayroll F ids s periodID userID ip req = (.error .payrollProcessed, s) := by
  obtain ⟨period, hperiod, _⟩ := AttendanceRepository.FindPeriodByID_of_mem hfind hexists
  have hg := AttendanceRepository.IsPayrollProcessed_of_frozen hgate hfrozen
  simp [PayrollService.RunPayroll, hpid, hperiod, hg]

/-- C2 (witness). A second payroll run on the frozen period of `exFrozen` is turned down and
changes nothing. -/
theorem runPayroll_single_shot_witness :
    uuidParse exPeriodID = some 1 ∧ (∃ period ∈ exFrozen.periods, period.ID = 1) ∧
    exFrozen.Frozen 1 ∧
    PayrollService.RunPayroll noFaults exIds exFrozen exPeriodID 8 "10.0.0.1" "r3"
      = (.error .payrollProcessed, exFrozen) :=
  ⟨by decide, by decide, by decide,
    runPayroll_single_shot noFaults exIds exFrozen exPeriodID 1 8 "10.0.0.1" "r3" (by decide)
      (by decide) (by decide) rfl rfl⟩

/-- C3 (counterexample). In `exNoEmployee` the period 1 exists and is open and no user is an
employee: the payroll run returns without error and writes nothing, so the period is still
open afterwards, an attendance mark is still accepted and a second run is not turned down. -/
theorem runPayroll_without_employee_leaves_period_open :
    (∃ period ∈ exNoEmployee.periods, period.ID = 1) ∧ exNoEmployee.Open 1 ∧
    uuidParse exPeriodID = some 1 ∧
    PayrollService.RunPayroll noFaults exIds exNoEmployee exPeriodID 8 "10.0.0.1" "r1"
      = (.ok (), exNoEmployee) ∧
    AttendanceRepository.IsPayrollProcessed noFaults exNoEmployee 1 = false ∧
    (AttendanceService.SubmitAttendance noFaults exIds exNoEmployee "2024-01-02" exPeriodID 7
      "10.0.0.2" "r2").1 = .ok exMark := by
  refine ⟨by decide, by decide, by decide, ?_, by decide, by decide⟩
  simp only [PayrollService.RunPayroll, countWorkingDays_eq_range]
  decide

/-- C3 (amended). Once `RunPayroll` has returned without error for a period while at least
one user has the role `employee`, the period is frozen and stays so in every database
reachable afterwards, whatever operations run and whatever faults occur. There, whenever the
count query of the gate is answered, the processed predicate holds, every reimbursement and
every attendance or overtime submission with a well-formed date fails with "payroll already
processed for this period" and writes nothing, and so does a later `RunPayroll` whose period
lookup is answered. When no user has the role `employee`, a run that returns without error
has written nothing, and on an open period that is found the run does return without error
once its lookups are answered: the period stays open. -/
theorem runPayroll_freezes_period (F : Faults) (ids : Nat → UUID) (s : Store)
    (periodID : String) (pid : UUID) (actor : UUID) (ip req : String)
    (hpid : uuidParse periodID = some pid) :
    (∀ s', (∃ u ∈ s.users, u.Role = "employee") →
      PayrollService.RunPayroll F ids s periodID actor ip req = (.ok (), s') →
      ∀ s'', Reachable s' s'' →
        s''.Frozen pid ∧
        ∀ (F' : Faults) (ids' : Nat → UUID), F' (.IsPayrollProcessed pid) = false →
          AttendanceRepository.IsPayrollProcessed F' s'' pid = true ∧
          (∀ (amount : ℚ) (description : String) (userID : UUID) (ip' req' : String),
            AttendanceService.SubmitReimbursement F' ids' s'' amount description periodID userID
              ip' req' = (.error .payrollProcessed, s'')) ∧
          (∀ (date : String) (hours : ℚ) (userID : UUID) (ip' req' : String),
            (Time.Parse date).isSome = true →
            AttendanceService.SubmitAttendance F' ids' s'' date periodID userID ip' req'
              = (.error .payrollProcessed, s'') ∧
            AttendanceService.SubmitOvertime F' ids' s'' date hours periodID userID ip' req'
              = (.error .payrollProcessed, s'')) ∧
          (F' (.FindPeriodByID pid) = false → ∀ (userID : UUID) (ip' req' : String),
            PayrollService.RunPayroll F' ids' s'' periodID userID ip' req'
              = (.error .payrollProcessed, s''))) ∧
    ((∀ u ∈ s.users, u.Role ≠ "employee") →
      (∀ s', PayrollService.RunPayroll F ids s periodID actor ip req = (.ok (), s') →
        s' = s) ∧
      ((∃ period, s.periods.find? (fun p => p.ID = pid) = some period) → s.Open pid →
        F (.FindPeriodByID pid) = false → F .FindEmployees = false →
        PayrollService.RunPayroll F ids s periodID actor ip req = (.ok (), s) ∧
        AttendanceRepository.IsPayrollProcessed F s pid = false)) := by
  constructor
  · intro s' hemp hrun s'' hreach
    obtain ⟨hfrozen', period, hperiod'⟩ := PayrollService.RunPayroll_frozen hpid hemp hrun
    have hgrows := ReachableVia.grows hreach
    have hfrozen := hgrows.frozen hfrozen'
    have hperiod := hgrows.find_period hperiod'
    refine ⟨hfrozen, ?_⟩
    intro F' ids' hF'
    have hgate := AttendanceRepository.IsPayrollProcessed_of_frozen hF' hfrozen
    obtain ⟨h1, h2⟩ := AttendanceService.rejected_of_gate ids' hpid hgate
    refine ⟨hgate, h1, h2, ?_⟩
    intro hfind userID ip' req'
    exact PayrollService.RunPayroll_of_gate hpid hfind hperiod hgate userID ip' req'
  · intro hnone
    constructor
    · intro s' hrun
      obtain ⟨_, _, rows, logs, _, _, _, hs', hrows, hlogs⟩ := PayrollService.RunPayroll_ok hrun
      have hnil : s.employees = [] := by
        unfold Store.employees
        rw [List.filter_eq_nil_iff]
        intro u hu
        simpa using hnone u hu
      rw [hnil] at hrows
      cases hrows
      cases hlogs
      rw [hs']
      simp
    · rintro ⟨period, hperiod⟩ hopen hfind hemp
      exact ⟨PayrollService.RunPayroll_no_employee ids actor ip req hpid hperiod hopen hnone
        hfind hemp, AttendanceRepository.IsPayrollProcessed_of_open F hopen⟩

/-- C3 (witness). The payroll run on `exLedger`, which has one employee with an overtime
claim and a reimbursement, yields `exLedgerPaid`; there the period 1 is frozen, an attendance
mark for Tuesday 2024-01-02 is turned down, and so is a second run. In `exNoEmployee` the run
returns without error and leaves the database as it was. -/
theorem runPayroll_freezes_period_witness :
    uuidParse exPeriodID = some 1 ∧ (∃ u ∈ exLedger.users, u.Role = "employee") ∧
    PayrollService.RunPayroll noFaults exIds exLedger exPeriodID 8 "10.0.0.1" "r1"
      = (.ok (), exLedgerPaid) ∧
    exLedgerPaid.Frozen 1 ∧
    AttendanceService.SubmitAttendance noFaults exIds exLedgerPaid "2024-01-02" exPeriodID 7
      "10.0.0.2" "r2" = (.error .payrollProcessed, exLedgerPaid) ∧
    PayrollService.RunPayroll noFaults exIds exLedgerPaid exPeriodID 8 "10.0.0.1" "r3"
      = (.error .payrollProcessed, exLedgerPaid) ∧
    (∀ u ∈ exNoEmployee.users, u.Role ≠ "employee") ∧
    (∃ period, exNoEmployee.periods.find? (fun p => p.ID = 1) = some period) ∧
    exNoEmployee.Open 1 ∧
    PayrollService.RunPayroll noFaults exIds exNoEmployee exPeriodID 8 "10.0.0.1" "r1"
      = (.ok (), exNoEmployee) ∧
    AttendanceRepository.IsPayrollProcessed noFaults exNoEmployee 1 = false :=
  have hrun : PayrollService.RunPayroll noFaults exIds exLedger exPeriodID 8 "10.0.0.1" "r1"
      = (.ok (), exLedgerPaid) := by
    simp only [PayrollService.RunPayroll, countWorkingDays_eq_range]
    decide!
  have h := (runPayroll_freezes_period noFaults exIds exLedger exPeriodID 1 8 "10.0.0.1"
    "r1" (by decide)).1 exLedgerPaid (by decide) hrun exLedgerPaid ReachableVia.init
  have h0 := ((runPayroll_freezes_period noFaults exIds exNoEmployee exPeriodID 1 8 "10.0.0.1"
    "r1" (by decide)).2 (by decide)).2 ⟨exPeriod, by decide⟩ (by decide) rfl rfl
  ⟨by decide, by decide, hrun, h.1,
    ((h.2 noFaults exIds rfl).2.2.1 "2024-01-02" 0 7 "10.0.0.2" "r2" (by decide)).1,
    (h.2 noFaults exIds rfl).2.2.2 rfl 8 "10.0.0.1" "r3",
    by decide, ⟨exPeriod, by decide⟩, by decide, h0.1, h0.2⟩

/-- C4. After a payroll run on an open period has returned without error (so that the period
exists), in a database whose users have distinct identifiers: every user with the role
`employee` has exactly one payroll row for the period, and a user with any other role has
none. -/
theorem runPayroll_one_record_per_employee (F : Faults) (ids : Nat → UUID) (s s' : Store)
    (periodID : String) (pid : UUID) (actor : UUID) (ip req : String)
    (hpid : uuidParse periodID = some pid)
    (hopen : s.Open pid)
    (hnodup : (s.users.map User.ID).Nodup)
    (hrun : PayrollService.RunPayroll F ids s periodID actor ip req = (.ok (), s')) :
    (∃ period ∈ s'.periods, period.ID = pid) ∧
    (∀ u ∈ s.users, u.Role = "employee" → (s'.payrollsOf pid u.ID).length = 1) ∧
    (∀ u ∈ s.users, u.Role ≠ "employee" → s'.payrollsOf pid u.ID = []) := by
  obtain ⟨pid', period, rows, logs, hpid', hperiod, _, hs', hrows, _⟩ :=
    PayrollService.RunPayroll_ok hrun
  rw [hpid] at hpid'
  cases hpid'
  have hpay : s'.payrolls = s.payrolls ++ rows := by rw [hs']
  have hper : s'.periods = s.periods := by rw [hs']
  have hlen : ∀ x, (s'.payrollsOf pid x).length = List.count x (s.employees.map User.ID) := by
    intro x
    unfold Store.payrollsOf
    rw [hpay, List.filter_append, hopen.payrollsOf x, List.nil_append]
    exact PayrollFor.filter_length x hrows
  rw [hper]
  refine ⟨⟨period, List.mem_of_find?_eq_some hperiod, ?_⟩, ?_, ?_⟩
  · simpa using List.find?_some hperiod
  · intro u hu hrole
    rw [hlen]
    apply List.count_eq_one_of_mem (Store.employees_ids_nodup hnodup)
    apply List.mem_map_of_mem
    unfold Store.employees
    rw [List.mem_filter]
    exact ⟨hu, by simpa using hrole⟩
  · intro u hu hrole
    apply List.eq_nil_of_length_eq_zero
    rw [hlen]
    apply List.count_eq_zero_of_not_mem
    intro hmem
    obtain ⟨v, hv, hvid⟩ := List.mem_map.mp hmem
    unfold Store.employees at hv
    rw [List.mem_filter] at hv
    have : v = u := List.inj_on_of_nodup_map hnodup hv.1 hu hvid
    subst this
    exact hrole (by simpa using hv.2)

/-- C4 (witness). After the payroll run on `exLedger`, the employee 7 has exactly one payroll
row for period 1 and the administrator 8 has none. -/
theorem runPayroll_one_record_per_employee_witness :
    uuidParse exPeriodID = some 1 ∧ exLedger.Open 1 ∧ (exLedger.users.map User.ID).Nodup ∧
    PayrollService.RunPayroll noFaults exIds exLedger exPeriodID 8 "10.0.0.1" "r1"
      = (.ok (), exLedgerPaid) ∧
    (exLedgerPaid.payrollsOf 1 7).length = 1 ∧ exLedgerPaid.payrollsOf 1 8 = [] :=
  have hrun : PayrollService.RunPayroll noFaults exIds exLedger exPeriodID 8 "10.0.0.1" "r1"
      = (.ok (), exLedgerPaid) := by
    simp only [PayrollService.RunPayroll, countWorkingDays_eq_range]
    decide!
  have h := runPayroll_one_record_per_employee noFaults exIds exLedger exLedgerPaid exPeriodID
    1 8 "10.0.0.1" "r1" (by decide) (by decide) (by decide) hrun
  ⟨by decide, by decide, by decide, hrun, h.2.1 exAnn (by decide) rfl,
    h.2.2 exRoot (by decide) (by decide)⟩

/-- C5 (counterexample). In `exOvertime` the employee, of salary 4000000, has 20 marks in a
period of 20 working days and one overtime claim of 2 hours, and no reimbursement claim. The
payroll run does not record a total pay of 4100000: the sum of the reimbursement amounts is
taken over no row, the run fails with "failed to sum reimbursement" and writes nothing. -/
theorem runPayroll_without_reimbursement_fails :
    exAnn ∈ exOvertime.users ∧ exAnn.Role = "employee" ∧ exAnn.Salary = 4000000 ∧
    exOvertime.periods.find? (fun p => p.ID = 1) = some exPeriod ∧
    countWorkingDays exPeriod.StartDate exPeriod.EndDate = 20 ∧ exOvertime.Open 1 ∧
    (exOvertime.marksOf 7 1).length = 20 ∧ exOvertime.overtimeHoursSum 7 1 = 2 ∧
    exOvertime.reimbursementsOf 7 1 = [] ∧
    PayrollService.RunPayroll noFaults exIds exOvertime exPeriodID 8 "10.0.0.1" "r1"
      = (.error (.sumReimbursementFailed 7), exOvertime) := by
  refine ⟨by decide, rfl, rfl, by decide, ?_, by decide, by decide, by decide!, by decide, ?_⟩
  · rw [countWorkingDays_eq_range]
    decide
  · simp only [PayrollService.RunPayroll, countWorkingDays_eq_range]
    decide!

/-- C5 (amended). After a payroll run has returned without error on an open period with at
least one working day: every employee has a payroll row for the period, every payroll row of
the period belongs to an employee, and in both directions the row obeys the pay rules of the
specification over exact arithmetic, the attendance count and the overtime and reimbursement
sums being those of that employee in that period. Each of the two sums is over at least one
entry: every employee has an overtime claim and a reimbursement claim in the period, so
that, when every stored reimbursement amount is positive, the reimbursement sum of every
employee is positive. -/
theorem runPayroll_pay_rules (F : Faults) (ids : Nat → UUID) (s s' : Store)
    (periodID : String) (pid : UUID) (period : AttendancePeriod) (actor : UUID)
    (ip req : String)
    (hpid : uuidParse periodID = some pid)
    (hperiod : s.periods.find? (fun p => p.ID = pid) = some period)
    (hwd : 0 < countWorkingDays period.StartDate period.EndDate)
    (hopen : s.Open pid)
    (hrun : PayrollService.RunPayroll F ids s periodID actor ip req = (.ok (), s')) :
    (∀ u ∈ s.users, u.Role = "employee" →
      ∃ p ∈ s'.payrolls, p.PeriodID = pid ∧ p.UserID = u.ID ∧
        SpecPay s pid (countWorkingDays period.StartDate period.EndDate) u p) ∧
    (∀ p ∈ s'.payrolls, p.PeriodID = pid →
      ∃ u ∈ s.users, u.Role = "employee" ∧ p.UserID = u.ID ∧
        SpecPay s pid (countWorkingDays period.StartDate period.EndDate) u p) ∧
    (∀ u ∈ s.users, u.Role = "employee" →
      s.overtimesOf u.ID pid ≠ [] ∧ s.reimbursementsOf u.ID pid ≠ [] ∧
      (s.ReimbursementsValid → 0 < s.reimbursementSum u.ID pid)) := by
  obtain ⟨pid', period', rows, logs, hpid', hperiod', _, hs', hrows, _⟩ :=
    PayrollService.RunPayroll_ok hrun
  rw [hpid] at hpid'
  cases hpid'
  rw [hperiod] at hperiod'
  cases hperiod'
  have hpay : s'.payrolls = s.payrolls ++ rows := by rw [hs']
  refine ⟨?_, ?_, ?_⟩
  · intro u hu hrole
    obtain ⟨p, hp, hpf⟩ := forall₂_exists_right hrows u (Store.mem_employees.mpr ⟨hu, hrole⟩)
    exact ⟨p, by rw [hpay]; exact List.mem_append_right _ hp, hpf.1, hpf.2.1, hpf.specPay hwd⟩
  · intro p hp hppid
    rw [hpay] at hp
    rcases List.mem_append.mp hp with hp | hp
    · exact absurd hppid (hopen p hp)
    · obtain ⟨u, hu, hpf⟩ := forall₂_exists_left hrows p hp
      have := Store.mem_employees.mp hu
      exact ⟨u, this.1, this.2, hpf.2.1, hpf.specPay hwd⟩
  · intro u hu hrole
    have h := PayrollService.RunPayroll_ok_ledger hpid hrun u
      (Store.mem_employees.mpr ⟨hu, hrole⟩)
    exact ⟨h.1, h.2, fun hvalid => Store.reimbursementSum_pos hvalid h.2⟩

/-- C5 (witness). Salary 4000000, a period of 20 working days, 20 attendance marks, one
overtime claim of 2 hours and one reimbursement of 50000: the run writes overtime pay 100000
and total pay 4150000. -/
theorem runPayroll_pay_rules_witness :
    uuidParse exPeriodID = some 1 ∧
    exFull.periods.find? (fun p => p.ID = 1) = some exPeriod ∧
    countWorkingDays exPeriod.StartDate exPeriod.EndDate = 20 ∧
    (exFull.marksOf 7 1).length = 20 ∧ exFull.overtimeHoursSum 7 1 = 2 ∧
    exFull.reimbursementSum 7 1 = 50000 ∧ exFull.Open 1 ∧
    PayrollService.RunPayroll noFaults exIds exFull exPeriodID 8 "10.0.0.1" "r1"
      = (.ok (), exFullPaid) ∧
    (∃ p ∈ exFullPaid.payrolls, p.PeriodID = 1 ∧ p.UserID = exAnn.ID ∧
      SpecPay exFull 1 (countWorkingDays exPeriod.StartDate exPeriod.EndDate) exAnn p) ∧
    exFullPaid.payrolls.map (fun p => (p.OvertimePay, p.TotalPay)) = [(100000, 4150000)] :=
  have hwd : countWorkingDays exPeriod.StartDate exPeriod.EndDate = 20 := by
    rw [countWorkingDays_eq_range]
    decide
  have hrun : PayrollService.RunPayroll noFaults exIds exFull exPeriodID 8 "10.0.0.1" "r1"
      = (.ok (), exFullPaid) := by
    simp only [PayrollService.RunPayroll, countWorkingDays_eq_range]
    decide!
  have h := runPayroll_pay_rules noFaults exIds exFull exFullPaid exPeriodID 1 exPeriod
    8 "10.0.0.1" "r1" (by decide) (by decide) (by rw [hwd]; decide) (by decide) hrun
  ⟨by decide, by decide, hwd, by decide, by decide!, by decide!, by decide, hrun,
    h.1 exAnn (by decide) rfl, by decide⟩

/-- C6. For every two days `start` and `stop`, `countWorkingDays start stop` is the number of
days `d` with `start ≤ d ≤ stop`, both ends included, whose weekday is Monday to Friday; it
is 0 when `stop` is before `start`. The function is total: the day-by-day walk is defined by
well-founded recursion on the distance to the day after `stop`. -/
theorem countWorkingDays_counts_weekdays (start stop : Time) :
    countWorkingDays start stop =
      ((Finset.Icc start.day stop.day).filter
        (fun k => (Time.mk k).Weekday ∈ [Weekday.Monday, Weekday.Tuesday, Weekday.Wednesday,
          Weekday.Thursday, Weekday.Friday])).card ∧
    (stop.Before start = true → countWorkingDays start stop = 0) := by
  constructor
  · rw [countWorkingDays, countWorkingDays.loop_eq_card stop _ start 0 rfl, Nat.zero_add]
    congr 1
    apply Finset.filter_congr
    intro k _
    exact Time.isWorkingDay_iff _
  · intro h
    rw [countWorkingDays]
    exact countWorkingDays.loop_after stop start 0 (by simpa [Time.Before] using h)

/-- C6 (witness). Monday 2024-01-01 to Friday 2024-01-26 holds 20 weekdays; from Sunday
2024-01-07 back to Monday 2024-01-01 the count is 0. -/
theorem countWorkingDays_counts_weekdays_witness :
    countWorkingDays (Time.Date 2024 1 1) (Time.Date 2024 1 26) = 20 ∧
    (Time.Date 2024 1 1).Before (Time.Date 2024 1 7) = true ∧
    countWorkingDays (Time.Date 2024 1 7) (Time.Date 2024 1 1) = 0 :=
  ⟨by rw [countWorkingDays_eq_range]; decide, by decide,
    (countWorkingDays_counts_weekdays (Time.Date 2024 1 7) (Time.Date 2024 1 1)).2 (by decide)⟩

/-- C7 (counterexample). In `exWorked` the employee, of salary 4000000, has 20 marks in a
period of 20 working days, no overtime claim and no reimbursement claim. The payroll run
records no pay for them: the sum of the overtime hours is taken over no row, the run fails
with "failed to sum overtime" and writes nothing. -/
theorem runPayroll_full_attendance_without_claims_fails :
    exAnn ∈ exWorked.users ∧ exAnn.Role = "employee" ∧ exAnn.Salary = 4000000 ∧
    exWorked.periods.find? (fun p => p.ID = 1) = some exPeriod ∧
    countWorkingDays exPeriod.StartDate exPeriod.EndDate = 20 ∧ exWorked.Open 1 ∧
    (exWorked.marksOf 7 1).length = 20 ∧
    exWorked.overtimeHoursSum 7 1 = 0 ∧ exWorked.reimbursementSum 7 1 = 0 ∧
    exWorked.overtimesOf 7 1 = [] ∧ exWorked.reimbursementsOf 7 1 = [] ∧
    PayrollService.RunPayroll noFaults exIds exWorked exPeriodID 8 "10.0.0.1" "r1"
      = (.error (.sumOvertimeFailed 7), exWorked) := by
  refine ⟨by decide, rfl, rfl, by decide, ?_, by decide, by decide, by decide!, by decide!,
    by decide, by decide, ?_⟩
  · rw [countWorkingDays_eq_range]
    decide
  · simp only [PayrollService.RunPayroll, countWorkingDays_eq_range]
    decide!

/-- C7 (amended). On a period with at least one working day, an employee whose attendance
count equals the number of working days gets, from a payroll run that returns without error,
a row with base salary equal to the monthly salary and total pay equal to the monthly salary
plus overtime pay plus the sum of the reimbursements; with an overtime sum of 0 the total pay
is the monthly salary plus the sum of the reimbursements (exact arithmetic). Such a run took
each sum over at least one entry of the employee, so when every stored reimbursement amount
is positive the total pay exceeds the monthly salary. -/
theorem full_attendance_pays_monthly_salary (F : Faults) (ids : Nat → UUID) (s s' : Store)
    (periodID : String) (pid : UUID) (period : AttendancePeriod) (actor : UUID)
    (ip req : String) (u : User)
    (hpid : uuidParse periodID = some pid)
    (hperiod : s.periods.find? (fun p => p.ID = pid) = some period)
    (hwd : 0 < countWorkingDays period.StartDate period.EndDate)
    (hu : u ∈ s.users) (hrole : u.Role = "employee")
    (hcount : (s.marksOf u.ID pid).length = countWorkingDays period.StartDate period.EndDate)
    (hrun : PayrollService.RunPayroll F ids s periodID actor ip req = (.ok (), s')) :
    s.overtimesOf u.ID pid ≠ [] ∧ s.reimbursementsOf u.ID pid ≠ [] ∧
    ∃ p ∈ s'.payrolls, p.PeriodID = pid ∧ p.UserID = u.ID ∧ p.BaseSalary = u.Salary ∧
      p.ReimbursementAmount = s.reimbursementSum u.ID pid ∧
      p.TotalPay = u.Salary + p.OvertimePay + s.reimbursementSum u.ID pid ∧
      (s.overtimeHoursSum u.ID pid = 0 →
        p.OvertimePay = 0 ∧ p.TotalPay = u.Salary + s.reimbursementSum u.ID pid ∧
        (s.ReimbursementsValid → u.Salary < p.TotalPay)) := by
  obtain ⟨pid', period', rows, logs, hpid', hperiod', _, hs', hrows, _⟩ :=
    PayrollService.RunPayroll_ok hrun
  rw [hpid] at hpid'
  cases hpid'
  rw [hperiod] at hperiod'
  cases hperiod'
  have hpay : s'.payrolls = s.payrolls ++ rows := by rw [hs']
  have hledger := PayrollService.RunPayroll_ok_ledger hpid hrun u
    (Store.mem_employees.mpr ⟨hu, hrole⟩)
  obtain ⟨p, hp, hpf⟩ := forall₂_exists_right hrows u (Store.mem_employees.mpr ⟨hu, hrole⟩)
  obtain ⟨hsph, hb, ho, hr, ht⟩ := hpf.specPay hwd
  simp only [hcount] at hsph hb ho hr ht
  have hbase : p.BaseSalary = u.Salary := by rw [hb, mul_assoc]; exact hsph
  refine ⟨hledger.1, hledger.2, p, by rw [hpay]; exact List.mem_append_right _ hp, hpf.1,
    hpf.2.1, hbase, hr, by rw [ht, hbase], ?_⟩
  intro hot
  have hover : p.OvertimePay = 0 := by rw [ho, hot]; ring
  have htot : p.TotalPay = u.Salary + s.reimbursementSum u.ID pid := by
    rw [ht, hbase, hover]; ring
  refine ⟨hover, htot, ?_⟩
  intro hvalid
  have := Store.reimbursementSum_pos hvalid hledger.2
  rw [htot]
  linarith

/-- C7 (witness). A period of 20 working days, monthly salary 4000000, 20 attendance marks,
one overtime claim of 0 hours and one reimbursement of 50000: the hourly salary is 25000 and
the run writes base salary 4000000 and total pay 4050000. -/
theorem full_attendance_pays_monthly_salary_witness :
    uuidParse exPeriodID = some 1 ∧
    exPlain.periods.find? (fun p => p.ID = 1) = some exPeriod ∧
    countWorkingDays exPeriod.StartDate exPeriod.EndDate = 20 ∧
    exAnn ∈ exPlain.users ∧ exAnn.Role = "employee" ∧ exAnn.Salary = 4000000 ∧
    (exPlain.marksOf exAnn.ID 1).length = 20 ∧
    exPlain.overtimeHoursSum exAnn.ID 1 = 0 ∧ exPlain.reimbursementSum exAnn.ID 1 = 50000 ∧
    PayrollService.RunPayroll noFaults exIds exPlain exPeriodID 8 "10.0.0.1" "r1"
      = (.ok (), exPlainPaid) ∧
    exAnn.Salary / (((20 * 8 : Nat)) : ℚ) = 25000 ∧
    (∃ p ∈ exPlainPaid.payrolls, p.PeriodID = 1 ∧ p.UserID = exAnn.ID ∧
      p.BaseSalary = exAnn.Salary ∧
      p.TotalPay = exAnn.Salary + exPlain.reimbursementSum exAnn.ID 1) ∧
    exPlainPaid.payrolls.map (fun p => (p.BaseSalary, p.TotalPay)) = [(4000000, 4050000)] :=
  have hwd : countWorkingDays exPeriod.StartDate exPeriod.EndDate = 20 := by
    rw [countWorkingDays_eq_range]
    decide
  have hrun : PayrollService.RunPayroll noFaults exIds exPlain exPeriodID 8 "10.0.0.1" "r1"
      = (.ok (), exPlainPaid) := by
    simp only [PayrollService.RunPayroll, countWorkingDays_eq_range]
    decide!
  have hot : exPlain.overtimeHoursSum exAnn.ID 1 = 0 := by decide!
  ⟨by decide, by decide, hwd, by decide, rfl, rfl, by decide, hot, by decide!, hrun,
    by decide!,
    match (full_attendance_pays_monthly_salary noFaults exIds exPlain exPlainPaid exPeriodID 1
      exPeriod 8 "10.0.0.1" "r1" exAnn (by decide) (by decide) (by rw [hwd]; decide)
      (by decide) rfl (by rw [hwd]; decide) hrun).2.2 with
    | ⟨p, hp, h1, h2, h3, _, _, h6⟩ => ⟨p, hp, h1, h2, h3, (h6 hot).2.1⟩,
    by decide⟩

/-- C8 (counterexample). The period of `exWeekendStore` runs from Saturday 2024-01-06 to
Sunday 2024-01-07 and holds no working day, so `totalWorkingHours` is 0; the employee has an
overtime claim and a reimbursement claim in it. The payroll run is not turned down: it
returns without error and writes a payroll row for the employee. -/
theorem runPayroll_zero_working_days_not_rejected :
    (∃ period ∈ exWeekendStore.periods, period.ID = 1) ∧ exWeekendStore.Open 1 ∧
    countWorkingDays exWeekend.StartDate exWeekend.EndDate = 0 ∧
    (PayrollService.RunPayroll noFaults exIds exWeekendStore exPeriodID 8 "10.0.0.1" "r1").1
      = .ok () ∧
    ((PayrollService.RunPayroll noFaults exIds exWeekendStore exPeriodID 8 "10.0.0.1"
      "r1").2.payrolls.map (fun p => (p.PeriodID, p.UserID))) = [(1, 7)] := by
  refine ⟨by decide, by decide, by rw [countWorkingDays_eq_range]; decide, ?_, ?_⟩
  · simp only [PayrollService.RunPayroll, countWorkingDays_eq_range]
    decide!
  · simp only [PayrollService.RunPayroll, countWorkingDays_eq_range]
    decide!

/-- C8 (amended). On an open period that is found and whose range holds no working day,
`totalWorkingHours` is 0 and `RunPayroll` applies no guard: when its lookups are answered,
every employee has an overtime claim and a reimbursement claim in the period, and the inserts
and audit writes succeed, it returns without error and leaves exactly one payroll row of the
period for every employee. -/
theorem runPayroll_no_working_days_guard (F : Faults) (ids : Nat → UUID) (s : Store)
    (periodID : String) (pid : UUID) (period : AttendancePeriod) (actor : UUID)
    (ip req : String)
    (hpid : uuidParse periodID = some pid)
    (hperiod : s.periods.find? (fun p => p.ID = pid) = some period)
    (hzero : countWorkingDays period.StartDate period.EndDate = 0)
    (hopen : s.Open pid) (hnodup : (s.users.map User.ID).Nodup)
    (hfind : F (.FindPeriodByID pid) = false) (hemp : F .FindEmployees = false)
    (hall : ∀ u ∈ s.employees, F.SucceedsFor s pid u)
    (haudit : ∀ l, F (.AuditCreate l) = false) :
    ((countWorkingDays period.StartDate period.EndDate * 8 : Nat) : ℚ) = 0 ∧
    ∃ s', PayrollService.RunPayroll F ids s periodID actor ip req = (.ok (), s') ∧
      ∀ u ∈ s.employees, (s'.payrollsOf pid u.ID).length = 1 := by
  refine ⟨by rw [hzero]; simp, ?_⟩
  obtain ⟨s', hrun⟩ := PayrollService.RunPayroll_succeeds ids actor ip req hpid hperiod hopen
    hfind hemp hall haudit
  refine ⟨s', hrun, ?_⟩
  obtain ⟨pid', _, rows, logs, hpid', _, _, hs', hrows, _⟩ := PayrollService.RunPayroll_ok hrun
  rw [hpid] at hpid'
  cases hpid'
  intro u hu
  unfold Store.payrollsOf
  rw [hs']
  simp only [List.filter_append]
  have h0 := hopen.payrollsOf u.ID
  unfold Store.payrollsOf at h0
  rw [h0, List.nil_append, PayrollFor.filter_length u.ID hrows]
  exact List.count_eq_one_of_mem (Store.employees_ids_nodup hnodup) (List.mem_map_of_mem _ hu)

/-- C8 (witness). In `exWeekendStore` the run on the period from Saturday 2024-01-06 to Sunday
2024-01-07 returns without error and leaves one payroll row for the employee 7. -/
theorem runPayroll_no_working_days_guard_witness :
    uuidParse exPeriodID = some 1 ∧
    exWeekendStore.periods.find? (fun p => p.ID = 1) = some exWeekend ∧
    countWorkingDays exWeekend.StartDate exWeekend.EndDate = 0 ∧ exWeekendStore.Open 1 ∧
    exWeekendStore.employees = [exAnn] ∧
    ∃ s', PayrollService.RunPayroll noFaults exIds exWeekendStore exPeriodID 8 "10.0.0.1" "r1"
        = (.ok (), s') ∧
      ∀ u ∈ exWeekendStore.employees, (s'.payrollsOf 1 u.ID).length = 1 :=
  have hwd : countWorkingDays exWeekend.StartDate exWeekend.EndDate = 0 := by
    rw [countWorkingDays_eq_range]
    decide
  ⟨by decide, by decide, hwd, by decide, by decide,
    (runPayroll_no_working_days_guard noFaults exIds exWeekendStore exPeriodID 1 exWeekend 8
      "10.0.0.1" "r1" (by decide) (by decide) hwd (by decide) (by decide) rfl rfl
      (by
        intro u hu
        have : u = exAnn := by simpa [Store.employees, exWeekendStore, exAnn, exRoot] using hu
        subst this
        exact ⟨rfl, rfl, by decide, rfl, by decide, fun _ _ => rfl⟩)
      (fun _ => rfl)).2⟩

/-- C9 (counterexample). In `exLedger`, where user 7 has an overtime claim and a
reimbursement claim, user 7 marks Tuesday 2024-01-02 in the open period 1 and the mark is
stored; the payroll run then freezes the period; the same submission made again is turned
down with "payroll already processed for this period", not with "attendance already
submitted for this date": the gate is consulted before the duplicate lookup. -/
theorem submitAttendance_again_after_run_is_frozen_error :
    AttendanceService.SubmitAttendance noFaults exIds exLedger "2024-01-02" exPeriodID 7
      "10.0.0.2" "r2" = (.ok exMark, exLedgerMarked) ∧
    PayrollService.RunPayroll noFaults exIds exLedgerMarked exPeriodID 8 "10.0.0.1" "r1"
      = (.ok (), exLedgerMarkedPaid) ∧
    AttendanceService.SubmitAttendance noFaults exIds exLedgerMarkedPaid "2024-01-02" exPeriodID 7
      "10.0.0.2" "r3" = (.error .payrollProcessed, exLedgerMarkedPaid) ∧
    Err.payrollProcessed ≠ Err.duplicateAttendance := by
  refine ⟨by decide, ?_, by decide, by decide⟩
  simp only [PayrollService.RunPayroll, countWorkingDays_eq_range]
  decide!

/-- C9 (amended). For a user, a weekday date and an open period in which the user has no
mark for that date: when the insert and the audit write succeed, `SubmitAttendance` returns
the new mark and appends exactly that mark to the attendance table. In every database
reachable afterwards, a further submission by the same user for the same date and period is
rejected and writes nothing, provided its duplicate lookup is answered: with "attendance
already submitted for this date" as long as the gate does not report the period processed,
and with "payroll already processed for this period" once it does. And if no two marks
shared user, date and period before, none do in any database reachable afterwards through
operations whose duplicate lookups are answered. -/
theorem submitAttendance_idempotent_rejecting (F : Faults) (ids : Nat → UUID) (s : Store)
    (date periodID : String) (d : Time) (pid : UUID) (userID : UUID) (ip req : String)
    (hdate : Time.Parse date = some d) (hwd : d.isWorkingDay = true)
    (hpid : uuidParse periodID = some pid) (hopen : s.Open pid)
    (hnone : s.marksOn userID d pid = [])
    (hcreate : ∀ a, F (.CreateAttendance a) = false)
    (haudit : ∀ l, F (.AuditCreate l) = false) :
    (AttendanceService.SubmitAttendance F ids s date periodID userID ip req).1
      = .ok (AttendanceService.markOf ids userID d pid ip) ∧
    (AttendanceService.SubmitAttendance F ids s date periodID userID ip req).2.attendances
      = s.attendances ++ [AttendanceService.markOf ids userID d pid ip] ∧
    (∀ s2, Reachable (AttendanceService.SubmitAttendance F ids s date periodID userID ip req).2
        s2 →
      ∀ (F' : Faults) (ids' : Nat → UUID) (date' periodID' ip' req' : String),
        Time.Parse date' = some d → uuidParse periodID' = some pid →
        F' (.FindAttendanceByUserAndDate userID d pid) = false →
        AttendanceService.SubmitAttendance F' ids' s2 date' periodID' userID ip' req'
          = (.error (if AttendanceRepository.IsPayrollProcessed F' s2 pid then
              Err.payrollProcessed else Err.duplicateAttendance), s2)) ∧
    (s.MarksUnique →
      ∀ s2, ReachableVia Faults.answersMarkLookup
        (AttendanceService.SubmitAttendance F ids s date periodID userID ip req).2 s2 →
        s2.MarksUnique) := by
  have hgate := AttendanceRepository.IsPayrollProcessed_of_open F hopen
  have hdup := AttendanceRepository.FindAttendanceByUserAndDate_of_nil F hnone
  have hnw := Time.not_weekend_of_isWorkingDay hwd
  have h1 : (AttendanceService.SubmitAttendance F ids s date periodID userID ip req).1
      = .ok (AttendanceService.markOf ids userID d pid ip) := by
    simp [AttendanceService.SubmitAttendance, hdate, hpid, hgate, hdup, hnw,
      AttendanceRepository.CreateAttendance, AuditRepository.Create, hcreate, haudit,
      AttendanceService.markOf]
  have h2 : (AttendanceService.SubmitAttendance F ids s date periodID userID ip req).2.attendances
      = s.attendances ++ [AttendanceService.markOf ids userID d pid ip] := by
    simp [AttendanceService.SubmitAttendance, hdate, hpid, hgate, hdup, hnw,
      AttendanceRepository.CreateAttendance, AuditRepository.Create, hcreate, haudit,
      AttendanceService.markOf]
  have hfilter : ∀ u d' p,
      (Store.marksOn (AttendanceService.SubmitAttendance F ids s date periodID userID ip req).2
        u d' p) = s.marksOn u d' p ++
          (if userID = u ∧ d = d' ∧ pid = p then [AttendanceService.markOf ids userID d pid ip]
           else []) := by
    intro u d' p
    unfold Store.marksOn
    rw [h2, List.filter_append]
    congr 1
    by_cases hk : userID = u ∧ d = d' ∧ pid = p
    · simp [hk, AttendanceService.markOf]
    · rw [if_neg hk, List.filter_eq_nil_iff]
      intro x hx
      rw [List.mem_singleton] at hx
      subst hx
      simpa [AttendanceService.markOf] using hk
  refine ⟨h1, h2, ?_, ?_⟩
  · intro s2 hreach F' ids' date' periodID' ip' req' hdate' hpid' hF'
    have hmark : Store.marksOn
        (AttendanceService.SubmitAttendance F ids s date periodID userID ip req).2 userID d pid
        ≠ [] := by
      rw [hfilter]
      simp
    have hfound := AttendanceRepository.FindAttendanceByUserAndDate_some hF'
      ((ReachableVia.grows hreach).marksOn hmark)
    by_cases hg : AttendanceRepository.IsPayrollProcessed F' s2 pid = true
    · simp [AttendanceService.SubmitAttendance, hdate', hpid', hg]
    · simp [AttendanceService.SubmitAttendance, hdate', hpid', hg, hnw, hfound]
  · intro huniq s2 hreach
    apply ReachableVia.marksUnique hreach
    intro u d' p
    rw [hfilter, List.length_append]
    have hi := huniq u d' p
    by_cases hk : userID = u ∧ d = d' ∧ pid = p
    · obtain ⟨rfl, rfl, rfl⟩ := hk
      rw [hnone]
      simp
    · rw [if_neg hk]
      simpa using hi

/-- C9 (witness). In `exLedger` user 7 marks Tuesday 2024-01-02 in period 1: the mark is
stored. Submitting it again is turned down as a duplicate while the period is open, and as
"payroll already processed for this period" after the payroll run. -/
theorem submitAttendance_idempotent_rejecting_witness :
    Time.Parse "2024-01-02" = some (Time.Date 2024 1 2) ∧
    (Time.Date 2024 1 2).isWorkingDay = true ∧ uuidParse exPeriodID = some 1 ∧
    exLedger.Open 1 ∧ exLedger.marksOn 7 (Time.Date 2024 1 2) 1 = [] ∧
    AttendanceService.SubmitAttendance noFaults exIds exLedger "2024-01-02" exPeriodID 7
      "10.0.0.2" "r2" = (.ok exMark, exLedgerMarked) ∧
    AttendanceService.SubmitAttendance noFaults exIds exLedgerMarked "2024-01-02" exPeriodID 7
      "10.0.0.2" "r3" = (.error .duplicateAttendance, exLedgerMarked) ∧
    AttendanceService.SubmitAttendance noFaults exIds exLedgerMarkedPaid "2024-01-02" exPeriodID 7
      "10.0.0.2" "r4" = (.error .payrollProcessed, exLedgerMarkedPaid) ∧
    exLedgerMarkedPaid.MarksUnique :=
  have h := submitAttendance_idempotent_rejecting noFaults exIds exLedger "2024-01-02" exPeriodID
    (Time.Date 2024 1 2) 1 7 "10.0.0.2" "r2" (by decide) (by decide) (by decide) (by decide)
    (by decide) (fun _ => rfl) (fun _ => rfl)
  have hsub : AttendanceService.SubmitAttendance noFaults exIds exLedger "2024-01-02" exPeriodID 7
      "10.0.0.2" "r2" = (.ok exMark, exLedgerMarked) := by decide
  have hrun : exLedgerMarkedPaid = (Op.RunPayroll exPeriodID 8 "10.0.0.1" "r1").exec noFaults exIds
      exLedgerMarked := by
    simp only [Op.exec, PayrollService.RunPayroll, countWorkingDays_eq_range]
    decide!
  have hr0 : Reachable (AttendanceService.SubmitAttendance noFaults exIds exLedger "2024-01-02"
      exPeriodID 7 "10.0.0.2" "r2").2 exLedgerMarked := by
    rw [hsub]
    exact ReachableVia.init
  have hr1 : Reachable (AttendanceService.SubmitAttendance noFaults exIds exLedger "2024-01-02"
      exPeriodID 7 "10.0.0.2" "r2").2 exLedgerMarkedPaid := by
    rw [hrun]
    exact ReachableVia.step noFaults exIds _ hr0 trivial
  have hr2 : ReachableVia Faults.answersMarkLookup (AttendanceService.SubmitAttendance noFaults
      exIds exLedger "2024-01-02" exPeriodID 7 "10.0.0.2" "r2").2 exLedgerMarkedPaid := by
    rw [hrun, hsub]
    exact ReachableVia.step noFaults exIds _ ReachableVia.init (fun _ _ _ => rfl)
  ⟨by decide, by decide, by decide, by decide, by decide, hsub,
    h.2.2.1 exLedgerMarked hr0 noFaults exIds "2024-01-02" exPeriodID "10.0.0.2" "r3" (by decide)
      (by decide) rfl,
    h.2.2.1 exLedgerMarkedPaid hr1 noFaults exIds "2024-01-02" exPeriodID "10.0.0.2" "r4" (by decide)
      (by decide) rfl,
    h.2.2.2 (by intro u d p; simp [Store.marksOn, exLedger, exOpen]) exLedgerMarkedPaid hr2⟩

/-- C10. For a well-formed date and an open period with a well-formed identifier:
`SubmitAttendance` fails with "cannot submit attendance on weekends", writing nothing, when
the date is a Saturday or a Sunday, and never returns that error when the date is a Monday
to Friday. Hence, if every stored mark has a weekday date, so has every mark of every
database reachable afterwards, whatever operations run and whatever faults occur. -/
theorem submitAttendance_weekend_rule (F : Faults) (ids : Nat → UUID) (s : Store)
    (date periodID : String) (d : Time) (pid : UUID) (userID : UUID) (ip req : String)
    (hdate : Time.Parse date = some d) (hpid : uuidParse periodID = some pid)
    (hopen : s.Open pid) :
    ((d.Weekday = Weekday.Saturday ∨ d.Weekday = Weekday.Sunday) →
      AttendanceService.SubmitAttendance F ids s date periodID userID ip req
        = (.error .weekend, s)) ∧
    (d.Weekday ∈ [Weekday.Monday, Weekday.Tuesday, Weekday.Wednesday, Weekday.Thursday,
        Weekday.Friday] →
      (AttendanceService.SubmitAttendance F ids s date periodID userID ip req).1
        ≠ .error .weekend) ∧
    (s.MarksOnWeekdays → ∀ s', Reachable s s' → s'.MarksOnWeekdays) := by
  have hgate := AttendanceRepository.IsPayrollProcessed_of_open F hopen
  refine ⟨?_, ?_, ?_⟩
  · intro hwe
    simp [AttendanceService.SubmitAttendance, hdate, hpid, hgate, hwe]
  · intro hwd
    have hnw := Time.not_weekend_of_isWorkingDay ((Time.isWorkingDay_iff d).mpr hwd)
    unfold AttendanceService.SubmitAttendance
    simp only [hdate, hpid, hgate, hnw, Bool.false_eq_true, if_false]
    split
    · simp
    · split
      · simp
      · split <;> simp
  · intro h0 s' hreach
    exact ReachableVia.marksOnWeekdays hreach h0

/-- C10 (witness). In `exOpen`, a mark for Saturday 2024-01-06 in the open period 1 is turned
down with the weekend error, a mark for Tuesday 2024-01-02 is accepted, and the marks of the
resulting database are on weekdays. -/
theorem submitAttendance_weekend_rule_witness :
    Time.Parse "2024-01-06" = some (Time.Date 2024 1 6) ∧
    (Time.Date 2024 1 6).Weekday = Weekday.Saturday ∧
    uuidParse exPeriodID = some 1 ∧ exOpen.Open 1 ∧
    AttendanceService.SubmitAttendance noFaults exIds exOpen "2024-01-06" exPeriodID 7
      "10.0.0.2" "r2" = (.error .weekend, exOpen) ∧
    (AttendanceService.SubmitAttendance noFaults exIds exOpen "2024-01-02" exPeriodID 7
      "10.0.0.2" "r2").1 ≠ .error .weekend ∧
    exMarked.MarksOnWeekdays :=
  have h := submitAttendance_weekend_rule noFaults exIds exOpen "2024-01-06" exPeriodID
    (Time.Date 2024 1 6) 1 7 "10.0.0.2" "r2" (by decide) (by decide) (by decide)
  have h' := submitAttendance_weekend_rule noFaults exIds exOpen "2024-01-02" exPeriodID
    (Time.Date 2024 1 2) 1 7 "10.0.0.2" "r2" (by decide) (by decide) (by decide)
  have hsub : exMarked = (Op.SubmitAttendance "2024-01-02" exPeriodID 7 "10.0.0.2" "r2").exec
      noFaults exIds exOpen := by decide
  ⟨by decide, by decide, by decide, by decide, h.1 (Or.inl (by decide)), h'.2.1 (by decide),
    h.2.2 (by intro a ha; simp [exOpen] at ha) exMarked
      (hsub ▸ ReachableVia.step noFaults exIds _ ReachableVia.init trivial)⟩

/-- C11. For a well-formed date and an open period, `SubmitOvertime` fails with "overtime
cannot exceed 3 hours per day" exactly when `hours > 3`, and then writes nothing; when
`hours ≤ 3`, 3 itself included, and the insert and the audit write succeed, it returns the
claim and appends it to the overtime table. -/
theorem submitOvertime_cap (F : Faults) (ids : Nat → UUID) (s : Store) (date : String)
    (hours : ℚ) (periodID : String) (d : Time) (pid : UUID) (userID : UUID) (ip req : String)
    (hdate : Time.Parse date = some d) (hpid : uuidParse periodID = some pid)
    (hopen : s.Open pid) :
    ((AttendanceService.SubmitOvertime F ids s date hours periodID userID ip req).1
        = .error .overtimeExceeds ↔ 3 < hours) ∧
    (3 < hours →
      AttendanceService.SubmitOvertime F ids s date hours periodID userID ip req
        = (.error .overtimeExceeds, s)) ∧
    (hours ≤ 3 →
      F (.CreateOvertime (AttendanceService.overtimeOf ids userID d hours pid ip)) = false →
      F (.AuditCreate (AttendanceService.auditOf ids "overtime" userID ip req)) = false →
      (AttendanceService.SubmitOvertime F ids s date hours periodID userID ip req).1
        = .ok (AttendanceService.overtimeOf ids userID d hours pid ip) ∧
      (AttendanceService.SubmitOvertime F ids s date hours periodID userID ip req).2.overtimes
        = s.overtimes ++ [AttendanceService.overtimeOf ids userID d hours pid ip]) := by
  have hgate := AttendanceRepository.IsPayrollProcessed_of_open F hopen
  rw [AttendanceService.SubmitOvertime_eq F ids s hours userID ip req hdate hpid, hgate]
  refine ⟨?_, ?_, ?_⟩
  · by_cases h : 3 < hours
    · simp [h]
    · simp only [h, if_false, Bool.false_eq_true, iff_false]
      split
      · simp
      · split <;> simp
  · intro h
    simp [h]
  · intro h hc ha
    simp [not_lt.mpr h, hc, ha]

/-- C11 (witness). In `exOpen`, for Tuesday 2024-01-02 in the open period 1: 3.5 hours are
turned down with the cap error, 3 hours are accepted and stored. -/
theorem submitOvertime_cap_witness :
    Time.Parse "2024-01-02" = some (Time.Date 2024 1 2) ∧ uuidParse exPeriodID = some 1 ∧
    exOpen.Open 1 ∧
    AttendanceService.SubmitOvertime noFaults exIds exOpen "2024-01-02" (7 / 2) exPeriodID 7
      "10.0.0.2" "r2" = (.error .overtimeExceeds, exOpen) ∧
    (AttendanceService.SubmitOvertime noFaults exIds exOpen "2024-01-02" 3 exPeriodID 7
      "10.0.0.2" "r2").1
      = .ok (AttendanceService.overtimeOf exIds 7 (Time.Date 2024 1 2) 3 1 "10.0.0.2") ∧
    (AttendanceService.SubmitOvertime noFaults exIds exOpen "2024-01-02" 3 exPeriodID 7
      "10.0.0.2" "r2").2.overtimes
      = exOpen.overtimes ++
        [AttendanceService.overtimeOf exIds 7 (Time.Date 2024 1 2) 3 1 "10.0.0.2"] :=
  have h1 := submitOvertime_cap noFaults exIds exOpen "2024-01-02" (7 / 2) exPeriodID
    (Time.Date 2024 1 2) 1 7 "10.0.0.2" "r2" (by decide) (by decide) (by decide)
  have h2 := submitOvertime_cap noFaults exIds exOpen "2024-01-02" 3 exPeriodID
    (Time.Date 2024 1 2) 1 7 "10.0.0.2" "r2" (by decide) (by decide) (by decide)
  ⟨by decide, by decide, by decide, h1.2.1 (by norm_num),
    (h2.2.2 (le_refl 3) rfl rfl).1, (h2.2.2 (le_refl 3) rfl rfl).2⟩

/-- C12 (counterexample). In `exOpen`, overtime claims of 0 hours and of -2 hours for Tuesday
2024-01-02 in the open period 1 are accepted and stored: the only test on `hours` is
`hours > 3`. -/
theorem submitOvertime_accepts_zero_and_negative_hours :
    (AttendanceService.SubmitOvertime noFaults exIds exOpen "2024-01-02" 0 exPeriodID 7
      "10.0.0.2" "r2").1
      = .ok (AttendanceService.overtimeOf exIds 7 (Time.Date 2024 1 2) 0 1 "10.0.0.2") ∧
    (AttendanceService.SubmitOvertime noFaults exIds exOpen "2024-01-02" 0 exPeriodID 7
      "10.0.0.2" "r2").2.overtimes.map (fun o => o.Hours) = [0] ∧
    (AttendanceService.SubmitOvertime noFaults exIds exOpen "2024-01-02" (-2) exPeriodID 7
      "10.0.0.2" "r2").1
      = .ok (AttendanceService.overtimeOf exIds 7 (Time.Date 2024 1 2) (-2) 1 "10.0.0.2") ∧
    (AttendanceService.SubmitOvertime noFaults exIds exOpen "2024-01-02" (-2) exPeriodID 7
      "10.0.0.2" "r2").2.overtimes.map (fun o => o.Hours) = [-2] := by
  have hd : Time.Parse "2024-01-02" = some (Time.Date 2024 1 2) := by decide
  have hp : uuidParse exPeriodID = some 1 := by decide
  have hg : AttendanceRepository.IsPayrollProcessed noFaults exOpen 1 = false := by decide
  rw [AttendanceService.SubmitOvertime_eq noFaults exIds exOpen 0 7 "10.0.0.2" "r2" hd hp,
    AttendanceService.SubmitOvertime_eq noFaults exIds exOpen (-2) 7 "10.0.0.2" "r2" hd hp, hg]
  norm_num [noFaults, exOpen, AttendanceService.overtimeOf]

/-- C12 (amended). Whatever it returns, `SubmitOvertime` appends to the overtime table at most
one claim, carrying the submitted hours, and only when these are at most 3. Hence, if no
stored overtime claim exceeds 3 hours, none does in any database reachable afterwards,
whatever operations run and whatever faults occur. -/
theorem overtime_hours_at_most_three (F : Faults) (ids : Nat → UUID) (s : Store)
    (date : String) (hours : ℚ) (periodID : String) (userID : UUID) (ip req : String) :
    (∃ rows, (AttendanceService.SubmitOvertime F ids s date hours periodID userID ip
        req).2.overtimes = s.overtimes ++ rows ∧
      ∀ o ∈ rows, rows = [o] ∧ o.Hours = hours ∧ o.Hours ≤ 3) ∧
    (s.OvertimesAtMost3 → ∀ s', Reachable s s' → s'.OvertimesAtMost3) := by
  constructor
  · obtain ⟨rows, logs, h, hr⟩ :=
      AttendanceService.SubmitOvertime_frame F ids s date hours periodID userID ip req
    refine ⟨rows, by rw [h], ?_⟩
    intro o ho
    obtain ⟨h1, _, h3, h4, _⟩ := hr o ho
    exact ⟨h1, h3, h3 ▸ h4⟩
  · intro h0 s' hreach
    exact ReachableVia.overtimesAtMost3 hreach h0

/-- C12 (witness). `exOpen` holds no overtime claim; after a submission of 3 hours for Tuesday
2024-01-02, no stored claim exceeds 3 hours. -/
theorem overtime_hours_at_most_three_witness :
    exOpen.OvertimesAtMost3 ∧
    ((Op.SubmitOvertime "2024-01-02" 3 exPeriodID 7 "10.0.0.2" "r2").exec noFaults exIds
      exOpen).OvertimesAtMost3 :=
  have h0 : exOpen.OvertimesAtMost3 := by intro o ho; simp [exOpen] at ho
  ⟨h0, (overtime_hours_at_most_three noFaults exIds exOpen "2024-01-02" 3 exPeriodID 7
    "10.0.0.2" "r2").2 h0 _ (ReachableVia.step noFaults exIds _ ReachableVia.init trivial)⟩

/-- C13. On an open period, `SubmitReimbursement` fails with "amount must be positive"
whenever `amount ≤ 0`, 0 included, and with "description is required" whenever the amount is
positive and the description is the empty string; in both cases it writes nothing. Whatever
it returns, a claim it appends has a positive amount and a description. Hence, if every
stored reimbursement claim has a positive amount and a description, so has every claim of
every database reachable afterwards. -/
theorem submitReimbursement_validates (F : Faults) (ids : Nat → UUID) (s : Store) (amount : ℚ)
    (description periodID : String) (pid : UUID) (userID : UUID) (ip req : String)
    (hpid : uuidParse periodID = some pid) (hopen : s.Open pid) :
    (amount ≤ 0 →
      AttendanceService.SubmitReimbursement F ids s amount description periodID userID ip req
        = (.error .amountNotPositive, s)) ∧
    (0 < amount → description = "" →
      AttendanceService.SubmitReimbursement F ids s amount description periodID userID ip req
        = (.error .descriptionRequired, s)) ∧
    (∃ rows, (AttendanceService.SubmitReimbursement F ids s amount description periodID userID
        ip req).2.reimbursements = s.reimbursements ++ rows ∧
      ∀ r ∈ rows, rows = [r] ∧ r.Amount = amount ∧ 0 < r.Amount ∧
        r.Description = description ∧ r.Description ≠ "") ∧
    (s.ReimbursementsValid → ∀ s', Reachable s s' → s'.ReimbursementsValid) := by
  have hgate := AttendanceRepository.IsPayrollProcessed_of_open F hopen
  refine ⟨?_, ?_, ?_, ?_⟩
  · intro h
    rw [AttendanceService.SubmitReimbursement_eq F ids s amount description userID ip req hpid,
      hgate]
    simp [h]
  · intro h hd
    rw [AttendanceService.SubmitReimbursement_eq F ids s amount description userID ip req hpid,
      hgate]
    simp [not_le.mpr h, hd]
  · obtain ⟨rows, logs, h, hr⟩ :=
      AttendanceService.SubmitReimbursement_frame F ids s amount description periodID userID
        ip req
    refine ⟨rows, by rw [h], ?_⟩
    intro r hmem
    obtain ⟨h1, h2, h3, h4, h5, _⟩ := hr r hmem
    exact ⟨h1, h2, h2 ▸ h3, h4, h4 ▸ h5⟩
  · intro h0 s' hreach
    exact ReachableVia.reimbursementsValid hreach h0

/-- C13 (witness). In `exOpen`, on the open period 1: a reimbursement of amount 0 is turned
down with "amount must be positive", and one of amount 150000 with an empty description with
"description is required". -/
theorem submitReimbursement_validates_witness :
    uuidParse exPeriodID = some 1 ∧ exOpen.Open 1 ∧
    AttendanceService.SubmitReimbursement noFaults exIds exOpen 0 "taxi" exPeriodID 7
      "10.0.0.2" "r2" = (.error .amountNotPositive, exOpen) ∧
    AttendanceService.SubmitReimbursement noFaults exIds exOpen 150000 "" exPeriodID 7
      "10.0.0.2" "r2" = (.error .descriptionRequired, exOpen) :=
  ⟨by decide, by decide,
    (submitReimbursement_validates noFaults exIds exOpen 0 "taxi" exPeriodID 1 7 "10.0.0.2"
      "r2" (by decide) (by decide)).1 (le_refl 0),
    (submitReimbursement_validates noFaults exIds exOpen 150000 "" exPeriodID 1 7 "10.0.0.2"
      "r2" (by decide) (by decide)).2.1 (by norm_num) rfl⟩

/-- C14. `CreatePeriod` fails with "invalid start date format" or "invalid end date format"
when a date string does not parse. For two well-formed dates it fails with "end date must be
after start date" exactly when the end is strictly before the start, and then writes
nothing; a period whose end is on or after its start, a one-day period included, is
returned and appended to the period table when the insert and the audit write succeed.
Hence, if every stored period ends on or after its start, so does every period of every
database reachable afterwards. -/
theorem createPeriod_range (F : Faults) (ids : Nat → UUID) (s : Store)
    (startDate endDate : String) (userID : UUID) (ip req : String) :
    (Time.Parse startDate = none →
      AttendanceService.CreatePeriod F ids s startDate endDate userID ip req
        = (.error .invalidStartDate, s)) ∧
    ((Time.Parse startDate).isSome = true → Time.Parse endDate = none →
      AttendanceService.CreatePeriod F ids s startDate endDate userID ip req
        = (.error .invalidEndDate, s)) ∧
    (∀ start stop, Time.Parse startDate = some start → Time.Parse endDate = some stop →
      ((AttendanceService.CreatePeriod F ids s startDate endDate userID ip req).1
          = .error .endBeforeStart ↔ stop.day < start.day) ∧
      (stop.day < start.day →
        AttendanceService.CreatePeriod F ids s startDate endDate userID ip req
          = (.error .endBeforeStart, s)) ∧
      (start.day ≤ stop.day →
        F (.CreatePeriod (AttendanceService.periodOf ids start stop userID)) = false →
        F (.AuditCreate (AttendanceService.auditOf ids "attendance_period" userID ip req))
          = false →
        (AttendanceService.CreatePeriod F ids s startDate endDate userID ip req).1
          = .ok (AttendanceService.periodOf ids start stop userID) ∧
        (AttendanceService.CreatePeriod F ids s startDate endDate userID ip req).2.periods
          = s.periods ++ [AttendanceService.periodOf ids start stop userID])) ∧
    (s.PeriodsOrdered → ∀ s', Reachable s s' → s'.PeriodsOrdered) := by
  refine ⟨?_, ?_, ?_, ?_⟩
  · intro h
    simp [AttendanceService.CreatePeriod, h]
  · intro h1 h2
    obtain ⟨start, hstart⟩ := Option.isSome_iff_exists.mp h1
    simp [AttendanceService.CreatePeriod, hstart, h2]
  · intro start stop hstart hstop
    rw [AttendanceService.CreatePeriod_cases F ids s userID ip req hstart hstop]
    refine ⟨?_, ?_, ?_⟩
    · by_cases h : stop.day < start.day
      · simp [h]
      · simp only [h, if_false, iff_false]
        split
        · simp
        · split <;> simp
    · intro h
      simp [h]
    · intro h hc ha
      simp [not_lt.mpr h, hc, ha]
  · intro h0 s' hreach
    exact ReachableVia.periodsOrdered hreach h0

/-- C14 (witness). In `exOpen`: the one-day period 2024-01-06 to 2024-01-06 is accepted and
stored, the period 2024-01-07 to 2024-01-06 is turned down with the range error, and a start
date that is not a calendar date with the format error. -/
theorem createPeriod_range_witness :
    Time.Parse "2024-01-06" = some (Time.Date 2024 1 6) ∧
    Time.Parse "2024-01-07" = some (Time.Date 2024 1 7) ∧ Time.Parse "2024-02-30" = none ∧
    (AttendanceService.CreatePeriod noFaults exIds exOpen "2024-01-06" "2024-01-06" 8
      "10.0.0.1" "r1").1
      = .ok (AttendanceService.periodOf exIds (Time.Date 2024 1 6) (Time.Date 2024 1 6) 8) ∧
    AttendanceService.CreatePeriod noFaults exIds exOpen "2024-01-07" "2024-01-06" 8
      "10.0.0.1" "r1" = (.error .endBeforeStart, exOpen) ∧
    AttendanceService.CreatePeriod noFaults exIds exOpen "2024-02-30" "2024-03-01" 8
      "10.0.0.1" "r1" = (.error .invalidStartDate, exOpen) :=
  ⟨by decide, by decide, by decide,
    (((createPeriod_range noFaults exIds exOpen "2024-01-06" "2024-01-06" 8 "10.0.0.1"
      "r1").2.2.1 (Time.Date 2024 1 6) (Time.Date 2024 1 6) (by decide) (by decide)).2.2
      (le_refl _) rfl rfl).1,
    ((createPeriod_range noFaults exIds exOpen "2024-01-07" "2024-01-06" 8 "10.0.0.1"
      "r1").2.2.1 (Time.Date 2024 1 7) (Time.Date 2024 1 6) (by decide) (by decide)).2.1
      (by decide),
    (createPeriod_range noFaults exIds exOpen "2024-02-30" "2024-03-01" 8 "10.0.0.1" "r1").1
      (by decide)⟩

/-- C15 (counterexample). In `exSmallPaid` the period 1 has two payroll rows whose total pay
are the `float64` values of 0.1 and 0.2. The summary lists both, and its `total_payroll` is
the `float64` 0.30000000000000004, which is not the sum of the two total pay. -/
theorem generatePayrollSummary_total_is_rounded :
    uuidParse exPeriodID = some 1 ∧
    Float64.ofRat (1 / 10) = .finite exTenth ∧ Float64.ofRat (2 / 10) = .finite exFifth ∧
    (exSmallPaid.payrollsIn 1).map (fun p => p.TotalPay) = [exTenth, exFifth] ∧
    PayrollService.GeneratePayrollSummary noFaults exSmallPaid exPeriodID
      = (.ok { summary := [{ username := "ann", total_pay := exTenth },
                           { username := "bob", total_pay := exFifth }],
               total_payroll := .finite (1351079888211149 / 4503599627370496) },
          exSmallPaid) ∧
    exTenth + exFifth = 10808639105689191 / 36028797018963968 ∧
    (1351079888211149 / 4503599627370496 : ℚ) ≠ exTenth + exFifth := by
  refine ⟨by decide, by decide!, by decide!, by decide!, by decide!, by decide!, by decide!⟩

/-- C15 (amended). For a well-formed period identifier, when the lookup of the payroll rows of
the period is answered and the user of each of these rows resolves, `GeneratePayrollSummary`
returns, leaving the database as it was, a view whose `total_payroll` is the `float64` sum
of the total pay of these rows, accumulated from 0 in the order of the rows with each
addition rounded, and whose `summary` has exactly one entry per row, in the order of the
rows, carrying the username of the row's user and the row's total pay. When no partial sum
is rounded, `total_payroll` is the exact sum of the total pay of the rows. -/
theorem generatePayrollSummary_total (F : Faults) (s : Store) (periodID : String) (pid : UUID)
    (hpid : uuidParse periodID = some pid)
    (hF : F (.FindPayrollsByPeriod pid) = false)
    (hres : ∀ p ∈ s.payrollsIn pid,
      (PayrollRepository.FindUserByID F s p.UserID).isSome = true) :
    ∃ view, PayrollService.GeneratePayrollSummary F s periodID = (.ok view, s) ∧
      view.total_payroll = Float64.sum ((s.payrollsIn pid).map (fun p => p.TotalPay)) ∧
      ((∀ k, 1 ≤ k → k ≤ (s.payrollsIn pid).length →
          Float64.Exact ((((s.payrollsIn pid).map (fun p => p.TotalPay)).take k).sum)) →
        view.total_payroll = .finite ((s.payrollsIn pid).map (fun p => p.TotalPay)).sum) ∧
      List.Forall₂ (SummaryFor F s) (s.payrollsIn pid) view.summary ∧
      view.summary.map (fun e => e.total_pay) = (s.payrollsIn pid).map (fun p => p.TotalPay) := by
  obtain ⟨entries, he, hf⟩ :=
    PayrollService.GeneratePayrollSummary.loop_total F s (s.payrollsIn pid) [] (.finite 0) hres
  have hfind : PayrollRepository.FindPayrollsByPeriod F s pid = some (s.payrollsIn pid) := by
    simp [PayrollRepository.FindPayrollsByPeriod, hF, Store.payrollsIn]
  refine ⟨{ summary := entries, total_payroll := Float64.sum ((s.payrollsIn pid).map
    (fun p => p.TotalPay)) }, ?_, rfl, ?_, hf, ?_⟩
  · simp only [PayrollService.GeneratePayrollSummary, hpid, hfind, he]
    simp [Float64.sum]
  · intro hexact
    have := Float64.foldl_exact ((s.payrollsIn pid).map (fun p => p.TotalPay)) 0
      (by
        intro k hk1 hk
        rw [zero_add]
        exact hexact k hk1 (by simpa using hk))
    rw [zero_add] at this
    exact this
  · exact SummaryFor.map_total_pay hf

/-- C15 (witness). In `exTwoPaid` the period 1 has two payroll rows, of total pay 4100000 and
2500000: the summary lists ann and bob with these amounts and totals 6600000, no partial sum
being rounded. -/
theorem generatePayrollSummary_total_witness :
    uuidParse exPeriodID = some 1 ∧
    (exTwoPaid.payrollsIn 1).map (fun p => p.TotalPay) = [4100000, 2500000] ∧
    PayrollService.GeneratePayrollSummary noFaults exTwoPaid exPeriodID
      = (.ok { summary := [{ username := "ann", total_pay := 4100000 },
                           { username := "bob", total_pay := 2500000 }],
               total_payroll := .finite 6600000 }, exTwoPaid) ∧
    Float64.Exact 4100000 ∧ Float64.Exact (4100000 + 2500000) ∧
    (∃ view, PayrollService.GeneratePayrollSummary noFaults exTwoPaid exPeriodID
        = (.ok view, exTwoPaid) ∧
      view.total_payroll = Float64.sum ((exTwoPaid.payrollsIn 1).map (fun p => p.TotalPay)) ∧
      view.total_payroll
        = .finite ((exTwoPaid.payrollsIn 1).map (fun p => p.TotalPay)).sum) :=
  have h := generatePayrollSummary_total noFaults exTwoPaid exPeriodID 1 (by decide) rfl
    (by decide)
  have hmap : (exTwoPaid.payrollsIn 1).map (fun p => p.TotalPay) = [4100000, 2500000] := by
    decide
  have h1 : Float64.Exact 4100000 := by decide!
  have h2 : Float64.Exact (4100000 + 2500000) := by decide!
  ⟨by decide, hmap, by decide!, h1, h2,
    match h with
    | ⟨view, e1, e2, e3, _⟩ => ⟨view, e1, e2, e3 (by
        intro k hk1 hk
        rw [hmap]
        have hk2 : k ≤ 2 := by simpa [Store.payrollsIn, exTwoPaid] using hk
        interval_cases k
        · simpa using h1
        · simpa using h2)⟩⟩

/-- C16. For a well-formed period identifier: `GeneratePayslip` fails with "payroll not found"
when the user has no payroll row in the period. When the user has one, the period resolves
and the five lookups are answered, it returns the payslip made of the period, the user's
attendance, overtime and reimbursement entries of that period and the four pay figures of
the user's payroll row (the one with the least identifier, should there be several). In
every case the database, audit rows included, is left as it was. -/
theorem generatePayslip_reads (F : Faults) (s : Store) (periodID : String) (pid : UUID)
    (userID : UUID) (hpid : uuidParse periodID = some pid) :
    (s.payrollsOf pid userID = [] →
      PayrollService.GeneratePayslip F s periodID userID = (.error .payrollNotFound, s)) ∧
    (∀ period, s.payrollsOf pid userID ≠ [] →
      s.periods.find? (fun p => p.ID = pid) = some period →
      F (.FindPayrollByPeriodAndUser pid userID) = false →
      F (.FindPeriodByID pid) = false →
      F (.FindAttendancesByUserAndPeriod userID pid) = false →
      F (.FindOvertimesByUserAndPeriod userID pid) = false →
      F (.FindReimbursementsByUserAndPeriod userID pid) = false →
      ∃ p ∈ s.payrollsOf pid userID, (∀ q ∈ s.payrollsOf pid userID, p.ID ≤ q.ID) ∧
        PayrollService.GeneratePayslip F s periodID userID
          = (.ok (PayrollService.payslipOf s period userID pid p), s)) ∧
    (PayrollService.GeneratePayslip F s periodID userID).2 = s := by
  refine ⟨?_, ?_, PayrollService.GeneratePayslip_store F s periodID userID⟩
  · intro hnone
    have : PayrollRepository.FindPayrollByPeriodAndUser F s pid userID = none := by
      unfold PayrollRepository.FindPayrollByPeriodAndUser
      split
      · rfl
      · exact (firstByID_nil_iff _ _).mpr hnone
    simp [PayrollService.GeneratePayslip, hpid, this]
  · intro period hne hperiod h1 h2 h3 h4 h5
    cases hfirst : firstByID (fun p : Payroll => p.ID) (s.payrollsOf pid userID) with
    | none => exact absurd ((firstByID_nil_iff _ _).mp hfirst) hne
    | some p =>
      obtain ⟨hmem, hmin⟩ := firstByID_some _ _ p hfirst
      refine ⟨p, hmem, hmin, ?_⟩
      have hA : PayrollRepository.FindPayrollByPeriodAndUser F s pid userID = some p := by
        unfold PayrollRepository.FindPayrollByPeriodAndUser
        rw [h1]
        exact hfirst
      have hB : AttendanceRepository.FindPeriodByID F s pid = some period := by
        unfold AttendanceRepository.FindPeriodByID
        rw [h2]
        exact hperiod
      have hC : PayrollRepository.FindAttendancesByUserAndPeriod F s userID pid
          = some (s.marksOf userID pid) := by
        unfold PayrollRepository.FindAttendancesByUserAndPeriod
        rw [h3]
        rfl
      have hD : PayrollRepository.FindOvertimesByUserAndPeriod F s userID pid
          = some (s.overtimesOf userID pid) := by
        unfold PayrollRepository.FindOvertimesByUserAndPeriod
        rw [h4]
        rfl
      have hE : PayrollRepository.FindReimbursementsByUserAndPeriod F s userID pid
          = some (s.reimbursementsOf userID pid) := by
        unfold PayrollRepository.FindReimbursementsByUserAndPeriod
        rw [h5]
        rfl
      simp only [PayrollService.GeneratePayslip, hpid, hA, hB, hC, hD, hE]
      rfl

/-- C16 (witness). In `exTwoPaid`: the administrator 8 has no payroll row in period 1 and gets
"payroll not found"; the employee 7 gets the four figures of the row 100. -/
theorem generatePayslip_reads_witness :
    uuidParse exPeriodID = some 1 ∧ exTwoPaid.payrollsOf 1 8 = [] ∧
    PayrollService.GeneratePayslip noFaults exTwoPaid exPeriodID 8
      = (.error .payrollNotFound, exTwoPaid) ∧
    exTwoPaid.payrollsOf 1 7 ≠ [] ∧
    (∃ p ∈ exTwoPaid.payrollsOf 1 7,
      PayrollService.GeneratePayslip noFaults exTwoPaid exPeriodID 7
        = (.ok (PayrollService.payslipOf exTwoPaid exPeriod 7 1 p), exTwoPaid)) ∧
    ((PayrollService.GeneratePayslip noFaults exTwoPaid exPeriodID 7).1.toOption.map
      (fun v => (v.base_salary, v.overtime_pay, v.reimbursement_amount, v.total_pay)))
      = some (4000000, 100000, 0, 4100000) :=
  have h8 := generatePayslip_reads noFaults exTwoPaid exPeriodID 1 8 (by decide)
  have h7 := generatePayslip_reads noFaults exTwoPaid exPeriodID 1 7 (by decide)
  ⟨by decide, by decide, h8.1 (by decide), by decide,
    match h7.2.1 exPeriod (by decide) (by decide) rfl rfl rfl rfl rfl with
    | ⟨p, hp, _, h⟩ => ⟨p, hp, h⟩,
    by decide⟩

/-- C17. Audit is emitted once per write and its failure is fatal. A successful
`CreatePeriod`, `SubmitAttendance`, `SubmitOvertime` or `SubmitReimbursement` has appended
its record and exactly one audit row, with action `create`, the name of the record's table
and the record's identifier. A successful `RunPayroll` has appended payroll rows and audit
rows that pair off one to one, each audit row with action `create`, table `payroll` and the
identifier of its payroll row. In each case every audit write made was one that did not
fail; so when every audit write fails, none of the four ledger operations returns success,
and a payroll run that returns success has written nothing. -/
theorem audit_once_per_write (F : Faults) (ids : Nat → UUID) (s s' : Store) :
    (∀ startDate endDate userID ip req p,
      AttendanceService.CreatePeriod F ids s startDate endDate userID ip req = (.ok p, s') →
      s'.periods = s.periods ++ [p] ∧
      ∃ l, s'.auditLogs = s.auditLogs ++ [l] ∧ l.Action = "create" ∧
        l.TableName = "attendance_period" ∧ l.RecordID = p.ID ∧
        F (.AuditCreate l) = false) ∧
    (∀ date periodID userID ip req a,
      AttendanceService.SubmitAttendance F ids s date periodID userID ip req = (.ok a, s') →
      s'.attendances = s.attendances ++ [a] ∧
      ∃ l, s'.auditLogs = s.auditLogs ++ [l] ∧ l.Action = "create" ∧
        l.TableName = "attendance" ∧ l.RecordID = a.ID ∧ F (.AuditCreate l) = false) ∧
    (∀ date hours periodID userID ip req o,
      AttendanceService.SubmitOvertime F ids s date hours periodID userID ip req
        = (.ok o, s') →
      s'.overtimes = s.overtimes ++ [o] ∧
      ∃ l, s'.auditLogs = s.auditLogs ++ [l] ∧ l.Action = "create" ∧
        l.TableName = "overtime" ∧ l.RecordID = o.ID ∧ F (.AuditCreate l) = false) ∧
    (∀ amount description periodID userID ip req r,
      AttendanceService.SubmitReimbursement F ids s amount description periodID userID ip req
        = (.ok r, s') →
      s'.reimbursements = s.reimbursements ++ [r] ∧
      ∃ l, s'.auditLogs = s.auditLogs ++ [l] ∧ l.Action = "create" ∧
        l.TableName = "reimbursement" ∧ l.RecordID = r.ID ∧ F (.AuditCreate l) = false) ∧
    (∀ periodID userID ip req,
      PayrollService.RunPayroll F ids s periodID userID ip req = (.ok (), s') →
      ∃ rows logs, s'.payrolls = s.payrolls ++ rows ∧ s'.auditLogs = s.auditLogs ++ logs ∧
        List.Forall₂ AuditFor rows logs ∧ ∀ l ∈ logs, F (.AuditCreate l) = false) ∧
    ((∀ l, F (.AuditCreate l) = true) →
      (∀ startDate endDate userID ip req p,
        AttendanceService.CreatePeriod F ids s startDate endDate userID ip req ≠ (.ok p, s')) ∧
      (∀ date periodID userID ip req a,
        AttendanceService.SubmitAttendance F ids s date periodID userID ip req
          ≠ (.ok a, s')) ∧
      (∀ date hours periodID userID ip req o,
        AttendanceService.SubmitOvertime F ids s date hours periodID userID ip req
          ≠ (.ok o, s')) ∧
      (∀ amount description periodID userID ip req r,
        AttendanceService.SubmitReimbursement F ids s amount description periodID userID ip
          req ≠ (.ok r, s')) ∧
      (∀ periodID userID ip req,
        PayrollService.RunPayroll F ids s periodID userID ip req = (.ok (), s') → s' = s)) := by
  have hP : ∀ startDate endDate userID ip req p,
      AttendanceService.CreatePeriod F ids s startDate endDate userID ip req = (.ok p, s') →
      s'.periods = s.periods ++ [p] ∧
      ∃ l, s'.auditLogs = s.auditLogs ++ [l] ∧ l.Action = "create" ∧
        l.TableName = "attendance_period" ∧ l.RecordID = p.ID ∧
        F (.AuditCreate l) = false := by
    intro startDate endDate userID ip req p h
    obtain ⟨h1, h2, h3, h4⟩ := AttendanceService.CreatePeriod_ok h
    exact ⟨h1, _, h3, rfl, rfl, h2.symm, h4⟩
  have hA : ∀ date periodID userID ip req a,
      AttendanceService.SubmitAttendance F ids s date periodID userID ip req = (.ok a, s') →
      s'.attendances = s.attendances ++ [a] ∧
      ∃ l, s'.auditLogs = s.auditLogs ++ [l] ∧ l.Action = "create" ∧
        l.TableName = "attendance" ∧ l.RecordID = a.ID ∧ F (.AuditCreate l) = false := by
    intro date periodID userID ip req a h
    obtain ⟨h1, h2, h3, h4⟩ := AttendanceService.SubmitAttendance_ok h
    exact ⟨h1, _, h3, rfl, rfl, h2.symm, h4⟩
  have hO : ∀ date hours periodID userID ip req o,
      AttendanceService.SubmitOvertime F ids s date hours periodID userID ip req
        = (.ok o, s') →
      s'.overtimes = s.overtimes ++ [o] ∧
      ∃ l, s'.auditLogs = s.auditLogs ++ [l] ∧ l.Action = "create" ∧
        l.TableName = "overtime" ∧ l.RecordID = o.ID ∧ F (.AuditCreate l) = false := by
    intro date hours periodID userID ip req o h
    obtain ⟨h1, h2, h3, h4⟩ := AttendanceService.SubmitOvertime_ok h
    exact ⟨h1, _, h3, rfl, rfl, h2.symm, h4⟩
  have hR : ∀ amount description periodID userID ip req r,
      AttendanceService.SubmitReimbursement F ids s amount description periodID userID ip req
        = (.ok r, s') →
      s'.reimbursements = s.reimbursements ++ [r] ∧
      ∃ l, s'.auditLogs = s.auditLogs ++ [l] ∧ l.Action = "create" ∧
        l.TableName = "reimbursement" ∧ l.RecordID = r.ID ∧ F (.AuditCreate l) = false := by
    intro amount description periodID userID ip req r h
    obtain ⟨h1, h2, h3, h4⟩ := AttendanceService.SubmitReimbursement_ok h
    exact ⟨h1, _, h3, rfl, rfl, h2.symm, h4⟩
  have hRun : ∀ periodID userID ip req,
      PayrollService.RunPayroll F ids s periodID userID ip req = (.ok (), s') →
      ∃ rows logs, s' = { s with payrolls := s.payrolls ++ rows,
                                 auditLogs := s.auditLogs ++ logs } ∧
        List.Forall₂ AuditFor rows logs ∧ ∀ l ∈ logs, F (.AuditCreate l) = false := by
    intro periodID userID ip req h
    obtain ⟨_, _, rows, logs, _, _, _, hs', _, hlogs⟩ := PayrollService.RunPayroll_ok h
    obtain ⟨logs', hl', hf⟩ := PayrollService.RunPayroll_ok_fault h
    have : logs' = logs := by
      rw [hs'] at hl'
      exact (List.append_cancel_left hl').symm
    subst this
    exact ⟨rows, logs', hs', hlogs, hf⟩
  refine ⟨hP, hA, hO, hR, ?_, ?_⟩
  · intro periodID userID ip req h
    obtain ⟨rows, logs, hs', hlogs, hf⟩ := hRun periodID userID ip req h
    exact ⟨rows, logs, by rw [hs'], by rw [hs'], hlogs, hf⟩
  · intro hdown
    refine ⟨?_, ?_, ?_, ?_, ?_⟩
    · intro startDate endDate userID ip req p h
      obtain ⟨_, l, _, _, _, _, hl⟩ := hP startDate endDate userID ip req p h
      rw [hdown l] at hl
      exact absurd hl (by decide)
    · intro date periodID userID ip req a h
      obtain ⟨_, l, _, _, _, _, hl⟩ := hA date periodID userID ip req a h
      rw [hdown l] at hl
      exact absurd hl (by decide)
    · intro date hours periodID userID ip req o h
      obtain ⟨_, l, _, _, _, _, hl⟩ := hO date hours periodID userID ip req o h
      rw [hdown l] at hl
      exact absurd hl (by decide)
    · intro amount description periodID userID ip req r h
      obtain ⟨_, l, _, _, _, _, hl⟩ := hR amount description periodID userID ip req r h
      rw [hdown l] at hl
      exact absurd hl (by decide)
    · intro periodID userID ip req h
      obtain ⟨rows, logs, hs', hlogs, hf⟩ := hRun periodID userID ip req h
      cases hlogs with
      | nil => rw [hs']; simp
      | cons _ _ =>
        have := hf _ (List.mem_cons_self _ _)
        rw [hdown] at this
        exact absurd this (by decide)

/-- C17 (witness). In `exOpen` a successful attendance submission leaves exactly one more
audit row, for the table `attendance` and the new mark. In `exLedger` the payroll run writes
one payroll row and one audit row, for the table `payroll` and that row. With every audit
write failing, the same submission and the same run both return "failed to log audit". -/
theorem audit_once_per_write_witness :
    AttendanceService.SubmitAttendance noFaults exIds exOpen "2024-01-02" exPeriodID 7
      "10.0.0.2" "r2" = (.ok exMark, exMarked) ∧
    (∃ l, exMarked.auditLogs = exOpen.auditLogs ++ [l] ∧ l.Action = "create" ∧
      l.TableName = "attendance" ∧ l.RecordID = exMark.ID) ∧
    PayrollService.RunPayroll noFaults exIds exLedger exPeriodID 8 "10.0.0.1" "r1"
      = (.ok (), exLedgerPaid) ∧
    (∃ rows logs, exLedgerPaid.payrolls = exLedger.payrolls ++ rows ∧
      exLedgerPaid.auditLogs = exLedger.auditLogs ++ logs ∧ List.Forall₂ AuditFor rows logs) ∧
    exLedgerPaid.payrolls.length = 1 ∧ exLedgerPaid.auditLogs = [exPayrollAudit] ∧
    (∀ l, exAuditDown (.AuditCreate l) = true) ∧
    (AttendanceService.SubmitAttendance exAuditDown exIds exOpen "2024-01-02" exPeriodID 7
      "10.0.0.2" "r2").1 = .error .auditFailed ∧
    (PayrollService.RunPayroll exAuditDown exIds exLedger exPeriodID 8 "10.0.0.1" "r1").1
      = .error .auditFailed :=
  have hsub : AttendanceService.SubmitAttendance noFaults exIds exOpen "2024-01-02" exPeriodID
      7 "10.0.0.2" "r2" = (.ok exMark, exMarked) := by decide
  have hrun : PayrollService.RunPayroll noFaults exIds exLedger exPeriodID 8 "10.0.0.1" "r1"
      = (.ok (), exLedgerPaid) := by
    simp only [PayrollService.RunPayroll, countWorkingDays_eq_range]
    decide!
  ⟨hsub,
    match ((audit_once_per_write noFaults exIds exOpen exMarked).2.1 "2024-01-02" exPeriodID 7
      "10.0.0.2" "r2" exMark hsub).2 with
    | ⟨l, h1, h2, h3, h4, _⟩ => ⟨l, h1, h2, h3, h4⟩,
    hrun,
    match (audit_once_per_write noFaults exIds exLedger exLedgerPaid).2.2.2.2.1 exPeriodID 8
      "10.0.0.1" "r1" hrun with
    | ⟨rows, logs, h1, h2, h3, _⟩ => ⟨rows, logs, h1, h2, h3⟩,
    by decide, by decide, fun _ => rfl, by decide,
    by simp only [PayrollService.RunPayroll, countWorkingDays_eq_range]; decide!⟩

/-- C18 (counterexample). In `exTwoOpen` the employees are ann (7) and bob (9), each with an
overtime claim and a reimbursement claim; the database refuses the audit write for the
payroll row of bob. The run fails at bob with "failed to log audit", after the rows of ann
and of bob have been written: the employee at whom the run failed has a payroll row. -/
theorem runPayroll_audit_failure_leaves_row :
    exTwoOpen.employees = [exAnn, exBob] ∧ exTwoOpen.Open 1 ∧
    exSecondAuditFails (.AuditCreate (PayrollService.auditOf exIds 8 "10.0.0.1" "r1" 0))
      = false ∧
    exSecondAuditFails (.AuditCreate (PayrollService.auditOf exIds 8 "10.0.0.1" "r1" 1))
      = true ∧
    (PayrollService.RunPayroll exSecondAuditFails exIds exTwoOpen exPeriodID 8 "10.0.0.1"
      "r1").1 = .error .auditFailed ∧
    ((PayrollService.RunPayroll exSecondAuditFails exIds exTwoOpen exPeriodID 8 "10.0.0.1"
      "r1").2.payrolls.map (fun p => (p.PeriodID, p.UserID))) = [(1, 7), (1, 9)] ∧
    ((PayrollService.RunPayroll exSecondAuditFails exIds exTwoOpen exPeriodID 8 "10.0.0.1"
      "r1").2.payrollsOf 1 9).length = 1 := by
  refine ⟨by decide, by decide, by decide, by decide, ?_, ?_, ?_⟩
  · simp only [PayrollService.RunPayroll, countWorkingDays_eq_range]
    decide!
  · simp only [PayrollService.RunPayroll, countWorkingDays_eq_range]
    decide!
  · simp only [PayrollService.RunPayroll, countWorkingDays_eq_range]
    decide!

/-- C18 (amended). A payroll run is not atomic. On an open period that is found, with the
employees `pre ++ ek :: post` of distinct identifiers, `pre` not empty, the lookups, the
insert and the audit write succeeding for every employee of `pre`: the run fails at `ek` and
leaves in the payroll table the rows written so far. When a lookup or the insert fails for
`ek` (a sum lookup also fails when `ek` has no row to sum), the run returns the error of that
step, one row is left for each employee of `pre`, and `ek` and the employees after it have no
payroll row. When the audit write of `ek` fails, the run returns "failed to log audit", one
row is left for each employee of `pre` and for `ek`, and the employees after `ek` have no
payroll row. In both cases the period is frozen and a later `RunPayroll` whose lookups are
answered fails with "payroll already processed for this period" and writes nothing. -/
theorem runPayroll_not_atomic (F : Faults) (ids : Nat → UUID) (s : Store) (periodID : String)
    (pid : UUID) (period : AttendancePeriod) (actor : UUID) (ip req : String)
    (pre : List User) (ek : User) (post : List User)
    (hpid : uuidParse periodID = some pid)
    (hperiod : s.periods.find? (fun p => p.ID = pid) = some period)
    (hopen : s.Open pid)
    (hemp : s.employees = pre ++ ek :: post) (hk : pre ≠ [])
    (hnodup : (s.employees.map User.ID).Nodup)
    (hfindF : F (.FindPeriodByID pid) = false) (hempF : F .FindEmployees = false)
    (hpre : ∀ u ∈ pre, F.SucceedsFor s pid u)
    (haudit : ∀ j, j < pre.length →
      F (.AuditCreate (PayrollService.auditOf ids actor ip req j)) = false) :
    (F.FailsFor s pid ek →
      (PayrollService.RunPayroll F ids s periodID actor ip req).1
        = .error (F.failureOf s pid ek) ∧
      (∃ rows, (PayrollService.RunPayroll F ids s periodID actor ip req).2.payrolls
          = s.payrolls ++ rows ∧
        List.Forall₂ (PayrollFor s pid
          (((countWorkingDays period.StartDate period.EndDate * 8 : Nat) : ℚ))) pre rows) ∧
      (∀ u ∈ ek :: post,
        (PayrollService.RunPayroll F ids s periodID actor ip req).2.payrollsOf pid u.ID
          = [])) ∧
    (F.SucceedsFor s pid ek →
      F (.AuditCreate (PayrollService.auditOf ids actor ip req pre.length)) = true →
      (PayrollService.RunPayroll F ids s periodID actor ip req).1 = .error .auditFailed ∧
      (∃ rows, (PayrollService.RunPayroll F ids s periodID actor ip req).2.payrolls
          = s.payrolls ++ rows ∧
        List.Forall₂ (PayrollFor s pid
          (((countWorkingDays period.StartDate period.EndDate * 8 : Nat) : ℚ)))
          (pre ++ [ek]) rows) ∧
      ((PayrollService.RunPayroll F ids s periodID actor ip req).2.payrollsOf pid
        ek.ID).length = 1 ∧
      (∀ u ∈ post,
        (PayrollService.RunPayroll F ids s periodID actor ip req).2.payrollsOf pid u.ID
          = [])) ∧
    ((F.FailsFor s pid ek ∨ (F.SucceedsFor s pid ek ∧
        F (.AuditCreate (PayrollService.auditOf ids actor ip req pre.length)) = true)) →
      (∃ e, (PayrollService.RunPayroll F ids s periodID actor ip req).1 = .error e) ∧
      (∀ u ∈ pre,
        ((PayrollService.RunPayroll F ids s periodID actor ip req).2.payrollsOf pid
          u.ID).length = 1) ∧
      (PayrollService.RunPayroll F ids s periodID actor ip req).2.Frozen pid ∧
      (∀ (F' : Faults) (ids' : Nat → UUID) (actor' : UUID) (ip' req' : String),
        F' (.FindPeriodByID pid) = false → F' (.IsPayrollProcessed pid) = false →
        PayrollService.RunPayroll F' ids' (PayrollService.RunPayroll F ids s periodID actor ip
          req).2 periodID actor' ip' req'
          = (.error .payrollProcessed,
              (PayrollService.RunPayroll F ids s periodID actor ip req).2))) := by
  have hfe : PayrollRepository.FindEmployees F s = some (pre ++ ek :: post) := by
    unfold PayrollRepository.FindEmployees
    rw [hempF, ← hemp]
    rfl
  have hfp : AttendanceRepository.FindPeriodByID F s pid = some period := by
    unfold AttendanceRepository.FindPeriodByID
    rw [hfindF]
    exact hperiod
  have hloop : PayrollService.RunPayroll F ids s periodID actor ip req
      = PayrollService.RunPayroll.loop F ids pid
        (((countWorkingDays period.StartDate period.EndDate * 8 : Nat) : ℚ)) actor ip req
        (pre ++ ek :: post) 0 s := by
    simp only [PayrollService.RunPayroll, hpid, hfp,
      AttendanceRepository.IsPayrollProcessed_of_open F hopen, hfe]
    simp
  have haudit0 : ∀ j, j < pre.length →
      F (.AuditCreate (PayrollService.auditOf ids actor ip req (0 + j))) = false := by
    intro j hj
    rw [Nat.zero_add]
    exact haudit j hj
  rw [hemp] at hnodup
  have hnd : ((pre ++ [ek]).map User.ID ++ post.map User.ID).Nodup := by
    simpa [List.map_append] using hnodup
  -- what the run leaves when it has written `rows` for the employees `done`
  have hafter : ∀ (done : List User) (rows : List Payroll) (logs : List AuditLog),
      done ≠ [] →
      List.Forall₂ (PayrollFor s pid
        (((countWorkingDays period.StartDate period.EndDate * 8 : Nat) : ℚ))) done rows →
      Store.Frozen
        { s with payrolls := s.payrolls ++ rows, auditLogs := s.auditLogs ++ logs } pid ∧
      (∀ x, (Store.payrollsOf
        { s with payrolls := s.payrolls ++ rows, auditLogs := s.auditLogs ++ logs } pid
          x).length = List.count x (done.map User.ID)) := by
    intro done rows logs hne hrows
    constructor
    · cases hrows with
      | nil => exact absurd rfl hne
      | cons hp _ => exact ⟨_, List.mem_append_right _ (List.mem_cons_self _ _), hp.1⟩
    · intro x
      unfold Store.payrollsOf
      simp only [List.filter_append]
      have h0 := hopen.payrollsOf x
      unfold Store.payrollsOf at h0
      rw [h0, List.nil_append]
      exact PayrollFor.filter_length x hrows
  have hretry : ∀ (s1 : Store), s1.Frozen pid →
      s1.periods.find? (fun p => p.ID = pid) = some period →
      ∀ (F' : Faults) (ids' : Nat → UUID) (actor' : UUID) (ip' req' : String),
        F' (.FindPeriodByID pid) = false → F' (.IsPayrollProcessed pid) = false →
        PayrollService.RunPayroll F' ids' s1 periodID actor' ip' req'
          = (.error .payrollProcessed, s1) := by
    intro s1 hfrozen hper F' ids' actor' ip' req' h1 h2
    have hg := AttendanceRepository.IsPayrollProcessed_of_frozen h2 hfrozen
    exact PayrollService.RunPayroll_of_gate hpid h1 hper hg actor' ip' req'
  have hA : F.FailsFor s pid ek → ∃ rows logs,
      PayrollService.RunPayroll F ids s periodID actor ip req
        = (.error (F.failureOf s pid ek),
            { s with payrolls := s.payrolls ++ rows, auditLogs := s.auditLogs ++ logs }) ∧
      List.Forall₂ (PayrollFor s pid
        (((countWorkingDays period.StartDate period.EndDate * 8 : Nat) : ℚ))) pre rows := by
    intro hfail
    obtain ⟨rows, logs, hl, hrows⟩ := PayrollService.RunPayroll.loop_fails_at ids
      (((countWorkingDays period.StartDate period.EndDate * 8 : Nat) : ℚ)) actor ip req post
      pre 0 s hpre haudit0 hfail
    exact ⟨rows, logs, by rw [hloop, hl], hrows⟩
  have hB : F.SucceedsFor s pid ek →
      F (.AuditCreate (PayrollService.auditOf ids actor ip req pre.length)) = true →
      ∃ rows logs, PayrollService.RunPayroll F ids s periodID actor ip req
        = (.error .auditFailed,
            { s with payrolls := s.payrolls ++ rows, auditLogs := s.auditLogs ++ logs }) ∧
      List.Forall₂ (PayrollFor s pid
        (((countWorkingDays period.StartDate period.EndDate * 8 : Nat) : ℚ)))
        (pre ++ [ek]) rows := by
    intro hok hfailaudit
    obtain ⟨rows, logs, hl, hrows⟩ := PayrollService.RunPayroll.loop_audit_fails_at ids
      (((countWorkingDays period.StartDate period.EndDate * 8 : Nat) : ℚ)) actor ip req post
      pre 0 s hpre haudit0 hok (by rwa [Nat.zero_add])
    exact ⟨rows, logs, by rw [hloop, hl], hrows⟩
  have hndpre : (pre.map User.ID).Nodup := by
    have := (List.nodup_append.mp hnd).1
    rw [List.map_append] at this
    exact (List.nodup_append.mp this).1
  refine ⟨?_, ?_, ?_⟩
  · intro hfail
    obtain ⟨rows, logs, hrun, hrows⟩ := hA hfail
    rw [hrun]
    refine ⟨rfl, ⟨rows, rfl, hrows⟩, ?_⟩
    intro u hu
    apply List.eq_nil_of_length_eq_zero
    rw [(hafter pre rows logs hk hrows).2]
    apply List.count_eq_zero_of_not_mem
    intro hmem
    rw [List.map_append] at hnodup
    exact (List.nodup_append.mp hnodup).2.2 hmem (List.mem_map_of_mem _ hu)
  · intro hok hfailaudit
    obtain ⟨rows, logs, hrun, hrows⟩ := hB hok hfailaudit
    rw [hrun]
    have hne : pre ++ [ek] ≠ [] := by simp
    refine ⟨rfl, ⟨rows, rfl, hrows⟩, ?_, ?_⟩
    · rw [(hafter (pre ++ [ek]) rows logs hne hrows).2]
      exact List.count_eq_one_of_mem (List.nodup_append.mp hnd).1
        (List.mem_map_of_mem _ (by simp))
    · intro u hu
      apply List.eq_nil_of_length_eq_zero
      rw [(hafter (pre ++ [ek]) rows logs hne hrows).2]
      apply List.count_eq_zero_of_not_mem
      intro hmem
      exact (List.nodup_append.mp hnd).2.2 hmem (List.mem_map_of_mem _ hu)
  · intro hcase
    have hcommon : ∃ e done rows logs, done ≠ [] ∧ (∀ u ∈ pre, u ∈ done) ∧
        (done.map User.ID).Nodup ∧
        PayrollService.RunPayroll F ids s periodID actor ip req
          = (.error e,
              { s with payrolls := s.payrolls ++ rows, auditLogs := s.auditLogs ++ logs }) ∧
        List.Forall₂ (PayrollFor s pid
          (((countWorkingDays period.StartDate period.EndDate * 8 : Nat) : ℚ))) done rows := by
      rcases hcase with hfail | ⟨hok, hfailaudit⟩
      · obtain ⟨rows, logs, hrun, hrows⟩ := hA hfail
        exact ⟨_, pre, rows, logs, hk, fun u hu => hu, hndpre, hrun, hrows⟩
      · obtain ⟨rows, logs, hrun, hrows⟩ := hB hok hfailaudit
        exact ⟨_, pre ++ [ek], rows, logs, by simp, fun u hu => List.mem_append_left _ hu,
          (List.nodup_append.mp hnd).1, hrun, hrows⟩
    obtain ⟨e, done, rows, logs, hne, hsub, hdn, hrun, hrows⟩ := hcommon
    rw [hrun]
    obtain ⟨hfrozen, hcount⟩ := hafter done rows logs hne hrows
    refine ⟨⟨e, rfl⟩, ?_, hfrozen, hretry _ hfrozen (by exact hperiod)⟩
    intro u hu
    rw [hcount]
    exact List.count_eq_one_of_mem hdn (List.mem_map_of_mem _ (hsub u hu))

/-- C18 (witness). In `exTwoOpen` the employees are ann (7) and bob (9). When the database
fails to count the attendance of bob, the run returns bob's error after writing ann's row:
the period is frozen, bob has no row, and the retry is turned down. When instead the audit
write for bob's row fails, the run returns "failed to log audit" and bob has one row. -/
theorem runPayroll_not_atomic_witness :
    exTwoOpen.employees = [exAnn] ++ exBob :: [] ∧ exTwoOpen.Open 1 ∧
    (PayrollService.RunPayroll exCountFails exIds exTwoOpen exPeriodID 8 "10.0.0.1" "r1").1
      = .error (.countAttendanceFailed 9) ∧
    ((PayrollService.RunPayroll exCountFails exIds exTwoOpen exPeriodID 8 "10.0.0.1"
      "r1").2.payrolls.map (fun p => (p.PeriodID, p.UserID))) = [(1, 7)] ∧
    (PayrollService.RunPayroll exCountFails exIds exTwoOpen exPeriodID 8 "10.0.0.1"
      "r1").2.Frozen 1 ∧
    (PayrollService.RunPayroll exCountFails exIds exTwoOpen exPeriodID 8 "10.0.0.1"
      "r1").2.payrollsOf 1 9 = [] ∧
    (PayrollService.RunPayroll noFaults exIds
      (PayrollService.RunPayroll exCountFails exIds exTwoOpen exPeriodID 8 "10.0.0.1" "r1").2
      exPeriodID 8 "10.0.0.1" "r2").1 = .error .payrollProcessed ∧
    (PayrollService.RunPayroll exSecondAuditFails exIds exTwoOpen exPeriodID 8 "10.0.0.1"
      "r1").1 = .error .auditFailed ∧
    ((PayrollService.RunPayroll exSecondAuditFails exIds exTwoOpen exPeriodID 8 "10.0.0.1"
      "r1").2.payrollsOf 1 9).length = 1 :=
  have h := runPayroll_not_atomic exCountFails exIds exTwoOpen exPeriodID 1 exPeriod 8
    "10.0.0.1" "r1" [exAnn] exBob [] (by decide) (by decide) (by decide) (by decide)
    (by decide) (by decide) rfl rfl
    (by
      intro u hu
      rw [List.mem_singleton] at hu
      subst hu
      exact ⟨by decide, rfl, by decide, rfl, by decide, fun _ _ => rfl⟩)
    (fun _ _ => rfl)
  have h' := runPayroll_not_atomic exSecondAuditFails exIds exTwoOpen exPeriodID 1 exPeriod 8
    "10.0.0.1" "r1" [exAnn] exBob [] (by decide) (by decide) (by decide) (by decide)
    (by decide) (by decide) rfl rfl
    (by
      intro u hu
      rw [List.mem_singleton] at hu
      subst hu
      exact ⟨rfl, rfl, by decide, rfl, by decide, fun _ _ => rfl⟩)
    (by
      intro j hj
      have : j = 0 := by simpa using hj
      subst this
      decide)
  have hA := h.1 (Or.inl rfl)
  have hC := h.2.2 (Or.inl (Or.inl rfl))
  have hB := h'.2.1 ⟨rfl, rfl, by decide, rfl, by decide, fun _ _ => rfl⟩ (by decide)
  ⟨by decide, by decide, hA.1,
    by simp only [PayrollService.RunPayroll, countWorkingDays_eq_range]; decide!,
    hC.2.2.1, hA.2.2 exBob (by decide),
    by rw [hC.2.2.2 noFaults exIds 8 "10.0.0.1" "r2" rfl rfl],
    hB.1, hB.2.2.1⟩

/-- C19. Ledger dates are not checked against the owning period. In `exShort` the open period
1 runs from Monday 2024-01-01 to Friday 2024-01-05 and user 7 has marked its 5 working days
and holds an overtime claim and a reimbursement claim. A mark for Monday 2024-01-08, a weekday after the end of the period, is accepted for period
1; the payroll run counts it: the attendance count 6 exceeds the 5 working days and the base
salary written, 4800000, exceeds the monthly salary 4000000. -/
theorem ledger_dates_not_checked_against_period :
    ∃ (s s1 s2 : Store) (period : AttendancePeriod) (date periodID : String) (d : Time)
      (user : User) (a : Attendance) (p : Payroll),
      period ∈ s.periods ∧ uuidParse periodID = some period.ID ∧ s.Open period.ID ∧
      user ∈ s.users ∧ user.Role = "employee" ∧
      Time.Parse date = some d ∧ d.isWorkingDay = true ∧
      ¬ (period.StartDate.day ≤ d.day ∧ d.day ≤ period.EndDate.day) ∧
      AttendanceService.SubmitAttendance noFaults exIds s date periodID user.ID "10.0.0.2"
        "r2" = (.ok a, s1) ∧
      a ∈ s1.marksOf user.ID period.ID ∧ a.Date = d ∧
      PayrollService.RunPayroll noFaults exIds s1 periodID 8 "10.0.0.1" "r1" = (.ok (), s2) ∧
      countWorkingDays period.StartDate period.EndDate < (s1.marksOf user.ID period.ID).length ∧
      p ∈ s2.payrolls ∧ p.PeriodID = period.ID ∧ p.UserID = user.ID ∧
      user.Salary < p.BaseSalary := by
  refine ⟨exShort, exShortOutside, exShortPaid, exShortPeriod, "2024-01-08", exPeriodID,
    Time.Date 2024 1 8, exAnn, exOutsideMark,
    { ID := 100, PeriodID := 1, UserID := 7, BaseSalary := 4800000, OvertimePay := 400000,
      ReimbursementAmount := 50000, TotalPay := 5250000, CreatedBy := 8,
      IPAddress := "10.0.0.1" },
    by decide, by decide, by decide, by decide, rfl, by decide, by decide, by decide,
    by decide, by decide, rfl, ?_, ?_, by decide, rfl, rfl, by decide!⟩
  · simp only [PayrollService.RunPayroll, countWorkingDays_eq_range]
    decide!
  · rw [countWorkingDays_eq_range]
    decide

/-- C20. Rejections write nothing: whenever `CreatePeriod`, `SubmitAttendance`,
`SubmitOvertime` or `SubmitReimbursement` returns a validation error (a date, a period
identifier or a range that is not valid, a frozen period, a weekend date, a duplicate mark,
more than 3 hours, an amount that is not positive, a missing description), the database it
leaves behind is the database it was given, every table included. -/
theorem rejections_write_nothing (F : Faults) (ids : Nat → UUID) (s : Store) (e : Err)
    (he : e.isValidation = true) :
    (∀ startDate endDate userID ip req,
      (AttendanceService.CreatePeriod F ids s startDate endDate userID ip req).1 = .error e →
      (AttendanceService.CreatePeriod F ids s startDate endDate userID ip req).2 = s) ∧
    (∀ date periodID userID ip req,
      (AttendanceService.SubmitAttendance F ids s date periodID userID ip req).1 = .error e →
      (AttendanceService.SubmitAttendance F ids s date periodID userID ip req).2 = s) ∧
    (∀ date hours periodID userID ip req,
      (AttendanceService.SubmitOvertime F ids s date hours periodID userID ip req).1
        = .error e →
      (AttendanceService.SubmitOvertime F ids s date hours periodID userID ip req).2 = s) ∧
    (∀ amount description periodID userID ip req,
      (AttendanceService.SubmitReimbursement F ids s amount description periodID userID ip
        req).1 = .error e →
      (AttendanceService.SubmitReimbursement F ids s amount description periodID userID ip
        req).2 = s) := by
  refine ⟨?_, ?_, ?_, ?_⟩
  · intro startDate endDate userID ip req
    cases hd : Time.Parse startDate with
    | none => simp [AttendanceService.CreatePeriod, hd]
    | some d =>
      cases hp : Time.Parse endDate with
      | none => simp [AttendanceService.CreatePeriod, hd, hp]
      | some d2 =>
        rw [AttendanceService.CreatePeriod_cases F ids s userID ip req hd hp]
        repeat' split
        all_goals first
          | (intro _; rfl)
          | (intro h; simp only [Except.error.injEq, reduceCtorEq] at h; subst h;
             simp [Err.isValidation] at he)
          | (intro h; simp at h)
  · intro date periodID userID ip req
    cases hd : Time.Parse date with
    | none => simp [AttendanceService.SubmitAttendance, hd]
    | some d =>
      cases hp : uuidParse periodID with
      | none => simp [AttendanceService.SubmitAttendance, hd, hp]
      | some pid =>
        rw [AttendanceService.SubmitAttendance_eq F ids s userID ip req hd hp]
        repeat' split
        all_goals first
          | (intro _; rfl)
          | (intro h; simp only [Except.error.injEq, reduceCtorEq] at h; subst h;
             simp [Err.isValidation] at he)
          | (intro h; simp at h)
  · intro date hours periodID userID ip req
    cases hd : Time.Parse date with
    | none => simp [AttendanceService.SubmitOvertime, hd]
    | some d =>
      cases hp : uuidParse periodID with
      | none => simp [AttendanceService.SubmitOvertime, hd, hp]
      | some pid =>
        rw [AttendanceService.SubmitOvertime_eq F ids s hours userID ip req hd hp]
        repeat' split
        all_goals first
          | (intro _; rfl)
          | (intro h; simp only [Except.error.injEq, reduceCtorEq] at h; subst h;
             simp [Err.isValidation] at he)
          | (intro h; simp at h)
  · intro amount description periodID userID ip req
    cases hp : uuidParse periodID with
    | none => simp [AttendanceService.SubmitReimbursement, hp]
    | some pid =>
      rw [AttendanceService.SubmitReimbursement_eq F ids s amount description userID ip req hp]
      repeat' split
      all_goals first
        | (intro _; rfl)
        | (intro h; simp only [Except.error.injEq, reduceCtorEq] at h; subst h;
           simp [Err.isValidation] at he)
        | (intro h; simp at h)

/-- C20 (witness). In `exOpen`, a mark for Saturday 2024-01-06 is turned down with the
weekend error, a validation error, and the database is left as it was. -/
theorem rejections_write_nothing_witness :
    Err.weekend.isValidation = true ∧
    (AttendanceService.SubmitAttendance noFaults exIds exOpen "2024-01-06" exPeriodID 7
      "10.0.0.2" "r2").1 = .error .weekend ∧
    (AttendanceService.SubmitAttendance noFaults exIds exOpen "2024-01-06" exPeriodID 7
      "10.0.0.2" "r2").2 = exOpen :=
  ⟨rfl, by decide,
    (rejections_write_nothing noFaults exIds exOpen .weekend rfl).2.1 "2024-01-06" exPeriodID
      7 "10.0.0.2" "r2" (by decide)⟩

/-- C22. `countWorkingDays` is week-periodic and additive: whatever day `start` is, the
`7 * n` days from `start` to `start + (7 * n - 1)` hold `5 * n` working days; and for days
`a ≤ b < c` the count from `a` to `c` is the count from `a` to `b` plus the count from the
day after `b` to `c`. -/
theorem countWorkingDays_periodic_additive :
    (∀ (start : Time) (n : Nat),
      countWorkingDays start (start.AddDays (7 * (n : Int) - 1)) = 5 * n) ∧
    (∀ a b c : Time, a.day ≤ b.day → b.day < c.day →
      countWorkingDays a c = countWorkingDays a b + countWorkingDays b.AddDay c) := by
  constructor
  · intro start n
    rw [countWorkingDays_eq_range]
    have hlen : ((start.AddDays (7 * (n : Int) - 1)).day + 1 - start.day).toNat = 7 * n := by
      simp only [Time.AddDays]
      omega
    rw [hlen]
    induction n with
    | zero => simp
    | succ n ih =>
      have hsplit : 7 * (n + 1) = 7 * n + 7 := by ring
      rw [hsplit, List.range_add, List.filter_append, List.length_append, ih (by
        simp only [Time.AddDays]
        omega), List.filter_map, List.length_map]
      have hfun : ((fun i : Nat => (Time.mk (start.day + (i : Int))).isWorkingDay) ∘
          (fun x => 7 * n + x)) =
          (fun i : Nat => (Time.mk ((start.day + 7 * (n : Int)) + (i : Int))).isWorkingDay) := by
        funext i
        simp only [Function.comp]
        congr 2
        push_cast
        ring
      rw [hfun, Time.week_has_five]
      ring
  · intro a b c hab hbc
    rw [countWorkingDays_eq_card, countWorkingDays_eq_card, countWorkingDays_eq_card]
    have hIcc : Finset.Icc a.day c.day = Finset.Icc a.day b.day ∪ Finset.Icc b.AddDay.day c.day := by
      ext k
      simp only [Finset.mem_Icc, Finset.mem_union, Time.AddDay]
      omega
    have hdisj : Disjoint (Finset.Icc a.day b.day) (Finset.Icc b.AddDay.day c.day) := by
      rw [Finset.disjoint_left]
      intro k h1 h2
      simp only [Finset.mem_Icc, Time.AddDay] at h1 h2
      omega
    rw [hIcc, Finset.filter_union,
      Finset.card_union_of_disjoint (Finset.disjoint_filter_filter hdisj)]

/-- C22 (witness). From Wednesday 2024-01-03, 3 weeks (to 2024-01-23) hold 15 working days;
and the count from 2024-01-01 to 2024-01-26 is the count to 2024-01-10 plus the count from
2024-01-11. -/
theorem countWorkingDays_periodic_additive_witness :
    (Time.Date 2024 1 3).AddDays (7 * ((3 : Nat) : Int) - 1) = Time.Date 2024 1 23 ∧
    countWorkingDays (Time.Date 2024 1 3) (Time.Date 2024 1 23) = 5 * 3 ∧
    (Time.Date 2024 1 10).AddDay = Time.Date 2024 1 11 ∧
    countWorkingDays (Time.Date 2024 1 1) (Time.Date 2024 1 26)
      = countWorkingDays (Time.Date 2024 1 1) (Time.Date 2024 1 10)
        + countWorkingDays (Time.Date 2024 1 11) (Time.Date 2024 1 26) :=
  ⟨by decide, countWorkingDays_periodic_additive.1 (Time.Date 2024 1 3) 3, by decide,
    countWorkingDays_periodic_additive.2 (Time.Date 2024 1 1) (Time.Date 2024 1 10)
      (Time.Date 2024 1 26) (by decide) (by decide)⟩

/-- C21 (counterexample). No period of `exOpen` carries the identifier 2 and no payroll row
does either. The mark of user 7 for Tuesday 2024-01-02 in that period is accepted and stored;
the same submission made again, still for a weekday and still for a period that does not
exist, fails with "attendance already submitted for this date" and stores nothing. -/
theorem submitAttendance_missing_period_duplicate_rejected :
    uuidParse exGhostID = some 2 ∧
    (∀ p ∈ exGhostMarked.periods, p.ID ≠ 2) ∧ exGhostMarked.Open 2 ∧
    Time.Parse "2024-01-02" = some (Time.Date 2024 1 2) ∧
    (Time.Date 2024 1 2).Weekday = Weekday.Tuesday ∧
    AttendanceService.SubmitAttendance noFaults exIds exOpen "2024-01-02" exGhostID 7
      "10.0.0.2" "r2" = (.ok exGhostMark, exGhostMarked) ∧
    AttendanceService.SubmitAttendance noFaults exIds exGhostMarked "2024-01-02" exGhostID 7
      "10.0.0.2" "r3" = (.error .duplicateAttendance, exGhostMarked) := by
  refine ⟨by decide, by decide, by decide, by decide, by decide, by decide, by decide⟩

/-- C21 (amended). For a well-formed period identifier that no stored period carries and
that has no payroll row, the period lookup finds nothing, and yet, when the insert and the
audit write succeed: `SubmitAttendance` for a weekday date on which the user has no mark under
that identifier, `SubmitOvertime` with at most 3 hours and `SubmitReimbursement` with a
positive amount and a non-empty description each return the new entry, which carries that
period identifier, and append it to its table together with one audit row. -/
theorem submissions_do_not_need_the_period (F : Faults) (ids : Nat → UUID) (s : Store)
    (periodID : String) (pid : UUID) (userID : UUID) (ip req : String)
    (hpid : uuidParse periodID = some pid)
    (habsent : ∀ p ∈ s.periods, p.ID ≠ pid) (hopen : s.Open pid)
    (hA : ∀ a, F (.CreateAttendance a) = false) (hO : ∀ o, F (.CreateOvertime o) = false)
    (hR : ∀ r, F (.CreateReimbursement r) = false) (hL : ∀ l, F (.AuditCreate l) = false) :
    AttendanceRepository.FindPeriodByID F s pid = none ∧
    (∀ (date : String) (d : Time), Time.Parse date = some d → d.isWorkingDay = true →
      s.marksOn userID d pid = [] →
      AttendanceService.SubmitAttendance F ids s date periodID userID ip req
        = (.ok (AttendanceService.markOf ids userID d pid ip),
            { s with
              attendances := s.attendances ++ [AttendanceService.markOf ids userID d pid ip],
              auditLogs := s.auditLogs ++
                [AttendanceService.auditOf ids "attendance" userID ip req] }) ∧
      (AttendanceService.markOf ids userID d pid ip).PeriodID = pid) ∧
    (∀ (date : String) (d : Time) (hours : ℚ), Time.Parse date = some d → hours ≤ 3 →
      AttendanceService.SubmitOvertime F ids s date hours periodID userID ip req
        = (.ok (AttendanceService.overtimeOf ids userID d hours pid ip),
            { s with
              overtimes := s.overtimes ++
                [AttendanceService.overtimeOf ids userID d hours pid ip],
              auditLogs := s.auditLogs ++
                [AttendanceService.auditOf ids "overtime" userID ip req] }) ∧
      (AttendanceService.overtimeOf ids userID d hours pid ip).PeriodID = pid) ∧
    (∀ (amount : ℚ) (description : String), 0 < amount → description ≠ "" →
      AttendanceService.SubmitReimbursement F ids s amount description periodID userID ip req
        = (.ok (AttendanceService.reimbursementOf ids userID amount description pid ip),
            { s with
              reimbursements := s.reimbursements ++
                [AttendanceService.reimbursementOf ids userID amount description pid ip],
              auditLogs := s.auditLogs ++
                [AttendanceService.auditOf ids "reimbursement" userID ip req] }) ∧
      (AttendanceService.reimbursementOf ids userID amount description pid ip).PeriodID
        = pid) := by
  have hgate := AttendanceRepository.IsPayrollProcessed_of_open F hopen
  refine ⟨AttendanceRepository.FindPeriodByID_of_absent F habsent, ?_, ?_, ?_⟩
  · intro date d hdate hwd hnone
    refine ⟨?_, rfl⟩
    rw [AttendanceService.SubmitAttendance_eq F ids s userID ip req hdate hpid, hgate,
      if_neg (by simp), if_neg (Time.not_weekend_of_isWorkingDay hwd),
      AttendanceRepository.FindAttendanceByUserAndDate_of_nil F hnone, if_neg (by simp),
      hA, if_neg (by simp), hL, if_neg (by simp)]
  · intro date d hours hdate hle
    refine ⟨?_, rfl⟩
    rw [AttendanceService.SubmitOvertime_eq F ids s hours userID ip req hdate hpid, hgate,
      if_neg (by simp), if_neg (not_lt.mpr hle), hO, if_neg (by simp), hL, if_neg (by simp)]
  · intro amount description hpos hne
    refine ⟨?_, rfl⟩
    rw [AttendanceService.SubmitReimbursement_eq F ids s amount description userID ip req
      hpid, hgate, if_neg (by simp), if_neg (not_le.mpr hpos), if_neg hne, hR,
      if_neg (by simp), hL, if_neg (by simp)]

/-- C21 (witness). In `exOpen`, where no period carries the identifier 2: the period lookup
finds nothing, the payroll run fails with "period not found", and the mark, the 2 hours of
overtime and the 50000 reimbursement of user 7 under that identifier are all stored. -/
theorem submissions_do_not_need_the_period_witness :
    uuidParse exGhostID = some 2 ∧ (∀ p ∈ exOpen.periods, p.ID ≠ 2) ∧ exOpen.Open 2 ∧
    AttendanceRepository.FindPeriodByID noFaults exOpen 2 = none ∧
    (PayrollService.RunPayroll noFaults exIds exOpen exGhostID 8 "10.0.0.1" "r1").1
      = .error .periodNotFound ∧
    AttendanceService.SubmitAttendance noFaults exIds exOpen "2024-01-02" exGhostID 7
      "10.0.0.2" "r2" = (.ok exGhostMark, exGhostMarked) ∧
    (AttendanceService.SubmitOvertime noFaults exIds exOpen "2024-01-02" 2 exGhostID 7
      "10.0.0.2" "r2").1
      = .ok (AttendanceService.overtimeOf exIds 7 (Time.Date 2024 1 2) 2 2 "10.0.0.2") ∧
    (AttendanceService.SubmitReimbursement noFaults exIds exOpen 50000 "taxi" exGhostID 7
      "10.0.0.2" "r2").1
      = .ok (AttendanceService.reimbursementOf exIds 7 50000 "taxi" 2 "10.0.0.2") :=
  have h := submissions_do_not_need_the_period noFaults exIds exOpen exGhostID 2 7
    "10.0.0.2" "r2" (by decide) (by decide) (by decide) (fun _ => rfl) (fun _ => rfl)
    (fun _ => rfl) (fun _ => rfl)
  ⟨by decide, by decide, by decide, h.1, by decide,
    (h.2.1 "2024-01-02" (Time.Date 2024 1 2) (by decide) (by decide) (by decide)).1,
    congrArg Prod.fst
      (h.2.2.1 "2024-01-02" (Time.Date 2024 1 2) 2 (by decide) (by norm_num)).1,
    congrArg Prod.fst (h.2.2.2 50000 "taxi" (by norm_num) (by decide)).1⟩

end Payslip
